import Mathlib

/-!
# Reconciliation core of the HAProxy ingress controller

A shallow embedding of `controller-annotations.go`, `controller-backend-update.go`
and `controller-backend-switching.go`.

Conventions of the embedding:

* Go strings are Lean strings (sequences of code points); `fmt.Sprintf` with `%s`
  verbs is string concatenation.
* Go maps are association lists with one entry per key; the order of the list is
  the order in which `range` happens to visit the map.
* Pointer-typed optional fields (`*Balance`, `*int64`, ...) are `Option`s, `nil`
  being `none`.
* A method with a pointer receiver is embedded twice: under the name of the
  method on its receiver type (`backend.updateBalance`), as the receiver after
  the call together with the returned error, statement by statement; and under
  the plain name (`updateBalance`), as the result that a caller sees, the
  receiver after a success or the error. `backend_update_results` relates the
  two.
* Functions and constants declared outside the three files are parameters
  (`Externals`, the resolved annotations) or are modelled and marked as such.
-/

namespace KubernetesIngress

/-! ## Go library functions used by the sources -/

/-- Map index with the comma-ok form: `v, ok := m[k]`. -/
def mapGet {α : Type} (m : List (String × α)) (k : String) : Option α :=
  List.lookup k m

/-- Map assignment `m[k] = v`: the entry of `k` is replaced. -/
def mapSet {α : Type} (m : List (String × α)) (k : String) (v : α) : List (String × α) :=
  (k, v) :: m.filter (fun e => e.1 != k)

/-- Builtin `delete(m, k)`. -/
def mapDelete {α : Type} (m : List (String × α)) (k : String) : List (String × α) :=
  m.filter (fun e => e.1 != k)

/-- Go `strings.Replace(s, old, new, -1)` for one-character `old` and `new`:
every occurrence of `old` is replaced. -/
def stringsReplaceAll (s : String) (old new : Char) : String :=
  ⟨s.data.map (fun c => if c = old then new else c)⟩

/-- Go `unicode.IsSpace`: the Latin-1 spaces and the code points with the
White_Space property. -/
def isSpace (c : Char) : Bool :=
  let n := c.toNat
  n == 0x09 || n == 0x0A || n == 0x0B || n == 0x0C || n == 0x0D || n == 0x20 ||
  n == 0x85 || n == 0xA0 || n == 0x1680 || (0x2000 ≤ n && n ≤ 0x200A) ||
  n == 0x2028 || n == 0x2029 || n == 0x202F || n == 0x205F || n == 0x3000

/-- Go `strings.TrimSpace` on the characters of a string. -/
def trimSpaceChars (l : List Char) : List Char :=
  ((l.dropWhile isSpace).reverse.dropWhile isSpace).reverse

/-- Go `strings.TrimSpace`. -/
def stringsTrimSpace (s : String) : String := ⟨trimSpaceChars s.data⟩

/-- The scan of `strings.Fields`: `cur` is the field being read, in reverse. -/
def fieldsAux : List Char → List Char → List String
  | cur, [] => if cur.isEmpty then [] else [⟨cur.reverse⟩]
  | cur, c :: cs =>
    if isSpace c then
      if cur.isEmpty then fieldsAux [] cs else ⟨cur.reverse⟩ :: fieldsAux [] cs
    else fieldsAux (c :: cur) cs

/-- Go `strings.Fields`: the maximal runs of non-space characters. -/
def stringsFields (s : String) : List String := fieldsAux [] s.data

/-- Go `strings.Join`. -/
def stringsJoin (l : List String) (sep : String) : String := sep.intercalate l

/-- Go `strconv.ParseBool`. -/
def strconvParseBool (s : String) : Except String Bool :=
  if s = "1" ∨ s = "t" ∨ s = "T" ∨ s = "TRUE" ∨ s = "true" ∨ s = "True" then .ok true
  else if s = "0" ∨ s = "f" ∨ s = "F" ∨ s = "FALSE" ∨ s = "false" ∨ s = "False" then .ok false
  else .error ("strconv.ParseBool: parsing " ++ s ++ ": invalid syntax")

/-- Go string order `a <= b` (bytewise, which on UTF-8 is the order of the code
points). -/
def goStringLE (a b : String) : Prop := a.data ≤ b.data

instance goStringLE_decidable : DecidableRel goStringLE :=
  fun a b => inferInstanceAs (Decidable (a.data ≤ b.data))

/-- The order of `sort.Reverse(sort.StringSlice(_))`: `a` may stand before `b`. -/
def reverseLE (a b : String) : Prop := goStringLE b a

instance reverseLE_decidable : DecidableRel reverseLE :=
  fun a b => inferInstanceAs (Decidable (goStringLE b a))

instance reverseLE_isTotal : IsTotal String reverseLE :=
  ⟨fun x y => le_total y.data x.data⟩

instance reverseLE_isTrans : IsTrans String reverseLE :=
  ⟨fun _ _ _ hab hbc => @le_trans (List Char) _ _ _ _ hbc hab⟩

instance reverseLE_isAntisymm : IsAntisymm String reverseLE :=
  ⟨fun _ _ hab hba => String.ext (@le_antisymm (List Char) _ _ _ hba hab)⟩

/-- Go `sort.Sort(sort.Reverse(sort.StringSlice(keys)))`. -/
def sortReverse (keys : List String) : List String :=
  List.insertionSort reverseLE keys

/-! ## Data model -/

/-- Modelled from the spec: the change status of a resolved annotation; the type
`Status` and its constants `EMPTY`, `ADDED`, `MODIFIED`, `DELETED` are declared
outside the sources (`EMPTY` is the empty string, "unchanged"). -/
inductive Status where
  | EMPTY
  | ADDED
  | MODIFIED
  | DELETED
  deriving DecidableEq, Repr

/-- Modelled from the spec: the resolved annotation `StringW` (the spec's
Directive), declared outside the sources. -/
structure StringW where
  Value : String
  OldValue : String
  Status : Status
  deriving DecidableEq, Repr

/-- The fields of `IngressPath` that the sources read or write. -/
structure IngressPath where
  Path : String
  IsSSLPassthrough : Bool
  Status : Status
  deriving DecidableEq, Repr

/-- The fields of `models.HTTPRequestRule` that the sources set (`Type_` is the
field `Type`). -/
structure HTTPRequestRule where
  ID : Int
  Type_ : String
  Cond : String
  CondTest : String
  deriving DecidableEq, Repr

/-- The type `UseBackendRule` of `controller-backend-switching.go`. -/
structure UseBackendRule where
  Host : String
  Path : String
  Backend : String
  Namespace : String
  deriving DecidableEq, Repr

/-- The type `UseBackendRules`: a map from rule key to rule. -/
abbrev UseBackendRules := List (String × UseBackendRule)

/-- The fields of `models.Balance` that the sources set. -/
structure Balance where
  Algorithm : String
  deriving DecidableEq, Repr

/-- The fields of `models.Forwardfor` that the sources set. -/
structure Forwardfor where
  Enabled : String
  deriving DecidableEq, Repr

/-- The fields of `models.Httpchk` that the sources set; an unset field is the
empty string. -/
structure Httpchk where
  Method : String
  URI : String
  Version : String
  deriving DecidableEq, Repr

/-- The type `backend` (`models.Backend`), with the fields the sources use. -/
structure backend where
  Name : String
  Mode : String
  Balance : Option Balance
  Forwardfor : Option Forwardfor
  Httpchk : Option Httpchk
  Abortonclose : String
  CheckTimeout : Option Int
  deriving DecidableEq, Repr

/-- The fields of `models.Frontend` that the sources read. -/
structure Frontend where
  Name : String
  Mode : String
  DefaultBackend : String
  deriving DecidableEq, Repr

/-- The fields of `models.BackendSwitchingRule` that the sources set. -/
structure BackendSwitchingRule where
  Cond : String
  CondTest : String
  Name : String
  ID : Int
  deriving DecidableEq, Repr

/-- The type `types.SimpleTimeout` of the configuration parser. -/
structure SimpleTimeout where
  Value : String
  deriving DecidableEq, Repr

/-- The part of `c.cfg` used by the sources. -/
structure Configuration where
  HTTPRequests : List (String × List HTTPRequestRule)
  HTTPRequestsStatus : Status
  BackendSwitchingRules : List (String × UseBackendRules)
  BackendSwitchingStatus : List (String × Unit)
  deriving DecidableEq, Repr

/-- The controller: `c.cfg` and the proxy configuration held by the API client
(frontends, backends, the switching rules created per frontend in the order of
their creation, the timeouts of the defaults section). The two flags tell
whether listing the frontends or the backends fails. -/
structure HAProxyController where
  cfg : Configuration
  frontends : List Frontend
  frontendsGetFails : Bool
  backends : List backend
  backendsGetFails : Bool
  switchingRules : List (String × List BackendSwitchingRule)
  defaults : List (String × SimpleTimeout)
  deriving DecidableEq, Repr

/-- The functions of other packages or files that the updaters call:
`ParseTime`, `models.Balance.Validate` and `models.Httpchk.Validate`. -/
structure Externals where
  ParseTime : String → Except String Int
  validateBalance : Balance → Except String Unit
  validateHttpchk : Httpchk → Except String Unit

/-- Modelled from the spec: the constant `ModeTCP`, declared outside the sources;
`handleSSLPassthrough` writes the same mode as the literal "tcp". -/
def ModeTCP : String := "tcp"

/-! ## The configuration accessor

The methods of the controller that wrap the API client are declared outside the
sources. They act on the in-memory configuration: an entity that exists can be
read, edited and deleted. -/

/-- Modelled from the spec: `c.frontendsGet()`, the accessor's ListEntities for
frontends. -/
def frontendsGet (c : HAProxyController) : Except String (List Frontend) :=
  if c.frontendsGetFails then .error "frontends: listing failed" else .ok c.frontends

/-- Modelled from the spec: `c.backendsGet()`, the accessor's ListEntities for
backends. -/
def backendsGet (c : HAProxyController) : Except String (List backend) :=
  if c.backendsGetFails then .error "backends: listing failed" else .ok c.backends

/-- Modelled from the spec: `c.backendGet(name)`, the accessor's GetEntity. -/
def backendGet (c : HAProxyController) (name : String) : Except String backend :=
  match c.backends.find? (fun b => b.Name == name) with
  | some b => .ok b
  | none => .error ("backend " ++ name ++ " does not exist")

/-- Modelled from the spec: `c.backendEdit(b)`, which stores `b` in place of the
backend of the same name. -/
def backendEdit (c : HAProxyController) (b : backend) : Except String HAProxyController :=
  if c.backends.any (fun x => x.Name == b.Name) then
    .ok { c with backends := c.backends.map (fun x => if x.Name == b.Name then b else x) }
  else .error ("backend " ++ b.Name ++ " does not exist")

/-- Modelled from the spec: `c.backendDelete(name)`, the accessor's DeleteEntity. -/
def backendDelete (c : HAProxyController) (name : String) : HAProxyController :=
  { c with backends := c.backends.filter (fun x => x.Name != name) }

/-- Modelled from the spec: `c.backendSwitchingRuleDeleteAll(frontend)`, which
discards the rules compiled for the frontend. -/
def backendSwitchingRuleDeleteAll (c : HAProxyController) (frontend : String) :
    HAProxyController :=
  { c with switchingRules := mapDelete c.switchingRules frontend }

/-- Modelled from the spec: `c.backendSwitchingRuleCreate(frontend, rule)`; the
rules of a frontend are kept in the order of their creation. -/
def backendSwitchingRuleCreate (c : HAProxyController) (frontend : String)
    (rule : BackendSwitchingRule) : HAProxyController :=
  { c with switchingRules :=
      mapSet c.switchingRules frontend (((mapGet c.switchingRules frontend).getD []) ++ [rule]) }

/-- Modelled from the spec: `config.Get(parser.Defaults, parser.DefaultSectionName,
attr)` on the active configuration. -/
def defaultsGet (c : HAProxyController) (attr : String) : Except String SimpleTimeout :=
  match mapGet c.defaults attr with
  | some data => .ok data
  | none => .error ("no data for " ++ attr)

/-- Modelled from the spec: `config.Set(parser.Defaults, parser.DefaultSectionName,
attr, data)`, and the assignment through the pointer that `config.Get`
returns. -/
def defaultsSet (c : HAProxyController) (attr : String) (data : SimpleTimeout) :
    HAProxyController :=
  { c with defaults := mapSet c.defaults attr data }

/-! ## Rate limiting: `handleRateLimitingAnnotations` -/

/-- The rule `httpRequest1` of `handleRateLimitingAnnotations`. -/
def httpRequest1 (path : IngressPath) (annWhitelist : StringW) : HTTPRequestRule :=
  { ID := 0, Type_ := "allow", Cond := "if",
    CondTest := "\x7b path_beg " ++ path.Path ++ " \x7d \x7b src " ++
      stringsReplaceAll annWhitelist.Value ',' ' ' ++ " \x7d" }

/-- The rule `httpRequest2` of `handleRateLimitingAnnotations`. -/
def httpRequest2 (path : IngressPath) : HTTPRequestRule :=
  { ID := 0, Type_ := "deny", Cond := "if",
    CondTest := "\x7b path_beg " ++ path.Path ++ " \x7d" }

/-- The key of a path in `c.cfg.HTTPRequests`. -/
def whitelistKey (path : IngressPath) : String := "WHT-" ++ path.Path

/-- The local `allowRateLimiting` of `handleRateLimitingAnnotations`. -/
def allowRateLimiting (annWhitelistRL : StringW) : Bool :=
  annWhitelistRL.Value != "" && annWhitelistRL.Value != "OFF"

/-- The local `status` of `handleRateLimitingAnnotations` when the `switch` is
reached. -/
def rateLimitStatus (cfg : Configuration) (annWhitelist annWhitelistRL : StringW)
    (path : IngressPath) : Status :=
  let status := annWhitelist.Status
  if status = Status.EMPTY then
    let status :=
      if annWhitelistRL.Status ≠ Status.EMPTY then
        match mapGet cfg.HTTPRequests (whitelistKey path) with
        | some data => if data.length > 0 then Status.MODIFIED else status
        | none => status
      else status
    if annWhitelistRL.Value != "" && path.Status = Status.ADDED then Status.MODIFIED
    else status
  else status

/-- The function `handleRateLimitingAnnotations`; `annWhitelist` and
`annWhitelistRL` are the two results of `GetValueFromAnnotations`. -/
def handleRateLimitingAnnotations (cfg : Configuration) (annWhitelist annWhitelistRL : StringW)
    (path : IngressPath) : Configuration :=
  match rateLimitStatus cfg annWhitelist annWhitelistRL path with
  | Status.ADDED | Status.MODIFIED =>
    let rules :=
      if annWhitelist.Value != "" then
        if allowRateLimiting annWhitelistRL then [httpRequest1 path annWhitelist]
        else [httpRequest2 path, httpRequest1 path annWhitelist]
      else []
    { cfg with
      HTTPRequests := mapSet cfg.HTTPRequests (whitelistKey path) rules
      HTTPRequestsStatus := Status.MODIFIED }
  | Status.DELETED =>
    { cfg with HTTPRequests := mapSet cfg.HTTPRequests (whitelistKey path) [] }
  | Status.EMPTY => cfg

/-! ## Default timeouts: `handleDefaultTimeout`, `handleDefaultTimeouts` -/

/-- The function `handleDefaultTimeout`; `getValue name` is the result of
`GetValueFromAnnotations(name, c.cfg.ConfigMap.Annotations)`, `none` when it
returns an error. -/
def handleDefaultTimeout (getValue : String → Option StringW) (c : HAProxyController)
    (timeout : String) (hasDefault : Bool) : Bool × HAProxyController :=
  match getValue ("timeout-" ++ timeout) with
  | none => (false, c)
  | some annTimeout =>
    if annTimeout.Status ≠ Status.EMPTY then
      match defaultsGet c ("timeout " ++ timeout) with
      | .error _ =>
        if hasDefault then (false, c)
        else (true, defaultsSet c ("timeout " ++ timeout) { Value := annTimeout.Value })
      | .ok data =>
        (true, defaultsSet c ("timeout " ++ timeout) { data with Value := annTimeout.Value })
    else (false, c)

/-- The timeouts that `handleDefaultTimeouts` handles, in the order of its calls. -/
def defaultTimeoutNames : List String :=
  ["http-request", "connect", "client", "queue", "server", "tunnel", "http-keep-alive"]

/-- The function `handleDefaultTimeouts`: each call is
`hasChanges = c.handleDefaultTimeout(name, true) || hasChanges`. -/
def handleDefaultTimeouts (getValue : String → Option StringW) (c : HAProxyController) :
    Bool × HAProxyController :=
  defaultTimeoutNames.foldl
    (fun (acc : Bool × HAProxyController) timeout =>
      let r := handleDefaultTimeout getValue acc.2 timeout true
      (r.1 || acc.1, r.2))
    (false, c)

/-! ## Backend updaters: `controller-backend-update.go` -/

/-- The method `updateBalance`. -/
def updateBalance (ext : Externals) (b : backend) (data : StringW) : Except String backend :=
  let val : Balance := { Algorithm := data.Value }
  match ext.validateBalance val with
  | .error err => .error ("balance algorithm: " ++ err)
  | .ok _ => .ok { b with Balance := some val }

/-- The method `updateCheckTimeout`. -/
def updateCheckTimeout (ext : Externals) (b : backend) (data : StringW) :
    Except String backend :=
  match ext.ParseTime data.Value with
  | .error err => .error ("timeout check: " ++ err)
  | .ok val => .ok { b with CheckTimeout := some val }

/-- The method `updateForwardfor`. -/
def updateForwardfor (b : backend) (data : StringW) : Except String backend :=
  if b.Mode = ModeTCP then
    .ok { b with Forwardfor := none }
  else
    match strconvParseBool data.Value with
    | .error err => .error err
    | .ok enabled =>
      if enabled then .ok { b with Forwardfor := some { Enabled := "enabled" } }
      else .ok { b with Forwardfor := none }

/-- The value `val` that the `switch` of `updateHttpchk` builds from the fields;
`none` for the case of no field. -/
def httpchkOfParams : List String → Option Httpchk
  | [] => none
  | [uri] => some { Method := "", URI := uri, Version := "" }
  | [method, uri] => some { Method := method, URI := uri, Version := "" }
  | method :: uri :: rest =>
    some { Method := method, URI := uri, Version := stringsJoin rest " " }

/-- The method `updateHttpchk`. -/
def updateHttpchk (ext : Externals) (b : backend) (data : StringW) : Except String backend :=
  let httpCheckParams := stringsFields (stringsTrimSpace data.Value)
  match httpchkOfParams httpCheckParams with
  | none => .error "httpchk option: incorrect number of params"
  | some val =>
    match ext.validateHttpchk val with
    | .error err => .error ("httpchk option: " ++ err)
    | .ok _ => .ok { b with Httpchk := some val }

/-- The method `updateAbortOnClose`. -/
def updateAbortOnClose (b : backend) (data : StringW) : Except String backend :=
  if data.Value = "enabled" then .ok { b with Abortonclose := "enabled" }
  else .ok { b with Abortonclose := "" }

/-! ## Backend updaters on their receiver

The same five methods with the receiver made explicit: the first component is
the receiver `*b` when the method returns, the second the returned error, `none`
for `nil`. The assignments to `b` and the `return`s are those of the source, in
its order. -/

/-- The method `(b *backend) updateBalance`: the receiver after the call and the
error. -/
def backend.updateBalance (b : backend) (ext : Externals) (data : StringW) :
    backend × Option String :=
  let val : KubernetesIngress.Balance := { Algorithm := data.Value }
  match ext.validateBalance val with
  | .error err => (b, some ("balance algorithm: " ++ err))
  | .ok _ =>
    let b1 : backend := { b with Balance := some val }
    (b1, none)

/-- The method `(b *backend) updateCheckTimeout`: the receiver after the call and
the error. -/
def backend.updateCheckTimeout (b : backend) (ext : Externals) (data : StringW) :
    backend × Option String :=
  match ext.ParseTime data.Value with
  | .error err => (b, some ("timeout check: " ++ err))
  | .ok val =>
    let b1 : backend := { b with CheckTimeout := some val }
    (b1, none)

/-- The method `(b *backend) updateForwardfor`: the receiver after the call and
the error. -/
def backend.updateForwardfor (b : backend) (data : StringW) : backend × Option String :=
  if b.Mode = ModeTCP then
    let b1 : backend := { b with Forwardfor := none }
    (b1, none)
  else
    match strconvParseBool data.Value with
    | .error err => (b, some err)
    | .ok enabled =>
      let b1 : backend :=
        if enabled then { b with Forwardfor := some { Enabled := "enabled" } }
        else { b with Forwardfor := none }
      (b1, none)

/-- The method `(b *backend) updateHttpchk`: the receiver after the call and the
error. -/
def backend.updateHttpchk (b : backend) (ext : Externals) (data : StringW) :
    backend × Option String :=
  let httpCheckParams := stringsFields (stringsTrimSpace data.Value)
  match httpchkOfParams httpCheckParams with
  | none => (b, some "httpchk option: incorrect number of params")
  | some val =>
    match ext.validateHttpchk val with
    | .error err => (b, some ("httpchk option: " ++ err))
    | .ok _ =>
      let b1 : backend := { b with Httpchk := some val }
      (b1, none)

/-- The method `(b *backend) updateAbortOnClose`: the receiver after the call and
the error. -/
def backend.updateAbortOnClose (b : backend) (data : StringW) : backend × Option String :=
  let b1 : backend :=
    if data.Value = "enabled" then { b with Abortonclose := "enabled" }
    else { b with Abortonclose := "" }
  (b1, none)

/-- The result that the caller of an updater sees: the receiver after a success,
or the error. -/
def callResult (r : backend × Option String) : Except String backend :=
  match r.2 with
  | none => .ok r.1
  | some err => .error err

/-! ## Backend annotations: `handleBackendAnnotations` -/

/-- The keys of the map `backendAnnotations`. -/
def backendAnnotationNames : List String :=
  ["abortonclose", "check-http", "forwarded-for", "load-balance", "timeout-check"]

/-- One iteration of the loop of `handleBackendAnnotations` on the entry `k, v`
of `backendAnnotations`; the state is the local `backend` and `needReload`. -/
def backendAnnotationStep (ext : Externals) (newBackend : Bool) (st : backend × Bool)
    (kv : String × Option StringW) : backend × Bool :=
  match kv.2 with
  | none => st
  | some v =>
    if v.Status ≠ Status.EMPTY ∨ newBackend = true then
      if kv.1 = "abortonclose" then
        match updateAbortOnClose st.1 v with
        | .error _ => st
        | .ok b => (b, true)
      else if kv.1 = "check-http" then
        if v.Status = Status.DELETED ∧ newBackend = false then
          ({ st.1 with Httpchk := none }, true)
        else
          match updateHttpchk ext st.1 v with
          | .error _ => st
          | .ok b => (b, true)
      else if kv.1 = "forwarded-for" then
        match updateForwardfor st.1 v with
        | .error _ => st
        | .ok b => (b, true)
      else if kv.1 = "load-balance" then
        match updateBalance ext st.1 v with
        | .error _ => st
        | .ok b => (b, true)
      else if kv.1 = "timeout-check" then
        if v.Status = Status.DELETED ∧ newBackend = false then
          ({ st.1 with CheckTimeout := none }, true)
        else
          match updateCheckTimeout ext st.1 v with
          | .error _ => st
          | .ok b => (b, true)
      else st
    else st

/-- The loop of `handleBackendAnnotations` over `backendAnnotations`, whose
entries are visited in the order `order`; `getValue name` is the result of
`GetValueFromAnnotations(name, service, ingress, configmap)`, `none` when it
returns an error (the entry is then `nil`). -/
def applyBackendAnnotations (ext : Externals) (getValue : String → Option StringW)
    (order : List String) (newBackend : Bool) (b : backend) : backend × Bool :=
  (order.map (fun k => (k, getValue k))).foldl (backendAnnotationStep ext newBackend) (b, false)

/-- The zero value of `models.Backend`, which `model` holds when `backendGet`
returns an error. -/
def zeroBackend : backend :=
  { Name := "", Mode := "", Balance := none, Forwardfor := none, Httpchk := none,
    Abortonclose := "", CheckTimeout := none }

/-- The function `handleBackendAnnotations`: the result is `needReload`, the
error if any, and the controller after `backendEdit`. -/
def handleBackendAnnotations (ext : Externals) (getValue : String → Option StringW)
    (order : List String) (c : HAProxyController) (backendName : String) (newBackend : Bool) :
    (Bool × Option String) × HAProxyController :=
  let model := match backendGet c backendName with
    | .ok m => m
    | .error _ => zeroBackend
  let r := applyBackendAnnotations ext getValue order newBackend model
  if r.2 then
    match backendEdit c r.1 with
    | .error err => ((r.2, some err), c)
    | .ok c1 => ((r.2, none), c1)
  else ((r.2, none), c)

/-! ## Backend annotations: the effect of an iteration -/

/-- The change that an iteration of the loop of `handleBackendAnnotations` makes to
the backend: one field and its new value. A description used in the proofs. -/
inductive FieldEdit where
  | abortonclose (x : String)
  | httpchk (x : Option Httpchk)
  | forwardfor (x : Option Forwardfor)
  | balance (x : Option Balance)
  | checkTimeout (x : Option Int)

/-- The backend after a change of one field. -/
def FieldEdit.run : FieldEdit → backend → backend
  | .abortonclose x, b => { b with Abortonclose := x }
  | .httpchk x, b => { b with Httpchk := x }
  | .forwardfor x, b => { b with Forwardfor := x }
  | .balance x, b => { b with Balance := x }
  | .checkTimeout x, b => { b with CheckTimeout := x }

/-- The key of `backendAnnotations` whose case makes the change. -/
def FieldEdit.key : FieldEdit → String
  | .abortonclose _ => "abortonclose"
  | .httpchk _ => "check-http"
  | .forwardfor _ => "forwarded-for"
  | .balance _ => "load-balance"
  | .checkTimeout _ => "timeout-check"

/-- The change that the iteration on the entry `kv` makes to a backend of mode
`mode`, `none` when the iteration leaves the backend and `needReload` as they
are; `backendAnnotationStep_edit` shows that this describes
`backendAnnotationStep`. -/
def stepEdit (ext : Externals) (newBackend : Bool) (mode : String)
    (kv : String × Option StringW) : Option FieldEdit :=
  match kv.2 with
  | none => none
  | some v =>
    if v.Status ≠ Status.EMPTY ∨ newBackend = true then
      if kv.1 = "abortonclose" then
        some (.abortonclose (if v.Value = "enabled" then "enabled" else ""))
      else if kv.1 = "check-http" then
        if v.Status = Status.DELETED ∧ newBackend = false then some (.httpchk none)
        else
          match httpchkOfParams (stringsFields (stringsTrimSpace v.Value)) with
          | none => none
          | some val =>
            match ext.validateHttpchk val with
            | .error _ => none
            | .ok _ => some (.httpchk (some val))
      else if kv.1 = "forwarded-for" then
        if mode = ModeTCP then some (.forwardfor none)
        else
          match strconvParseBool v.Value with
          | .error _ => none
          | .ok enabled =>
            some (.forwardfor (if enabled then some { Enabled := "enabled" } else none))
      else if kv.1 = "load-balance" then
        match ext.validateBalance { Algorithm := v.Value } with
        | .error _ => none
        | .ok _ => some (.balance (some { Algorithm := v.Value }))
      else if kv.1 = "timeout-check" then
        if v.Status = Status.DELETED ∧ newBackend = false then some (.checkTimeout none)
        else
          match ext.ParseTime v.Value with
          | .error _ => none
          | .ok val => some (.checkTimeout (some val))
      else none
    else none

/-! ## SSL passthrough: `handleSSLPassthrough` -/

/-- The function `handleSSLPassthrough`; `annSSLPassthrough` is the result of
`GetValueFromAnnotations("ssl-passthrough", ...)`. The result is the path and the
controller after the call. -/
def handleSSLPassthrough (c : HAProxyController) (annSSLPassthrough : StringW)
    (path : IngressPath) (backendName : String) : IngressPath × HAProxyController :=
  if annSSLPassthrough.Status ≠ Status.EMPTY ∨ path.Status ≠ Status.EMPTY then
    match strconvParseBool annSSLPassthrough.Value with
    | .error _ => (path, c)
    | .ok enabled =>
      let path1 : IngressPath :=
        if enabled then { path with IsSSLPassthrough := true }
        else { path with IsSSLPassthrough := false }
      let c1 :=
        match backendGet c backendName with
        | .error _ => c
        | .ok b =>
          let b1 : backend :=
            if path1.IsSSLPassthrough then { b with Mode := "tcp" } else { b with Mode := "http" }
          match backendEdit c b1 with
          | .error _ => c
          | .ok c2 => c2
      ({ path1 with Status := Status.MODIFIED }, c1)
  else (path, c)

/-! ## Backend switching: `controller-backend-switching.go` -/

/-- The function `addUseBackendRule`; writing into the rule map of a frontend
that has none is a run-time panic, `none`. -/
def addUseBackendRule (cfg : Configuration) (key : String) (rule : UseBackendRule)
    (frontends : List String) : Option Configuration :=
  frontends.foldlM
    (fun (cfg : Configuration) frontendName =>
      match mapGet cfg.BackendSwitchingRules frontendName with
      | none => none
      | some rules =>
        some { cfg with
          BackendSwitchingRules :=
            mapSet cfg.BackendSwitchingRules frontendName (mapSet rules key rule)
          BackendSwitchingStatus := mapSet cfg.BackendSwitchingStatus frontendName () })
    cfg

/-- The function `deleteUseBackendRule`; `delete` on a missing map does nothing. -/
def deleteUseBackendRule (cfg : Configuration) (key : String) (frontends : List String) :
    Configuration :=
  frontends.foldl
    (fun (cfg : Configuration) frontendName =>
      { cfg with
        BackendSwitchingRules :=
          match mapGet cfg.BackendSwitchingRules frontendName with
          | none => cfg.BackendSwitchingRules
          | some rules => mapSet cfg.BackendSwitchingRules frontendName (mapDelete rules key)
        BackendSwitchingStatus := mapSet cfg.BackendSwitchingStatus frontendName () })
    cfg

/-- The condition `condTest` that `refreshBackendSwitching` builds for a rule of
a frontend of mode `mode`; `none` when the rule is skipped (`continue`). -/
def switchingCondTest (mode : String) (rule : UseBackendRule) : Option String :=
  if mode = "http" then
    let condTest := if rule.Host ≠ "" then "\x7b req.hdr(host) -i " ++ rule.Host ++ " \x7d " else ""
    let condTest :=
      if rule.Path ≠ "" then condTest ++ "\x7b path_beg " ++ rule.Path ++ " \x7d" else condTest
    if condTest = "" then none else some condTest
  else if mode = "tcp" then
    if rule.Host = "" then none else some ("\x7b req_ssl_sni -i " ++ rule.Host ++ " \x7d ")
  else some ""

/-- The rule that `refreshBackendSwitching` creates for the key `key` of the map
`useBackendRules`, if it creates one. -/
def compileRule (mode : String) (useBackendRules : UseBackendRules) (key : String) :
    Option BackendSwitchingRule :=
  let rule := (mapGet useBackendRules key).getD
    { Host := "", Path := "", Backend := "", Namespace := "" }
  match switchingCondTest mode rule with
  | none => none
  | some condTest => some { Cond := "if", CondTest := condTest, Name := rule.Backend, ID := 0 }

/-- The rules that `refreshBackendSwitching` creates for a dirty frontend, in the
order of their creation. -/
def compileRules (mode : String) (useBackendRules : UseBackendRules) :
    List BackendSwitchingRule :=
  (sortReverse (useBackendRules.map Prod.fst)).filterMap (compileRule mode useBackendRules)

/-- The state of the loop of `refreshBackendSwitching`. -/
structure RefreshState where
  c : HAProxyController
  activeBackends : List (String × Unit)
  needsReload : Bool
  deriving DecidableEq, Repr

/-- One iteration of the loop of `refreshBackendSwitching` over the frontends. -/
def refreshFrontend (st : RefreshState) (frontend : Frontend) : RefreshState :=
  let active1 := mapSet st.activeBackends frontend.DefaultBackend ()
  match mapGet st.c.cfg.BackendSwitchingRules frontend.Name with
  | none => { st with activeBackends := active1 }
  | some useBackendRules =>
    let active2 := useBackendRules.foldl (fun a kr => mapSet a kr.2.Backend ()) active1
    match mapGet st.c.cfg.BackendSwitchingStatus frontend.Name with
    | none => { st with activeBackends := active2 }
    | some _ =>
      let c1 := backendSwitchingRuleDeleteAll st.c frontend.Name
      let c2 := (compileRules frontend.Mode useBackendRules).foldl
        (fun c rule => backendSwitchingRuleCreate c frontend.Name rule) c1
      let c3 : HAProxyController :=
        { c2 with cfg := { c2.cfg with
            BackendSwitchingStatus := mapDelete c2.cfg.BackendSwitchingStatus frontend.Name } }
      { c := c3, activeBackends := active2, needsReload := true }

/-- The function `clearBackends`. -/
def clearBackends (c : HAProxyController) (activeBackends : List (String × Unit)) :
    Bool × HAProxyController :=
  match backendsGet c with
  | .error _ => (false, c)
  | .ok allBackends =>
    allBackends.foldl
      (fun (acc : Bool × HAProxyController) b =>
        match mapGet activeBackends b.Name with
        | none => (true, backendDelete acc.2 b.Name)
        | some _ => acc)
      (false, c)

/-- The function `refreshBackendSwitching`. The last assignment is
`needsReload = needsReload || c.clearBackends(activeBackends)`, whose right
operand is evaluated only when `needsReload` is false. -/
def refreshBackendSwitching (c : HAProxyController) : Bool × HAProxyController :=
  if c.cfg.BackendSwitchingStatus.length = 0 then (false, c)
  else
    match frontendsGet c with
    | .error _ => (false, c)
    | .ok frontends =>
      let st := frontends.foldl refreshFrontend
        { c := c, activeBackends := [("RateLimit", ())], needsReload := false }
      if st.needsReload then (true, st.c)
      else clearBackends st.c st.activeBackends

/-! ## Server annotations: `handleServerAnnotations` -/

/-- The type `server` (`models.Server`), with the fields the sources use. -/
structure server where
  Name : String
  Check : String
  Inter : Option Int
  Maxconn : Option Int
  deriving DecidableEq, Repr

/-- The methods `updateCheck`, `updateInter` and `updateMaxconn` of `server`, which
are declared outside the sources. -/
structure ServerUpdaters where
  updateCheck : server → StringW → Except String server
  updateInter : server → StringW → Except String server
  updateMaxconn : server → StringW → Except String server

/-- The keys of the map `serverAnnotations`. -/
def serverAnnotationNames : List String :=
  ["check", "check-interval", "pod-maxconn"]

/-- One iteration of the loop of `handleServerAnnotations` on the entry `k, v` of
`serverAnnotations`; the state is the local `server` and `annnotationsActive`. -/
def serverAnnotationStep (upd : ServerUpdaters) (st : server × Bool)
    (kv : String × Option StringW) : server × Bool :=
  match kv.2 with
  | none => st
  | some v =>
    if v.Status ≠ Status.EMPTY then
      if kv.1 = "check" then
        match upd.updateCheck st.1 v with
        | .error _ => st
        | .ok s => (s, true)
      else if kv.1 = "check-interval" then
        if v.Status = Status.DELETED then ({ st.1 with Inter := none }, true)
        else
          match upd.updateInter st.1 v with
          | .error _ => st
          | .ok s => (s, true)
      else if kv.1 = "pod-maxconn" then
        if v.Status = Status.DELETED then ({ st.1 with Maxconn := none }, true)
        else
          match upd.updateMaxconn st.1 v with
          | .error _ => st
          | .ok s => (s, true)
      else st
    else st

/-- The loop of `handleServerAnnotations` over `serverAnnotations`, visited in the
order `order`, on the local copy `server := server(*model)`; `getValue name` is
the result of `GetValueFromAnnotations` for the name, `none` when it returns an
error. -/
def applyServerAnnotations (upd : ServerUpdaters) (getValue : String → Option StringW)
    (order : List String) (model : server) : server × Bool :=
  (order.map (fun k => (k, getValue k))).foldl (serverAnnotationStep upd) (model, false)

/-- The function `handleServerAnnotations`: the result is `annnotationsActive` and
the server `*model` after the call. The updaters act on the local copy
`server := server(*model)`, which is not written back to `*model`. -/
def handleServerAnnotations (upd : ServerUpdaters) (getValue : String → Option StringW)
    (order : List String) (model : server) : Bool × server :=
  ((applyServerAnnotations upd getValue order model).2, model)

/-! ## Concrete inputs of the examples -/

/-- A configuration with no rate-limiting rule and no switching rule. -/
def emptyConfiguration : Configuration :=
  { HTTPRequests := [], HTTPRequestsStatus := Status.EMPTY,
    BackendSwitchingRules := [], BackendSwitchingStatus := [] }

/-- A controller with no frontend, no backend and an empty defaults section. -/
def emptyController : HAProxyController :=
  { cfg := emptyConfiguration, frontends := [], frontendsGetFails := false,
    backends := [], backendsGetFails := false, switchingRules := [], defaults := [] }

/-- The annotations of a config map that only sets `timeout-client` to "10s". -/
def timeoutClientOnly (name : String) : Option StringW :=
  if name = "timeout-client" then some ⟨"10s", "", Status.ADDED⟩ else none

/-- A backend with the given name and no option set. -/
def namedBackend (name : String) : backend :=
  { zeroBackend with Name := name }

/-- A controller with the frontend "http", whose default backend is "default" and
whose rule map sends the key "a.com/" to the backend "web", and with the declared
backends "default", "web" and "orphan"; `dirty` is the set
`BackendSwitchingStatus`. -/
def switchingController (dirty : List (String × Unit)) : HAProxyController :=
  { cfg :=
      { HTTPRequests := [], HTTPRequestsStatus := Status.EMPTY,
        BackendSwitchingRules :=
          [("http", [("a.com/", { Host := "a.com", Path := "/", Backend := "web",
                                  Namespace := "default" })])],
        BackendSwitchingStatus := dirty },
    frontends := [{ Name := "http", Mode := "http", DefaultBackend := "default" }],
    frontendsGetFails := false,
    backends := [namedBackend "default", namedBackend "web", namedBackend "orphan"],
    backendsGetFails := false,
    switchingRules := [],
    defaults := [] }

/-- The rule added under the key `key` in the examples: host `key`, no path. -/
def hostRule (key : String) : UseBackendRule :=
  { Host := key, Path := "", Backend := "svc-" ++ key, Namespace := "default" }

/-- The configuration after `addUseBackendRule(key, hostRule key, "http")` for the
keys of `keys`, one after the other, from an empty rule map of the frontend
"http". -/
def rulesAdded (keys : List String) : Option Configuration :=
  keys.foldlM (fun cfg key => addUseBackendRule cfg key (hostRule key) ["http"])
    { emptyConfiguration with BackendSwitchingRules := [("http", [])] }

/-- A controller with the HTTP frontend "http" and the configuration `cfg`. -/
def httpController (cfg : Configuration) : HAProxyController :=
  { cfg := cfg,
    frontends := [{ Name := "http", Mode := "http", DefaultBackend := "default" }],
    frontendsGetFails := false, backends := [], backendsGetFails := false,
    switchingRules := [], defaults := [] }

/-- An instance of the external functions for the examples: only the
duration "5s" is parsed, every balance and every health check is valid. -/
def permissiveExternals : Externals :=
  { ParseTime := fun s => if s = "5s" then .ok 5000 else .error ("invalid time " ++ s),
    validateBalance := fun _ => .ok (),
    validateHttpchk := fun _ => .ok () }

/-- The annotations of the examples: `check-http` = "/health" and `timeout-check` =
"5s", both with the status DELETED; `load-balance` = "roundrobin" and
`forwarded-for` = "false", unchanged; `abortonclose` unchanged and empty. -/
def deletedChecks (name : String) : Option StringW :=
  if name = "check-http" then some ⟨"/health", "", Status.DELETED⟩
  else if name = "timeout-check" then some ⟨"5s", "", Status.DELETED⟩
  else if name = "load-balance" then some ⟨"roundrobin", "", Status.EMPTY⟩
  else if name = "forwarded-for" then some ⟨"false", "", Status.EMPTY⟩
  else some ⟨"", "", Status.EMPTY⟩

/-- A controller whose only backend is "web", in HTTP mode, with the health check
`GET /old` and the check timeout 1000. -/
def webController : HAProxyController :=
  { emptyController with
    backends :=
      [{ Name := "web", Mode := "http", Balance := none, Forwardfor := none,
         Httpchk := some { Method := "GET", URI := "/old", Version := "" },
         Abortonclose := "", CheckTimeout := some 1000 }] }

/-- The annotations of a second pass over the same directives: every name
resolves to its value of the first pass, with the status unchanged. -/
def secondPass (name : String) : Option StringW :=
  if name = "check-http" then some ⟨"GET /health", "GET /health", Status.EMPTY⟩
  else if name = "load-balance" then some ⟨"roundrobin", "roundrobin", Status.EMPTY⟩
  else if name = "check-interval" then some ⟨"5s", "5s", Status.EMPTY⟩
  else if name = "timeout-client" then some ⟨"10s", "10s", Status.EMPTY⟩
  else if name = "timeout-check" then none
  else some ⟨"", "", Status.EMPTY⟩

/-- Updaters of `server` for the examples: the check becomes the value of the
directive, the interval and the connection limit are set to 5000 and 100. -/
def sampleServerUpdaters : ServerUpdaters :=
  { updateCheck := fun s v => .ok { s with Check := v.Value },
    updateInter := fun s _ => .ok { s with Inter := some 5000 },
    updateMaxconn := fun s _ => .ok { s with Maxconn := some 100 } }

/-- A configuration in which the path /foo has the two rules of the whitelist
"10.0.0.0/8" and the rate-limiting rules are not marked dirty. -/
def whitelistedConfiguration : Configuration :=
  { emptyConfiguration with
    HTTPRequests :=
      [("WHT-/foo",
        [{ ID := 0, Type_ := "deny", Cond := "if", CondTest := "\x7b path_beg /foo \x7d" },
         { ID := 0, Type_ := "allow", Cond := "if",
           CondTest := "\x7b path_beg /foo \x7d \x7b src 10.0.0.0/8 \x7d" }])] }

/-- External functions for the examples that accept the balance "roundrobin", the
duration "5s" and a health check whose URI starts with a slash, and reject the
rest. -/
def strictExternals : Externals :=
  { ParseTime := fun s => if s = "5s" then .ok 5000 else .error ("invalid time " ++ s),
    validateBalance := fun v =>
      if v.Algorithm = "roundrobin" then .ok () else .error "algorithm in body should be one of",
    validateHttpchk := fun v =>
      if v.URI.data.head? = some '/' then .ok () else .error "uri in body should match" }

/-- A backend of the examples with every option set. -/
def fullBackend : backend :=
  { Name := "web", Mode := "http", Balance := some { Algorithm := "leastconn" },
    Forwardfor := some { Enabled := "enabled" },
    Httpchk := some { Method := "GET", URI := "/old", Version := "" },
    Abortonclose := "enabled", CheckTimeout := some 1000 }

/-- A controller with the frontends "http" and "https", of which only "http" has a
rule map, with the key "a.com/", after
`deleteUseBackendRule("a.com/", "http", "https")`: both frontends are dirty. -/
def ruleDeletedController : HAProxyController :=
  { cfg := deleteUseBackendRule
      { emptyConfiguration with
        BackendSwitchingRules :=
          [("http", [("a.com/", { Host := "a.com", Path := "/", Backend := "web",
                                  Namespace := "default" })])] }
      "a.com/" ["http", "https"],
    frontends := [{ Name := "http", Mode := "http", DefaultBackend := "default" },
                  { Name := "https", Mode := "tcp", DefaultBackend := "default" }],
    frontendsGetFails := false, backends := [namedBackend "default"],
    backendsGetFails := false, switchingRules := [], defaults := [] }

/-- A controller with the HTTP frontend "http" and the TCP frontend "https", each
with one rule and the rules compiled from it, and with the declared backends
"default", "default-ssl", "web", "secure" and "orphan"; `dirty` is the set
`BackendSwitchingStatus`. -/
def twoFrontendController (dirty : List (String × Unit)) : HAProxyController :=
  { cfg :=
      { HTTPRequests := [], HTTPRequestsStatus := Status.EMPTY,
        BackendSwitchingRules :=
          [("http", [("a.com/", { Host := "a.com", Path := "/", Backend := "web",
                                  Namespace := "default" })]),
           ("https", [("b.com", { Host := "b.com", Path := "", Backend := "secure",
                                  Namespace := "default" })])],
        BackendSwitchingStatus := dirty },
    frontends := [{ Name := "http", Mode := "http", DefaultBackend := "default" },
                  { Name := "https", Mode := "tcp", DefaultBackend := "default-ssl" }],
    frontendsGetFails := false,
    backends := [namedBackend "default", namedBackend "default-ssl", namedBackend "web",
                 namedBackend "secure", namedBackend "orphan"],
    backendsGetFails := false,
    switchingRules :=
      [("https", [{ Cond := "if", CondTest := "\x7b req_ssl_sni -i b.com \x7d ", Name := "secure",
                    ID := 0 }]),
       ("http", [{ Cond := "if", CondTest := "\x7b req.hdr(host) -i old.com \x7d ", Name := "web",
                   ID := 0 }])],
    defaults := [] }

/-- The annotations of the examples in which every directive changes:
`abortonclose` = "enabled", `check-http` = "HEAD /live", `forwarded-for` = "true",
`timeout-check` = "5s", and `load-balance` = "bogus", which is no algorithm. -/
def changedAnnotations (name : String) : Option StringW :=
  if name = "abortonclose" then some ⟨"enabled", "", Status.ADDED⟩
  else if name = "check-http" then some ⟨"HEAD /live", "GET /old", Status.MODIFIED⟩
  else if name = "forwarded-for" then some ⟨"true", "", Status.ADDED⟩
  else if name = "load-balance" then some ⟨"bogus", "", Status.ADDED⟩
  else if name = "timeout-check" then some ⟨"5s", "1s", Status.MODIFIED⟩
  else none

/-! # Properties -/

/-! ## Lemmas on maps -/

theorem mapGet_mapSet_self {α : Type} (m : List (String × α)) (k : String) (v : α) :
    mapGet (mapSet m k v) k = some v := by
  simp [mapGet, mapSet, List.lookup]

theorem mapGet_filter_ne {α : Type} (m : List (String × α)) (k k' : String) (h : k' ≠ k) :
    mapGet (m.filter (fun e => e.1 != k)) k' = mapGet m k' := by
  induction m with
  | nil => rfl
  | cons e m ih =>
    obtain ⟨a, x⟩ := e
    by_cases hak : a = k
    · subst hak
      have hne : (k' == a) = false := by simpa using h
      simp [mapGet, List.lookup, hne] at ih ⊢
      exact ih
    · by_cases hk' : k' = a
      · subst hk'
        simp [mapGet, List.lookup, hak]
      · have hne : (k' == a) = false := by simpa using hk'
        simp [mapGet, List.lookup, hne, hak] at ih ⊢
        exact ih

theorem mapGet_mapSet_ne {α : Type} (m : List (String × α)) (k k' : String) (v : α)
    (h : k' ≠ k) : mapGet (mapSet m k v) k' = mapGet m k' := by
  have hne : (k' == k) = false := by simpa using h
  have := mapGet_filter_ne m k k' h
  simp only [mapGet] at this
  simp [mapGet, mapSet, List.lookup, hne, this]

theorem mapGet_mapDelete_self {α : Type} (m : List (String × α)) (k : String) :
    mapGet (mapDelete m k) k = none := by
  induction m with
  | nil => rfl
  | cons e m ih =>
    obtain ⟨a, x⟩ := e
    by_cases hak : a = k
    · subst hak
      simpa [mapGet, mapDelete] using ih
    · have hne : (k == a) = false := by
        simpa using (fun h : k = a => hak h.symm)
      simp [mapGet, mapDelete, List.lookup, hak, hne] at ih ⊢
      exact ih

theorem mapGet_mapDelete_ne {α : Type} (m : List (String × α)) (k k' : String) (h : k' ≠ k) :
    mapGet (mapDelete m k) k' = mapGet m k' :=
  mapGet_filter_ne m k k' h

/-! ## Rate limiting -/

/-- C1, as stated, fails: with whitelist "10.0.0.0/8" and bypass "5r/s" on the new
path /foo the rules are recomputed (the status of the switch is ADDED), and the
list stored for the path is the single allow rule, not deny followed by allow. -/
theorem rateLimit_bypass_enabled_counterexample :
    rateLimitStatus emptyConfiguration ⟨"10.0.0.0/8", "", Status.ADDED⟩
        ⟨"5r/s", "", Status.ADDED⟩ ⟨"/foo", false, Status.ADDED⟩ = Status.ADDED ∧
      mapGet (handleRateLimitingAnnotations emptyConfiguration ⟨"10.0.0.0/8", "", Status.ADDED⟩
        ⟨"5r/s", "", Status.ADDED⟩ ⟨"/foo", false, Status.ADDED⟩).HTTPRequests "WHT-/foo" =
        some [{ ID := 0, Type_ := "allow", Cond := "if",
                CondTest := "\x7b path_beg /foo \x7d \x7b src 10.0.0.0/8 \x7d" }] ∧
      mapGet (handleRateLimitingAnnotations emptyConfiguration ⟨"10.0.0.0/8", "", Status.ADDED⟩
        ⟨"5r/s", "", Status.ADDED⟩ ⟨"/foo", false, Status.ADDED⟩).HTTPRequests "WHT-/foo" ≠
        some [{ ID := 0, Type_ := "deny", Cond := "if", CondTest := "\x7b path_beg /foo \x7d" },
              { ID := 0, Type_ := "allow", Cond := "if",
                CondTest := "\x7b path_beg /foo \x7d \x7b src 10.0.0.0/8 \x7d" }] := by
  decide

/-- C1, amended: when the rules of a path are recomputed (the status of the switch
is ADDED or MODIFIED), the whitelist is not empty and the bypass value is neither
empty nor "OFF", the list stored for the path is exactly the one rule
Allow{ path_beg path, src CIDRs }. -/
theorem rateLimit_bypass_enabled (cfg : Configuration) (annWhitelist annWhitelistRL : StringW)
    (path : IngressPath)
    (hrecompute : rateLimitStatus cfg annWhitelist annWhitelistRL path = Status.ADDED ∨
      rateLimitStatus cfg annWhitelist annWhitelistRL path = Status.MODIFIED)
    (hwhitelist : annWhitelist.Value ≠ "")
    (hvalue : annWhitelistRL.Value ≠ "") (hon : annWhitelistRL.Value ≠ "OFF") :
    mapGet (handleRateLimitingAnnotations cfg annWhitelist annWhitelistRL path).HTTPRequests
        ("WHT-" ++ path.Path) =
      some [{ ID := 0, Type_ := "allow", Cond := "if",
              CondTest := "\x7b path_beg " ++ path.Path ++ " \x7d \x7b src " ++
                stringsReplaceAll annWhitelist.Value ',' ' ' ++ " \x7d" }] := by
  have hallow : allowRateLimiting annWhitelistRL = true := by
    simp [allowRateLimiting, hvalue, hon]
  rcases hrecompute with h | h <;>
    simp [handleRateLimitingAnnotations, h, hwhitelist, hallow, whitelistKey,
      mapGet_mapSet_self, httpRequest1]

/-- Witness of `rateLimit_bypass_enabled`: whitelist "10.0.0.0/8,192.168.0.0/16",
bypass "5r/s", new path /foo. -/
theorem rateLimit_bypass_enabled_witness :
    mapGet (handleRateLimitingAnnotations emptyConfiguration
        ⟨"10.0.0.0/8,192.168.0.0/16", "", Status.ADDED⟩ ⟨"5r/s", "", Status.ADDED⟩
        ⟨"/foo", false, Status.ADDED⟩).HTTPRequests ("WHT-" ++ "/foo") =
      some [{ ID := 0, Type_ := "allow", Cond := "if",
              CondTest := "\x7b path_beg " ++ "/foo" ++ " \x7d \x7b src " ++
                stringsReplaceAll "10.0.0.0/8,192.168.0.0/16" ',' ' ' ++ " \x7d" }] :=
  rateLimit_bypass_enabled emptyConfiguration ⟨"10.0.0.0/8,192.168.0.0/16", "", Status.ADDED⟩
    ⟨"5r/s", "", Status.ADDED⟩ ⟨"/foo", false, Status.ADDED⟩ (Or.inl (by decide))
    (by decide) (by decide) (by decide)

/-- C2, as stated, fails: with whitelist "10.0.0.0/8" and an empty bypass value on
the new path /foo the rules are recomputed, and the list stored for the path is
deny followed by allow, not the single allow rule. -/
theorem rateLimit_bypass_disabled_counterexample :
    rateLimitStatus emptyConfiguration ⟨"10.0.0.0/8", "", Status.ADDED⟩
        ⟨"", "", Status.EMPTY⟩ ⟨"/foo", false, Status.ADDED⟩ = Status.ADDED ∧
      mapGet (handleRateLimitingAnnotations emptyConfiguration ⟨"10.0.0.0/8", "", Status.ADDED⟩
        ⟨"", "", Status.EMPTY⟩ ⟨"/foo", false, Status.ADDED⟩).HTTPRequests "WHT-/foo" =
        some [{ ID := 0, Type_ := "deny", Cond := "if", CondTest := "\x7b path_beg /foo \x7d" },
              { ID := 0, Type_ := "allow", Cond := "if",
                CondTest := "\x7b path_beg /foo \x7d \x7b src 10.0.0.0/8 \x7d" }] ∧
      mapGet (handleRateLimitingAnnotations emptyConfiguration ⟨"10.0.0.0/8", "", Status.ADDED⟩
        ⟨"", "", Status.EMPTY⟩ ⟨"/foo", false, Status.ADDED⟩).HTTPRequests "WHT-/foo" ≠
        some [{ ID := 0, Type_ := "allow", Cond := "if",
                CondTest := "\x7b path_beg /foo \x7d \x7b src 10.0.0.0/8 \x7d" }] := by
  decide

/-- C2, amended: when the rules of a path are recomputed (the status of the switch
is ADDED or MODIFIED), the whitelist is not empty and the bypass value is empty or
"OFF", the list stored for the path is exactly Deny{ path_beg path } followed by
Allow{ path_beg path, src CIDRs }, the commas of the CIDR list replaced by
spaces. -/
theorem rateLimit_bypass_disabled (cfg : Configuration) (annWhitelist annWhitelistRL : StringW)
    (path : IngressPath)
    (hrecompute : rateLimitStatus cfg annWhitelist annWhitelistRL path = Status.ADDED ∨
      rateLimitStatus cfg annWhitelist annWhitelistRL path = Status.MODIFIED)
    (hwhitelist : annWhitelist.Value ≠ "")
    (hoff : annWhitelistRL.Value = "" ∨ annWhitelistRL.Value = "OFF") :
    mapGet (handleRateLimitingAnnotations cfg annWhitelist annWhitelistRL path).HTTPRequests
        ("WHT-" ++ path.Path) =
      some [{ ID := 0, Type_ := "deny", Cond := "if",
              CondTest := "\x7b path_beg " ++ path.Path ++ " \x7d" },
            { ID := 0, Type_ := "allow", Cond := "if",
              CondTest := "\x7b path_beg " ++ path.Path ++ " \x7d \x7b src " ++
                String.mk (annWhitelist.Value.data.map (fun c => if c = ',' then ' ' else c)) ++
                " \x7d" }] := by
  have hallow : allowRateLimiting annWhitelistRL = false := by
    rcases hoff with h | h <;> simp [allowRateLimiting, h]
  rcases hrecompute with h | h <;>
    simp [handleRateLimitingAnnotations, h, hwhitelist, hallow, whitelistKey,
      mapGet_mapSet_self, httpRequest1, httpRequest2, stringsReplaceAll]

/-- Witness of `rateLimit_bypass_disabled`: whitelist "10.0.0.0/8,192.168.0.0/16",
bypass "OFF", new path /foo. -/
theorem rateLimit_bypass_disabled_witness :
    mapGet (handleRateLimitingAnnotations emptyConfiguration
        ⟨"10.0.0.0/8,192.168.0.0/16", "", Status.ADDED⟩ ⟨"OFF", "", Status.EMPTY⟩
        ⟨"/foo", false, Status.ADDED⟩).HTTPRequests "WHT-/foo" =
      some [{ ID := 0, Type_ := "deny", Cond := "if", CondTest := "\x7b path_beg /foo \x7d" },
            { ID := 0, Type_ := "allow", Cond := "if",
              CondTest := "\x7b path_beg /foo \x7d \x7b src 10.0.0.0/8 192.168.0.0/16 \x7d" }] :=
  rateLimit_bypass_disabled emptyConfiguration ⟨"10.0.0.0/8,192.168.0.0/16", "", Status.ADDED⟩
    ⟨"OFF", "", Status.EMPTY⟩ ⟨"/foo", false, Status.ADDED⟩ (Or.inl (by decide))
    (by decide) (Or.inr rfl)

/-! ## Default timeouts -/

/-- C3, as stated, fails: with `timeout-client` = "10s" (ADDED) and no entry in the
defaults section, `handleDefaultTimeout "client" true` creates nothing and
returns false, and so does `handleDefaultTimeouts`. -/
theorem defaultTimeout_create_counterexample :
    mapGet emptyController.defaults "timeout client" = none ∧
      handleDefaultTimeout timeoutClientOnly emptyController "client" true =
        (false, emptyController) ∧
      handleDefaultTimeouts timeoutClientOnly emptyController = (false, emptyController) ∧
      mapGet (handleDefaultTimeouts timeoutClientOnly emptyController).2.defaults
        "timeout client" = none := by
  decide

/-- C3, amended: when the directive `timeout-<category>` resolves with a status
other than unchanged and the defaults section has no entry for the category,
`handleDefaultTimeout` called with `hasDefault = true` (as `handleDefaultTimeouts`
calls it) creates no entry, leaves the controller as it is and returns false;
called with `hasDefault = false` it creates the entry with the value of the
directive and returns true. If no category of `handleDefaultTimeouts` has an
entry, `handleDefaultTimeouts` returns false and changes nothing. -/
theorem defaultTimeout_missing_entry (getValue : String → Option StringW)
    (c : HAProxyController) (timeout : String) (annTimeout : StringW)
    (hget : getValue ("timeout-" ++ timeout) = some annTimeout)
    (hstatus : annTimeout.Status ≠ Status.EMPTY)
    (hmissing : mapGet c.defaults ("timeout " ++ timeout) = none) :
    handleDefaultTimeout getValue c timeout true = (false, c) ∧
      (handleDefaultTimeout getValue c timeout false).1 = true ∧
      mapGet (handleDefaultTimeout getValue c timeout false).2.defaults ("timeout " ++ timeout) =
        some { Value := annTimeout.Value } ∧
      ((∀ t ∈ defaultTimeoutNames, mapGet c.defaults ("timeout " ++ t) = none) →
        handleDefaultTimeouts getValue c = (false, c)) := by
  refine ⟨?_, ?_, ?_, ?_⟩
  · simp [handleDefaultTimeout, hget, hstatus, defaultsGet, hmissing]
  · simp [handleDefaultTimeout, hget, hstatus, defaultsGet, hmissing]
  · simp [handleDefaultTimeout, hget, hstatus, defaultsGet, hmissing, defaultsSet,
      mapGet_mapSet_self]
  · intro hall
    have hone : ∀ t ∈ defaultTimeoutNames, handleDefaultTimeout getValue c t true = (false, c) := by
      intro t ht
      have hm := hall t ht
      unfold handleDefaultTimeout
      cases hg : getValue ("timeout-" ++ t) with
      | none => rfl
      | some a =>
        by_cases hs : a.Status = Status.EMPTY
        · simp [hs]
        · simp [hs, defaultsGet, hm]
    have hfold : ∀ l : List String, (∀ t ∈ l, t ∈ defaultTimeoutNames) →
        l.foldl (fun (acc : Bool × HAProxyController) timeout =>
          let r := handleDefaultTimeout getValue acc.2 timeout true
          (r.1 || acc.1, r.2)) (false, c) = (false, c) := by
      intro l
      induction l with
      | nil => intro _; rfl
      | cons t l ih =>
        intro hl
        rw [List.foldl_cons]
        have h1 := hone t (hl t (List.mem_cons_self _ _))
        simp only [h1, Bool.or_false]
        exact ih (fun x hx => hl x (List.mem_cons_of_mem _ hx))
    exact hfold defaultTimeoutNames (fun _ h => h)

/-- Witness of `defaultTimeout_missing_entry`: `timeout-client` = "10s" on an empty
defaults section. -/
theorem defaultTimeout_missing_entry_witness :
    handleDefaultTimeout timeoutClientOnly emptyController "client" true =
        (false, emptyController) ∧
      (handleDefaultTimeout timeoutClientOnly emptyController "client" false).1 = true ∧
      mapGet (handleDefaultTimeout timeoutClientOnly emptyController "client" false).2.defaults
        ("timeout " ++ "client") = some { Value := "10s" } ∧
      handleDefaultTimeouts timeoutClientOnly emptyController = (false, emptyController) := by
  have h := defaultTimeout_missing_entry timeoutClientOnly emptyController "client"
    ⟨"10s", "", Status.ADDED⟩ (by decide) (by decide) (by decide)
  exact ⟨h.1, h.2.1, h.2.2.1, h.2.2.2 (by decide)⟩

/-! ## Forwarded-for -/

/-- C5: on a backend whose mode is TCP, `updateForwardfor` returns no error for
any directive (any value and any status) and leaves `Forwardfor` unset; no other
field changes. -/
theorem updateForwardfor_tcp (b : backend) (data : StringW) (hmode : b.Mode = ModeTCP) :
    updateForwardfor b data = .ok { b with Forwardfor := none } := by
  simp [updateForwardfor, hmode]

/-- Witness of `updateForwardfor_tcp`: a TCP backend with forwardfor enabled and
the directive "true"; the value "maybe", which is no boolean, gives the same. -/
theorem updateForwardfor_tcp_witness :
    (updateForwardfor
        { Name := "web", Mode := "tcp", Balance := none,
          Forwardfor := some { Enabled := "enabled" }, Httpchk := none,
          Abortonclose := "", CheckTimeout := none } ⟨"true", "", Status.ADDED⟩ =
      .ok { Name := "web", Mode := "tcp", Balance := none, Forwardfor := none, Httpchk := none,
            Abortonclose := "", CheckTimeout := none }) ∧
      (updateForwardfor
        { Name := "web", Mode := "tcp", Balance := none,
          Forwardfor := some { Enabled := "enabled" }, Httpchk := none,
          Abortonclose := "", CheckTimeout := none } ⟨"maybe", "", Status.MODIFIED⟩ =
      .ok { Name := "web", Mode := "tcp", Balance := none, Forwardfor := none, Httpchk := none,
            Abortonclose := "", CheckTimeout := none }) :=
  ⟨updateForwardfor_tcp _ ⟨"true", "", Status.ADDED⟩ rfl,
   updateForwardfor_tcp _ ⟨"maybe", "", Status.MODIFIED⟩ rfl⟩

/-! ## Backend switching: the active set and the collection -/

theorem mapGet_unit_mapSet (a : List (String × Unit)) (k n : String) :
    mapGet (mapSet a k ()) n = some () ↔ n = k ∨ mapGet a n = some () := by
  by_cases h : n = k
  · subst h
    simp [mapGet_mapSet_self]
  · simp [mapGet_mapSet_ne a k n () h, h]

theorem mapGet_unit_foldl (rules : UseBackendRules) (a : List (String × Unit)) (n : String) :
    mapGet (rules.foldl (fun a kr => mapSet a kr.2.Backend ()) a) n = some () ↔
      mapGet a n = some () ∨ ∃ kr ∈ rules, kr.2.Backend = n := by
  induction rules generalizing a with
  | nil => simp
  | cons kr rules ih =>
    rw [List.foldl_cons, ih, mapGet_unit_mapSet]
    constructor
    · rintro ((h | h) | ⟨x, hx, hxn⟩)
      · exact Or.inr ⟨kr, List.mem_cons_self _ _, h.symm⟩
      · exact Or.inl h
      · exact Or.inr ⟨x, List.mem_cons_of_mem _ hx, hxn⟩
    · rintro (h | ⟨x, hx, hxn⟩)
      · exact Or.inl (Or.inr h)
      · rcases List.mem_cons.1 hx with rfl | hx
        · exact Or.inl (Or.inl hxn.symm)
        · exact Or.inr ⟨x, hx, hxn⟩

theorem createFold_frame (name : String) (l : List BackendSwitchingRule) (c : HAProxyController) :
    let c2 := l.foldl (fun c rule => backendSwitchingRuleCreate c name rule) c
    c2.cfg = c.cfg ∧ c2.frontends = c.frontends ∧ c2.frontendsGetFails = c.frontendsGetFails ∧
      c2.backends = c.backends ∧ c2.backendsGetFails = c.backendsGetFails ∧
      c2.defaults = c.defaults := by
  induction l generalizing c with
  | nil => simp
  | cons r l ih =>
    have h := ih (backendSwitchingRuleCreate c name r)
    simpa [backendSwitchingRuleCreate] using h

/-- An iteration of the loop of `refreshBackendSwitching` changes neither the rule
maps of `c.cfg` nor the frontends and backends of the configuration. -/
theorem refreshFrontend_frame (st : RefreshState) (f : Frontend) :
    (refreshFrontend st f).c.cfg.BackendSwitchingRules = st.c.cfg.BackendSwitchingRules ∧
      (refreshFrontend st f).c.frontends = st.c.frontends ∧
      (refreshFrontend st f).c.backends = st.c.backends ∧
      (refreshFrontend st f).c.backendsGetFails = st.c.backendsGetFails := by
  unfold refreshFrontend
  cases hr : mapGet st.c.cfg.BackendSwitchingRules f.Name with
  | none => simp
  | some rules =>
    cases hs : mapGet st.c.cfg.BackendSwitchingStatus f.Name with
    | none => simp
    | some u =>
      have h := createFold_frame f.Name (compileRules f.Mode rules)
        (backendSwitchingRuleDeleteAll st.c f.Name)
      simp only [backendSwitchingRuleDeleteAll] at h ⊢
      obtain ⟨h1, h2, _, h4, h5, _⟩ := h
      simp [h1, h2, h4, h5]

/-- The names that an iteration of the loop adds to the active set. -/
theorem refreshFrontend_active (st : RefreshState) (f : Frontend) (n : String) :
    mapGet (refreshFrontend st f).activeBackends n = some () ↔
      mapGet st.activeBackends n = some () ∨ f.DefaultBackend = n ∨
        ∃ rules, mapGet st.c.cfg.BackendSwitchingRules f.Name = some rules ∧
          ∃ kr ∈ rules, kr.2.Backend = n := by
  unfold refreshFrontend
  cases hr : mapGet st.c.cfg.BackendSwitchingRules f.Name with
  | none =>
    simp only [mapGet_unit_mapSet]
    constructor
    · rintro (h | h)
      · exact Or.inr (Or.inl h.symm)
      · exact Or.inl h
    · rintro (h | h | ⟨r, hr', _⟩)
      · exact Or.inr h
      · exact Or.inl h.symm
      · cases hr'
  | some rules =>
    have key : mapGet (rules.foldl (fun a kr => mapSet a kr.2.Backend ())
          (mapSet st.activeBackends f.DefaultBackend ())) n = some () ↔
        mapGet st.activeBackends n = some () ∨ f.DefaultBackend = n ∨
          ∃ rules', some rules = some rules' ∧ ∃ kr ∈ rules', kr.2.Backend = n := by
      rw [mapGet_unit_foldl, mapGet_unit_mapSet]
      constructor
      · rintro ((h | h) | h)
        · exact Or.inr (Or.inl h.symm)
        · exact Or.inl h
        · exact Or.inr (Or.inr ⟨rules, rfl, h⟩)
      · rintro (h | h | ⟨r, hr', h⟩)
        · exact Or.inl (Or.inr h)
        · exact Or.inl (Or.inl h.symm)
        · cases hr'
          exact Or.inr h
    cases hs : mapGet st.c.cfg.BackendSwitchingStatus f.Name with
    | none => simpa using key
    | some u => simpa using key

/-- The active set after the loop over the frontends: the names that were active
before, the default backend of every frontend and the target of every rule in
the rule map of a frontend, whether the frontend is dirty or not. -/
theorem refreshLoop_active (frontends : List Frontend) (st : RefreshState) (n : String) :
    mapGet (frontends.foldl refreshFrontend st).activeBackends n = some () ↔
      mapGet st.activeBackends n = some () ∨
        ∃ f ∈ frontends, f.DefaultBackend = n ∨
          ∃ rules, mapGet st.c.cfg.BackendSwitchingRules f.Name = some rules ∧
            ∃ kr ∈ rules, kr.2.Backend = n := by
  induction frontends generalizing st with
  | nil => simp
  | cons f fs ih =>
    rw [List.foldl_cons, ih, refreshFrontend_active, (refreshFrontend_frame st f).1]
    constructor
    · rintro ((h | h) | ⟨g, hg, h⟩)
      · exact Or.inl h
      · exact Or.inr ⟨f, List.mem_cons_self _ _, h⟩
      · exact Or.inr ⟨g, List.mem_cons_of_mem _ hg, h⟩
    · rintro (h | ⟨g, hg, h⟩)
      · exact Or.inl (Or.inl h)
      · rcases List.mem_cons.1 hg with rfl | hg
        · exact Or.inl (Or.inr h)
        · exact Or.inr ⟨g, hg, h⟩

/-- The loop over the frontends keeps the frontends, the backends and the rule
maps. -/
theorem refreshLoop_frame (frontends : List Frontend) (st : RefreshState) :
    (frontends.foldl refreshFrontend st).c.cfg.BackendSwitchingRules =
        st.c.cfg.BackendSwitchingRules ∧
      (frontends.foldl refreshFrontend st).c.backends = st.c.backends ∧
      (frontends.foldl refreshFrontend st).c.backendsGetFails = st.c.backendsGetFails := by
  induction frontends generalizing st with
  | nil => simp
  | cons f fs ih =>
    rw [List.foldl_cons]
    obtain ⟨h1, _, h3, h4⟩ := refreshFrontend_frame st f
    obtain ⟨i1, i2, i3⟩ := ih (refreshFrontend st f)
    exact ⟨i1.trans h1, i2.trans h3, i3.trans h4⟩

/-- When no frontend of the list is both dirty and the owner of a rule map, the
loop recompiles nothing: the controller and `needsReload` are as before. -/
theorem refreshLoop_idle (frontends : List Frontend) (st : RefreshState)
    (hidle : ∀ f ∈ frontends, mapGet st.c.cfg.BackendSwitchingRules f.Name = none ∨
      mapGet st.c.cfg.BackendSwitchingStatus f.Name = none) :
    (frontends.foldl refreshFrontend st).c = st.c ∧
      (frontends.foldl refreshFrontend st).needsReload = st.needsReload := by
  induction frontends generalizing st with
  | nil => simp
  | cons f fs ih =>
    rw [List.foldl_cons]
    have hstep : (refreshFrontend st f).c = st.c ∧
        (refreshFrontend st f).needsReload = st.needsReload := by
      unfold refreshFrontend
      rcases hidle f (List.mem_cons_self _ _) with h | h
      · simp [h]
      · cases hr : mapGet st.c.cfg.BackendSwitchingRules f.Name with
        | none => simp
        | some rules => simp [h]
    have := ih (refreshFrontend st f) (by
      intro g hg
      rw [hstep.1]
      exact hidle g (List.mem_cons_of_mem _ hg))
    exact ⟨this.1.trans hstep.1, this.2.trans hstep.2⟩

theorem clearFold_backends (active : List (String × Unit)) (l : List backend)
    (acc : Bool × HAProxyController) :
    (l.foldl (fun (acc : Bool × HAProxyController) b =>
        match mapGet active b.Name with
        | none => (true, backendDelete acc.2 b.Name)
        | some _ => acc) acc).2.backends =
      acc.2.backends.filter
        (fun x => l.all (fun b => (mapGet active b.Name).isSome || x.Name != b.Name)) := by
  induction l generalizing acc with
  | nil => simp
  | cons b l ih =>
    rw [List.foldl_cons, ih]
    cases hb : mapGet active b.Name with
    | none =>
      simp only [backendDelete, List.filter_filter, List.all_cons, hb, Option.isSome_none,
        Bool.false_or]
      congr 1
      funext x
      exact Bool.and_comm _ _
    | some u => simp [hb]

/-- The backends that `clearBackends` keeps are those whose name is in the active
set, when the backends can be listed. -/
theorem clearBackends_backends (c : HAProxyController) (active : List (String × Unit))
    (hlist : c.backendsGetFails = false) :
    (clearBackends c active).2.backends =
      c.backends.filter (fun x => (mapGet active x.Name).isSome) := by
  unfold clearBackends backendsGet
  simp only [hlist, Bool.false_eq_true, if_false]
  rw [clearFold_backends]
  apply List.filter_congr
  intro x hx
  cases hxa : mapGet active x.Name with
  | none =>
    simp only [Option.isSome_none]
    apply Bool.eq_false_iff.2
    intro hall
    have := List.all_eq_true.1 hall x hx
    simp [hxa] at this
  | some u =>
    simp only [Option.isSome_some]
    apply List.all_eq_true.2
    intro b _
    cases hba : mapGet active b.Name with
    | some v => simp
    | none =>
      have hne : x.Name ≠ b.Name := by
        intro h
        rw [h] at hxa
        rw [hxa] at hba
        cases hba
      simp [hne]

/-- When no frontend is recompiled, the listings succeed and some name is dirty,
`refreshBackendSwitching` keeps exactly the backends of the active set. -/
theorem refreshBackendSwitching_idle (c : HAProxyController)
    (hdirty : c.cfg.BackendSwitchingStatus ≠ [])
    (hfrontends : c.frontendsGetFails = false) (hbackends : c.backendsGetFails = false)
    (hidle : ∀ f ∈ c.frontends, mapGet c.cfg.BackendSwitchingRules f.Name = none ∨
      mapGet c.cfg.BackendSwitchingStatus f.Name = none) :
    (refreshBackendSwitching c).2.backends =
      c.backends.filter (fun x =>
        (mapGet (c.frontends.foldl refreshFrontend
          { c := c, activeBackends := [("RateLimit", ())], needsReload := false }).activeBackends
          x.Name).isSome) := by
  have hlen : ¬ c.cfg.BackendSwitchingStatus.length = 0 := by
    intro h
    exact hdirty (List.length_eq_zero.1 h)
  obtain ⟨hc, hn⟩ := refreshLoop_idle c.frontends
    { c := c, activeBackends := [("RateLimit", ())], needsReload := false } hidle
  simp only at hc hn
  unfold refreshBackendSwitching frontendsGet
  simp only [hlen, hfrontends, Bool.false_eq_true, if_false, hn, hc]
  exact clearBackends_backends c _ hbackends

/-- C4, as stated, fails: in a pass in which no listener is dirty the call returns
false and leaves the controller as it is; the declared backend "orphan", which is
no default backend, no target of a rule and not "RateLimit", is still declared. -/
theorem refreshBackendSwitching_not_dirty_counterexample :
    (switchingController []).cfg.BackendSwitchingStatus = [] ∧
      refreshBackendSwitching (switchingController []) = (false, switchingController []) ∧
      namedBackend "orphan" ∈ (switchingController []).backends ∧
      namedBackend "orphan" ∈ (refreshBackendSwitching (switchingController [])).2.backends := by
  decide

/-- C4, amended: in a pass in which no listener is dirty (`BackendSwitchingStatus`
is empty) `refreshBackendSwitching` returns false and changes nothing, so that no
backend is deleted. In a pass in which some name is dirty, the frontends and the
backends can be listed and no frontend is recompiled, a declared backend that is
neither the default backend of a frontend, nor the target of a rule of a
frontend, nor "RateLimit" is deleted by the call. -/
theorem refreshBackendSwitching_collection (c : HAProxyController) :
    (c.cfg.BackendSwitchingStatus = [] → refreshBackendSwitching c = (false, c)) ∧
      (c.cfg.BackendSwitchingStatus ≠ [] → c.frontendsGetFails = false →
        c.backendsGetFails = false →
        (∀ f ∈ c.frontends, mapGet c.cfg.BackendSwitchingRules f.Name = none ∨
          mapGet c.cfg.BackendSwitchingStatus f.Name = none) →
        ∀ b ∈ c.backends, b.Name ≠ "RateLimit" →
          (∀ f ∈ c.frontends, f.DefaultBackend ≠ b.Name) →
          (∀ f ∈ c.frontends, ∀ rules, mapGet c.cfg.BackendSwitchingRules f.Name = some rules →
            ∀ kr ∈ rules, kr.2.Backend ≠ b.Name) →
          ∀ x ∈ (refreshBackendSwitching c).2.backends, x.Name ≠ b.Name) := by
  constructor
  · intro h
    simp [refreshBackendSwitching, h]
  · intro hdirty hfrontends hbackends hidle b _ hrl hdef htarget x hx hname
    rw [refreshBackendSwitching_idle c hdirty hfrontends hbackends hidle] at hx
    have hact := (List.mem_filter.1 hx).2
    have hsome : mapGet (c.frontends.foldl refreshFrontend
        { c := c, activeBackends := [("RateLimit", ())], needsReload := false }).activeBackends
        x.Name = some () := by
      cases h : mapGet (c.frontends.foldl refreshFrontend
        { c := c, activeBackends := [("RateLimit", ())], needsReload := false }).activeBackends
        x.Name with
      | none => simp [h] at hact
      | some u => rfl
    rw [refreshLoop_active] at hsome
    rcases hsome with h | ⟨f, hf, h | ⟨rules, hr, kr, hkr, h⟩⟩
    · have hx' : x.Name = "RateLimit" := by
        by_contra hne
        have hbeq : (x.Name == "RateLimit") = false := by simpa using hne
        simp [mapGet, List.lookup, hbeq] at h
      exact hrl (hname ▸ hx')
    · exact hdef f hf (h.trans hname)
    · exact htarget f hf rules hr kr hkr (h.trans hname)

/-- Witness of `refreshBackendSwitching_collection`: with no dirty name nothing
changes; with the dirty name "ghost", which is no frontend, the backend "orphan"
is deleted. -/
theorem refreshBackendSwitching_collection_witness :
    refreshBackendSwitching (switchingController []) = (false, switchingController []) ∧
      ∀ x ∈ (refreshBackendSwitching (switchingController [("ghost", ())])).2.backends,
        x.Name ≠ (namedBackend "orphan").Name :=
  ⟨(refreshBackendSwitching_collection (switchingController [])).1 rfl,
   (refreshBackendSwitching_collection (switchingController [("ghost", ())])).2
     (by decide) rfl rfl (by decide) (namedBackend "orphan") (by decide) (by decide)
     (by decide) (by decide)⟩

theorem refreshFrontend_needsReload_mono (st : RefreshState) (f : Frontend)
    (h : st.needsReload = true) : (refreshFrontend st f).needsReload = true := by
  unfold refreshFrontend
  cases hr : mapGet st.c.cfg.BackendSwitchingRules f.Name with
  | none => simpa using h
  | some rules =>
    cases hs : mapGet st.c.cfg.BackendSwitchingStatus f.Name with
    | none => simpa using h
    | some u => simp

theorem refreshLoop_needsReload_mono (frontends : List Frontend) (st : RefreshState)
    (h : st.needsReload = true) : (frontends.foldl refreshFrontend st).needsReload = true := by
  induction frontends generalizing st with
  | nil => simpa using h
  | cons f fs ih =>
    rw [List.foldl_cons]
    exact ih _ (refreshFrontend_needsReload_mono st f h)

/-- When a listed frontend is dirty and has a rule map, the loop of
`refreshBackendSwitching` sets `needsReload`. -/
theorem refreshLoop_recompiles (frontends : List Frontend) (st : RefreshState)
    (hsome : ∃ f ∈ frontends, mapGet st.c.cfg.BackendSwitchingRules f.Name ≠ none ∧
      mapGet st.c.cfg.BackendSwitchingStatus f.Name ≠ none) :
    (frontends.foldl refreshFrontend st).needsReload = true := by
  induction frontends generalizing st with
  | nil =>
    obtain ⟨f, hf, _⟩ := hsome
    cases hf
  | cons g fs ih =>
    rw [List.foldl_cons]
    by_cases hg : mapGet st.c.cfg.BackendSwitchingRules g.Name ≠ none ∧
        mapGet st.c.cfg.BackendSwitchingStatus g.Name ≠ none
    · apply refreshLoop_needsReload_mono
      unfold refreshFrontend
      cases hr : mapGet st.c.cfg.BackendSwitchingRules g.Name with
      | none => exact absurd hr hg.1
      | some rules =>
        cases hs : mapGet st.c.cfg.BackendSwitchingStatus g.Name with
        | none => exact absurd hs hg.2
        | some u => simp
    · have hidle : mapGet st.c.cfg.BackendSwitchingRules g.Name = none ∨
          mapGet st.c.cfg.BackendSwitchingStatus g.Name = none := by
        by_cases h1 : mapGet st.c.cfg.BackendSwitchingRules g.Name = none
        · exact Or.inl h1
        · right
          by_contra h2
          exact hg ⟨h1, h2⟩
      have hstep := (refreshLoop_idle [g] st (by
        intro f hf
        rw [List.mem_singleton.1 hf]
        exact hidle)).1
      simp only [List.foldl_cons, List.foldl_nil] at hstep
      apply ih
      obtain ⟨f, hf, hfr⟩ := hsome
      rcases List.mem_cons.1 hf with rfl | hf
      · exact absurd hfr hg
      · exact ⟨f, hf, by rw [hstep]; exact hfr⟩

/-- In a pass that recompiles a frontend (a listed frontend
is dirty and has a rule map) `clearBackends` is not called, and every declared
backend is still declared after the call, referenced or not. -/
theorem refreshBackendSwitching_recompile_keeps_backends (c : HAProxyController)
    (hfrontends : c.frontendsGetFails = false)
    (hsome : ∃ f ∈ c.frontends, mapGet c.cfg.BackendSwitchingRules f.Name ≠ none ∧
      mapGet c.cfg.BackendSwitchingStatus f.Name ≠ none) :
    (refreshBackendSwitching c).1 = true ∧ (refreshBackendSwitching c).2.backends = c.backends := by
  have hlen : ¬ c.cfg.BackendSwitchingStatus.length = 0 := by
    intro h
    obtain ⟨f, _, _, hs⟩ := hsome
    rw [List.length_eq_zero.1 h] at hs
    exact hs rfl
  have hn := refreshLoop_recompiles c.frontends
    { c := c, activeBackends := [("RateLimit", ())], needsReload := false } hsome
  have hframe := (refreshLoop_frame c.frontends
    { c := c, activeBackends := [("RateLimit", ())], needsReload := false }).2.1
  unfold refreshBackendSwitching frontendsGet
  simp only [hlen, hfrontends, Bool.false_eq_true, if_false, hn, if_true]
  exact ⟨trivial, hframe⟩

/-- In a pass that calls `clearBackends` (some name is dirty, the listings succeed
and no frontend is recompiled) a declared backend survives if and only if its
name is "RateLimit", the default backend of a frontend or the target of a rule
in the rule map of a frontend. -/
theorem refreshBackendSwitching_idle_survivors (c : HAProxyController)
    (hdirty : c.cfg.BackendSwitchingStatus ≠ [])
    (hfrontends : c.frontendsGetFails = false) (hbackends : c.backendsGetFails = false)
    (hidle : ∀ f ∈ c.frontends, mapGet c.cfg.BackendSwitchingRules f.Name = none ∨
      mapGet c.cfg.BackendSwitchingStatus f.Name = none) (x : backend) :
    x ∈ (refreshBackendSwitching c).2.backends ↔
      x ∈ c.backends ∧ (x.Name = "RateLimit" ∨ ∃ f ∈ c.frontends, f.DefaultBackend = x.Name ∨
        ∃ rules, mapGet c.cfg.BackendSwitchingRules f.Name = some rules ∧
          ∃ kr ∈ rules, kr.2.Backend = x.Name) := by
  rw [refreshBackendSwitching_idle c hdirty hfrontends hbackends hidle, List.mem_filter]
  have hiff : (mapGet (c.frontends.foldl refreshFrontend
        { c := c, activeBackends := [("RateLimit", ())], needsReload := false }).activeBackends
        x.Name).isSome = true ↔
      mapGet (c.frontends.foldl refreshFrontend
        { c := c, activeBackends := [("RateLimit", ())], needsReload := false }).activeBackends
        x.Name = some () := by
    cases mapGet (c.frontends.foldl refreshFrontend
        { c := c, activeBackends := [("RateLimit", ())], needsReload := false }).activeBackends
        x.Name <;> simp
  rw [hiff, refreshLoop_active]
  have hinit : mapGet [("RateLimit", ())] x.Name = some () ↔ x.Name = "RateLimit" := by
    by_cases h : x.Name = "RateLimit"
    · simp [mapGet, List.lookup, h]
    · have hbeq : (x.Name == "RateLimit") = false := by simpa using h
      simp [mapGet, List.lookup, hbeq, h]
  simp only [hinit]

/-- C6, the code at the failing input: the frontend "http" is dirty, the frontends
and the backends can be listed; the pass recompiles the frontend and returns
true, and the declared backend "orphan", which is no default backend, no target
of a rule and not "RateLimit", is still declared after the call. -/
theorem refreshBackendSwitching_orphan_survives :
    (switchingController [("http", ())]).frontendsGetFails = false ∧
      (switchingController [("http", ())]).backendsGetFails = false ∧
      (refreshBackendSwitching (switchingController [("http", ())])).1 = true ∧
      (refreshBackendSwitching (switchingController [("http", ())])).2.backends =
        [namedBackend "default", namedBackend "web", namedBackend "orphan"] ∧
      (refreshBackendSwitching (switchingController [("http", ())])).2.switchingRules =
        [("http", [{ Cond := "if", CondTest := "\x7b req.hdr(host) -i a.com \x7d \x7b path_beg / \x7d",
                     Name := "web", ID := 0 }])] := by
  decide

/-! ## Backend switching: the order of the compiled rules -/

/-- The order of Go strings in the embedding is the order of Lean strings. -/
theorem goStringLE_iff (a b : String) : goStringLE a b ↔ a ≤ b :=
  String.le_iff_toList_le.symm

theorem sortReverse_sorted (keys : List String) : (sortReverse keys).Sorted reverseLE :=
  List.sorted_insertionSort reverseLE keys

theorem sortReverse_perm (keys : List String) : (sortReverse keys).Perm keys :=
  List.perm_insertionSort reverseLE keys

/-- Sorting does not depend on the order in which the keys come. -/
theorem sortReverse_congr {k1 k2 : List String} (h : k1.Perm k2) :
    sortReverse k1 = sortReverse k2 :=
  List.eq_of_perm_of_sorted
    (((sortReverse_perm k1).trans h).trans (sortReverse_perm k2).symm)
    (sortReverse_sorted k1) (sortReverse_sorted k2)

/-- Distinct keys are sorted in strictly descending order. -/
theorem sortReverse_strict (keys : List String) (hkeys : keys.Nodup) :
    (sortReverse keys).Pairwise (fun a b => b < a) := by
  have hs : (sortReverse keys).Pairwise reverseLE := sortReverse_sorted keys
  have hn : (sortReverse keys).Nodup := (sortReverse_perm keys).nodup_iff.2 hkeys
  have hand := hs.and hn
  refine hand.imp ?_
  intro a b hab
  obtain ⟨hle, hne⟩ := hab
  exact lt_of_le_of_ne ((goStringLE_iff b a).1 hle) (fun h => hne h.symm)

/-- Reading a map does not depend on the order of its entries. -/
theorem mapGet_perm {α : Type} {m1 m2 : List (String × α)} (h : m1.Perm m2)
    (hkeys : (m1.map Prod.fst).Nodup) (k : String) : mapGet m1 k = mapGet m2 k := by
  induction h with
  | nil => rfl
  | cons x _ ih =>
    have hk : (List.map Prod.fst _).Nodup := (List.nodup_cons.1 hkeys).2
    obtain ⟨a, v⟩ := x
    by_cases hka : k = a
    · subst hka
      simp [mapGet, List.lookup]
    · have hbeq : (k == a) = false := by simpa using hka
      have := ih hk
      simp only [mapGet] at this
      simp [mapGet, List.lookup, hbeq, this]
  | swap x y l =>
    obtain ⟨a, v⟩ := x
    obtain ⟨b, w⟩ := y
    have hab : b ≠ a := by
      intro h
      subst h
      simp at hkeys
    by_cases hka : k = a
    · subst hka
      have hbeq : (k == b) = false := by simpa using (fun h : k = b => hab h.symm)
      simp [mapGet, List.lookup, hbeq]
    · have hbeq : (k == a) = false := by simpa using hka
      by_cases hkb : k = b
      · subst hkb
        simp [mapGet, List.lookup, hbeq]
      · have hbeq2 : (k == b) = false := by simpa using hkb
        simp [mapGet, List.lookup, hbeq, hbeq2]
  | trans h1 _ ih1 ih2 =>
    exact (ih1 hkeys).trans (ih2 ((h1.map Prod.fst).nodup_iff.1 hkeys))

/-- The rules compiled for a frontend do not depend on the order of the entries
of its rule map. -/
theorem compileRules_perm (mode : String) {m1 m2 : UseBackendRules} (h : m1.Perm m2)
    (hkeys : (m1.map Prod.fst).Nodup) : compileRules mode m1 = compileRules mode m2 := by
  unfold compileRules
  rw [sortReverse_congr (h.map Prod.fst)]
  apply List.filterMap_congr
  intro k _
  unfold compileRule
  rw [mapGet_perm h hkeys k]

theorem createFold_rules_self (name : String) (l : List BackendSwitchingRule)
    (c : HAProxyController) :
    (mapGet (l.foldl (fun c rule => backendSwitchingRuleCreate c name rule) c).switchingRules
        name).getD [] = (mapGet c.switchingRules name).getD [] ++ l := by
  induction l generalizing c with
  | nil => simp
  | cons r l ih =>
    rw [List.foldl_cons, ih]
    simp [backendSwitchingRuleCreate, mapGet_mapSet_self]

theorem createFold_rules_other (name n : String) (hn : n ≠ name) (l : List BackendSwitchingRule)
    (c : HAProxyController) :
    mapGet (l.foldl (fun c rule => backendSwitchingRuleCreate c name rule) c).switchingRules n =
      mapGet c.switchingRules n := by
  induction l generalizing c with
  | nil => simp
  | cons r l ih =>
    rw [List.foldl_cons, ih]
    simp [backendSwitchingRuleCreate, mapGet_mapSet_ne _ _ _ _ hn]

/-- The rules of a dirty frontend after its iteration of the loop are the
compiled rules of its rule map. -/
theorem refreshFrontend_rules_self (st : RefreshState) (f : Frontend) (rules : UseBackendRules)
    (hrules : mapGet st.c.cfg.BackendSwitchingRules f.Name = some rules)
    (hdirty : mapGet st.c.cfg.BackendSwitchingStatus f.Name = some ()) :
    (mapGet (refreshFrontend st f).c.switchingRules f.Name).getD [] =
      compileRules f.Mode rules := by
  unfold refreshFrontend
  simp only [hrules, hdirty]
  rw [createFold_rules_self]
  simp [backendSwitchingRuleDeleteAll, mapGet_mapDelete_self]

/-- An iteration of the loop for a frontend of another name leaves the rules and
the dirty mark of the name `n` as they are. -/
theorem refreshFrontend_other (st : RefreshState) (g : Frontend) (n : String)
    (hn : n ≠ g.Name) :
    mapGet (refreshFrontend st g).c.switchingRules n = mapGet st.c.switchingRules n ∧
      mapGet (refreshFrontend st g).c.cfg.BackendSwitchingStatus n =
        mapGet st.c.cfg.BackendSwitchingStatus n := by
  unfold refreshFrontend
  cases hr : mapGet st.c.cfg.BackendSwitchingRules g.Name with
  | none => simp
  | some rules =>
    cases hs : mapGet st.c.cfg.BackendSwitchingStatus g.Name with
    | none => simp
    | some u =>
      have h1 := createFold_rules_other g.Name n hn (compileRules g.Mode rules)
        (backendSwitchingRuleDeleteAll st.c g.Name)
      have h2 := (createFold_frame g.Name (compileRules g.Mode rules)
        (backendSwitchingRuleDeleteAll st.c g.Name)).1
      simp only at h2
      simp only [h1, h2]
      simp [backendSwitchingRuleDeleteAll, mapGet_mapDelete_ne _ _ _ hn]

theorem refreshLoop_other (frontends : List Frontend) (st : RefreshState) (n : String)
    (hn : ∀ g ∈ frontends, n ≠ g.Name) :
    mapGet (frontends.foldl refreshFrontend st).c.switchingRules n =
      mapGet st.c.switchingRules n := by
  induction frontends generalizing st with
  | nil => simp
  | cons g gs ih =>
    rw [List.foldl_cons, ih _ (fun x hx => hn x (List.mem_cons_of_mem _ hx))]
    exact (refreshFrontend_other st g n (hn g (List.mem_cons_self _ _))).1

/-- After the loop, the rules of a dirty frontend are the compiled rules of its
rule map, when the names of the frontends are distinct. -/
theorem refreshLoop_rules (frontends : List Frontend) (st : RefreshState) (f : Frontend)
    (rules : UseBackendRules)
    (hnames : frontends.Pairwise (fun a b => a.Name ≠ b.Name)) (hf : f ∈ frontends)
    (hrules : mapGet st.c.cfg.BackendSwitchingRules f.Name = some rules)
    (hdirty : mapGet st.c.cfg.BackendSwitchingStatus f.Name = some ()) :
    (mapGet (frontends.foldl refreshFrontend st).c.switchingRules f.Name).getD [] =
      compileRules f.Mode rules := by
  induction frontends generalizing st with
  | nil => cases hf
  | cons g gs ih =>
    rw [List.foldl_cons]
    obtain ⟨hg, hgs⟩ := List.pairwise_cons.1 hnames
    rcases List.mem_cons.1 hf with rfl | hf
    · rw [refreshLoop_other gs _ _ (fun x hx => hg x hx)]
      exact refreshFrontend_rules_self st f rules hrules hdirty
    · have hne : f.Name ≠ g.Name := fun h => hg f hf h.symm
      apply ih _ hgs hf
      · rw [(refreshFrontend_frame st g).1]
        exact hrules
      · rw [(refreshFrontend_other st g f.Name hne).2]
        exact hdirty

theorem clearBackends_switchingRules (c : HAProxyController) (active : List (String × Unit)) :
    (clearBackends c active).2.switchingRules = c.switchingRules := by
  unfold clearBackends
  cases backendsGet c with
  | error e => rfl
  | ok l =>
    simp only
    have : ∀ (l : List backend) (acc : Bool × HAProxyController),
        (l.foldl (fun (acc : Bool × HAProxyController) b =>
          match mapGet active b.Name with
          | none => (true, backendDelete acc.2 b.Name)
          | some _ => acc) acc).2.switchingRules = acc.2.switchingRules := by
      intro l
      induction l with
      | nil => intro acc; rfl
      | cons b l ih =>
        intro acc
        rw [List.foldl_cons, ih]
        cases mapGet active b.Name <;> simp [backendDelete]
    exact this l (false, c)

/-- C7: for every dirty frontend of `refreshBackendSwitching` (the frontends can
be listed and have distinct names, the keys of the rule map are distinct, as in
any Go map), the rules created for the frontend are the compiled rules of the
keys taken in strictly descending order, and they do not depend on the order of
the entries of the rule map, which is the order in which the rules were added. -/
theorem refreshBackendSwitching_rule_order (c : HAProxyController) (f : Frontend)
    (rules : UseBackendRules)
    (hlist : c.frontendsGetFails = false)
    (hnames : c.frontends.Pairwise (fun a b => a.Name ≠ b.Name)) (hf : f ∈ c.frontends)
    (hrules : mapGet c.cfg.BackendSwitchingRules f.Name = some rules)
    (hdirty : mapGet c.cfg.BackendSwitchingStatus f.Name = some ())
    (hkeys : (rules.map Prod.fst).Nodup) :
    ∃ keys : List String,
      keys.Perm (rules.map Prod.fst) ∧ keys.Pairwise (fun a b => b < a) ∧
      (mapGet (refreshBackendSwitching c).2.switchingRules f.Name).getD [] =
        keys.filterMap (compileRule f.Mode rules) ∧
      ∀ rules' : UseBackendRules, rules'.Perm rules →
        compileRules f.Mode rules' = keys.filterMap (compileRule f.Mode rules) := by
  refine ⟨sortReverse (rules.map Prod.fst), sortReverse_perm _, sortReverse_strict _ hkeys, ?_, ?_⟩
  · have hlen : ¬ c.cfg.BackendSwitchingStatus.length = 0 := by
      intro h
      rw [List.length_eq_zero.1 h] at hdirty
      cases hdirty
    have hloop := refreshLoop_rules c.frontends
      { c := c, activeBackends := [("RateLimit", ())], needsReload := false } f rules
      hnames hf hrules hdirty
    unfold refreshBackendSwitching frontendsGet
    simp only [hlen, hlist, Bool.false_eq_true, if_false]
    split
    · exact hloop
    · rw [clearBackends_switchingRules]
      exact hloop
  · intro rules' hperm
    exact (compileRules_perm f.Mode hperm.symm hkeys).symm

/-- Witness of `refreshBackendSwitching_rule_order`: the rule map with the keys
"b", "c", "a" of the frontend "http". Moreover, in whichever order the keys "a",
"b", "c" are added with `addUseBackendRule`, the rules are created in the order
"c", "b", "a". -/
theorem refreshBackendSwitching_rule_order_witness :
    (∃ keys : List String,
      keys.Perm ([("b", hostRule "b"), ("c", hostRule "c"), ("a", hostRule "a")].map Prod.fst) ∧
      keys.Pairwise (fun a b => b < a) ∧
      (mapGet (refreshBackendSwitching (httpController
          { emptyConfiguration with
            BackendSwitchingRules :=
              [("http", [("b", hostRule "b"), ("c", hostRule "c"), ("a", hostRule "a")])]
            BackendSwitchingStatus := [("http", ())] })).2.switchingRules "http").getD [] =
        keys.filterMap (compileRule "http"
          [("b", hostRule "b"), ("c", hostRule "c"), ("a", hostRule "a")]) ∧
      ∀ rules' : UseBackendRules,
        rules'.Perm [("b", hostRule "b"), ("c", hostRule "c"), ("a", hostRule "a")] →
        compileRules "http" rules' = keys.filterMap (compileRule "http"
          [("b", hostRule "b"), ("c", hostRule "c"), ("a", hostRule "a")])) ∧
      ∀ order ∈ [["a", "b", "c"], ["a", "c", "b"], ["b", "a", "c"], ["b", "c", "a"],
          ["c", "a", "b"], ["c", "b", "a"]],
        (rulesAdded order).map
            (fun cfg => (refreshBackendSwitching (httpController cfg)).2.switchingRules) =
          some [("http",
            [{ Cond := "if", CondTest := "\x7b req.hdr(host) -i c \x7d ", Name := "svc-c", ID := 0 },
             { Cond := "if", CondTest := "\x7b req.hdr(host) -i b \x7d ", Name := "svc-b", ID := 0 },
             { Cond := "if", CondTest := "\x7b req.hdr(host) -i a \x7d ", Name := "svc-a", ID := 0 }])] :=
  ⟨refreshBackendSwitching_rule_order
      (httpController
        { emptyConfiguration with
          BackendSwitchingRules :=
            [("http", [("b", hostRule "b"), ("c", hostRule "c"), ("a", hostRule "a")])]
          BackendSwitchingStatus := [("http", ())] })
      { Name := "http", Mode := "http", DefaultBackend := "default" }
      [("b", hostRule "b"), ("c", hostRule "c"), ("a", hostRule "a")]
      rfl (by decide) (by decide) (by decide) (by decide) (by decide),
   by decide⟩

/-! ## The health check: `updateHttpchk` -/

theorem fieldsAux_eq_nil (l cur : List Char) :
    fieldsAux cur l = [] ↔ cur = [] ∧ ∀ c ∈ l, isSpace c = true := by
  induction l generalizing cur with
  | nil => cases cur <;> simp [fieldsAux]
  | cons c cs ih =>
    unfold fieldsAux
    by_cases hc : isSpace c = true
    · cases cur with
      | nil => simp [hc, ih]
      | cons d ds => simp [hc]
    · simp [hc, ih]

theorem trimSpaceChars_of_spaces (l : List Char) (h : ∀ c ∈ l, isSpace c = true) :
    trimSpaceChars l = [] := by
  have : l.dropWhile isSpace = [] := List.dropWhile_eq_nil_iff.2 h
  simp [trimSpaceChars, this]

theorem dropWhile_head_not (p : Char → Bool) (l : List Char) (c : Char) (cs : List Char)
    (h : l.dropWhile p = c :: cs) : p c = false := by
  induction l with
  | nil => simp at h
  | cons d ds ih =>
    by_cases hd : p d = true
    · rw [List.dropWhile_cons_of_pos hd] at h
      exact ih h
    · rw [List.dropWhile_cons_of_neg hd] at h
      cases h
      simpa using hd

theorem trimSpaceChars_spaces_iff (l : List Char) :
    (∀ c ∈ trimSpaceChars l, isSpace c = true) ↔ ∀ c ∈ l, isSpace c = true := by
  constructor
  · intro h
    by_contra hl
    have hne : l.dropWhile isSpace ≠ [] := fun h0 => hl (List.dropWhile_eq_nil_iff.1 h0)
    obtain ⟨c, cs, hcs⟩ := List.exists_cons_of_ne_nil hne
    have hc := dropWhile_head_not isSpace l c cs hcs
    have hne2 : (cs.reverse ++ [c]).dropWhile isSpace ≠ [] := by
      intro h0
      have := List.dropWhile_eq_nil_iff.1 h0 c (by simp)
      rw [hc] at this
      cases this
    obtain ⟨d, ds, hds⟩ := List.exists_cons_of_ne_nil hne2
    have hd := dropWhile_head_not isSpace _ d ds hds
    have hmem : d ∈ trimSpaceChars l := by
      simp [trimSpaceChars, hcs, hds]
    rw [h d hmem] at hd
    cases hd
  · intro h
    rw [trimSpaceChars_of_spaces l h]
    simp

/-- The value has no field if and only if all its characters are white space. -/
theorem stringsFields_eq_nil (s : String) :
    stringsFields (stringsTrimSpace s) = [] ↔ ∀ c ∈ s.data, isSpace c = true := by
  unfold stringsFields stringsTrimSpace
  rw [fieldsAux_eq_nil]
  simp only [true_and]
  exact trimSpaceChars_spaces_iff s.data

/-- C8: `updateHttpchk` splits the value on white space. A value without field,
which is an empty value or a value of white space only, is rejected with an
error. When the resulting check passes the validation: one field gives the URI,
with method and version empty; two fields give the method and the URI, with
the version empty; three fields or more give the method, the URI and as version
the fields from the third on, joined by single spaces. No other field of the
backend changes. -/
theorem updateHttpchk_fields (ext : Externals) (b : backend) (data : StringW) :
    (stringsFields (stringsTrimSpace data.Value) = [] ↔
        ∀ c ∈ data.Value.data, isSpace c = true) ∧
      (stringsFields (stringsTrimSpace data.Value) = [] →
        updateHttpchk ext b data = .error "httpchk option: incorrect number of params") ∧
      (∀ uri, stringsFields (stringsTrimSpace data.Value) = [uri] →
        ext.validateHttpchk { Method := "", URI := uri, Version := "" } = .ok () →
        updateHttpchk ext b data =
          .ok { b with Httpchk := some { Method := "", URI := uri, Version := "" } }) ∧
      (∀ method uri, stringsFields (stringsTrimSpace data.Value) = [method, uri] →
        ext.validateHttpchk { Method := method, URI := uri, Version := "" } = .ok () →
        updateHttpchk ext b data =
          .ok { b with Httpchk := some { Method := method, URI := uri, Version := "" } }) ∧
      (∀ method uri v rest,
        stringsFields (stringsTrimSpace data.Value) = method :: uri :: v :: rest →
        ext.validateHttpchk
          { Method := method, URI := uri, Version := " ".intercalate (v :: rest) } = .ok () →
        updateHttpchk ext b data =
          .ok { b with
            Httpchk := some
              { Method := method, URI := uri, Version := " ".intercalate (v :: rest) } }) := by
  refine ⟨stringsFields_eq_nil data.Value, ?_, ?_, ?_, ?_⟩
  · intro h
    simp [updateHttpchk, h, httpchkOfParams]
  · intro uri h hv
    simp [updateHttpchk, h, httpchkOfParams, hv]
  · intro method uri h hv
    simp [updateHttpchk, h, httpchkOfParams, hv]
  · intro method uri v rest h hv
    simp [updateHttpchk, h, httpchkOfParams, hv, stringsJoin]

/-- Witness of `updateHttpchk_fields`: the values "   ", "/health", "GET /health"
and " GET  /health HTTP/1.1  extra ". -/
theorem updateHttpchk_fields_witness :
    updateHttpchk permissiveExternals (namedBackend "web") ⟨"   ", "", Status.ADDED⟩ =
        .error "httpchk option: incorrect number of params" ∧
      updateHttpchk permissiveExternals (namedBackend "web") ⟨"/health", "", Status.ADDED⟩ =
        .ok { namedBackend "web" with
          Httpchk := some { Method := "", URI := "/health", Version := "" } } ∧
      updateHttpchk permissiveExternals (namedBackend "web") ⟨"GET /health", "", Status.ADDED⟩ =
        .ok { namedBackend "web" with
          Httpchk := some { Method := "GET", URI := "/health", Version := "" } } ∧
      updateHttpchk permissiveExternals (namedBackend "web")
          ⟨" GET  /health HTTP/1.1  extra ", "", Status.ADDED⟩ =
        .ok { namedBackend "web" with
          Httpchk := some { Method := "GET", URI := "/health", Version := "HTTP/1.1 extra" } } :=
  ⟨(updateHttpchk_fields permissiveExternals (namedBackend "web")
      ⟨"   ", "", Status.ADDED⟩).2.1 (by decide),
   (updateHttpchk_fields permissiveExternals (namedBackend "web")
      ⟨"/health", "", Status.ADDED⟩).2.2.1 "/health" (by decide) rfl,
   (updateHttpchk_fields permissiveExternals (namedBackend "web")
      ⟨"GET /health", "", Status.ADDED⟩).2.2.2.1 "GET" "/health" (by decide) rfl,
   (updateHttpchk_fields permissiveExternals (namedBackend "web")
      ⟨" GET  /health HTTP/1.1  extra ", "", Status.ADDED⟩).2.2.2.2 "GET" "/health" "HTTP/1.1"
      ["extra"] (by decide) rfl⟩

/-- Every field of `strings.Fields` is non-empty and free of white space. -/
theorem fieldsAux_tokens (l cur : List Char) (hcur : ∀ c ∈ cur, isSpace c = false) :
    ∀ t ∈ fieldsAux cur l, t.data ≠ [] ∧ ∀ c ∈ t.data, isSpace c = false := by
  induction l generalizing cur with
  | nil =>
    intro t ht
    cases cur with
    | nil => simp [fieldsAux] at ht
    | cons d ds =>
      simp only [fieldsAux, List.isEmpty_cons, Bool.false_eq_true, if_false,
        List.mem_singleton] at ht
      subst ht
      refine ⟨by simp, ?_⟩
      intro c hc
      exact hcur c (by simpa [or_comm] using hc)
  | cons c cs ih =>
    intro t ht
    unfold fieldsAux at ht
    by_cases hc : isSpace c = true
    · cases cur with
      | nil =>
        simp only [hc, if_true, List.isEmpty_nil] at ht
        exact ih [] (by simp) t ht
      | cons d ds =>
        simp only [hc, if_true, List.isEmpty_cons, Bool.false_eq_true, if_false,
          List.mem_cons] at ht
        rcases ht with rfl | ht
        · refine ⟨by simp, ?_⟩
          intro x hx
          exact hcur x (by simpa [or_comm] using hx)
        · exact ih [] (by simp) t ht
    · simp only [hc, Bool.false_eq_true, if_false] at ht
      refine ih (c :: cur) ?_ t ht
      intro x hx
      rcases List.mem_cons.1 hx with rfl | hx
      · simpa using hc
      · exact hcur x hx

theorem stringsFields_tokens (s : String) :
    ∀ t ∈ stringsFields s, t.data ≠ [] ∧ ∀ c ∈ t.data, isSpace c = false :=
  fieldsAux_tokens s.data [] (by simp)

/-! ## SSL passthrough -/

theorem find_name_eq (l : List backend) (name : String) (b0 : backend)
    (h : l.find? (fun b => b.Name == name) = some b0) : b0.Name = name := by
  have := List.find?_some h
  simpa using this

theorem backendGet_name (c : HAProxyController) (name : String) (b0 : backend)
    (h : backendGet c name = .ok b0) : b0.Name = name := by
  unfold backendGet at h
  cases hf : c.backends.find? (fun b => b.Name == name) with
  | none => simp [hf] at h
  | some x =>
    simp only [hf, Except.ok.injEq] at h
    subst h
    exact find_name_eq _ _ _ hf

theorem find_map_replace (l : List backend) (b1 : backend) (b0 : backend)
    (h : l.find? (fun b => b.Name == b1.Name) = some b0) :
    (l.map (fun x => if x.Name == b1.Name then b1 else x)).find? (fun b => b.Name == b1.Name) =
      some b1 := by
  induction l with
  | nil => simp at h
  | cons x xs ih =>
    by_cases hx : x.Name = b1.Name
    · simp [hx]
    · have hbeq : (x.Name == b1.Name) = false := by simpa using hx
      rw [List.find?_cons_of_neg _ (by simpa using hx)] at h
      simp only [List.map_cons, hbeq, Bool.false_eq_true, if_false]
      rw [List.find?_cons_of_neg _ (by simpa using hx)]
      exact ih h

/-- Storing a backend under the name of a backend that exists succeeds, and the
backend read back is the one stored. -/
theorem backendGet_backendEdit (c : HAProxyController) (b0 b1 : backend)
    (hget : backendGet c b1.Name = .ok b0) :
    ∃ c1, backendEdit c b1 = .ok c1 ∧ backendGet c1 b1.Name = .ok b1 ∧
      c1 = { c with backends := c.backends.map (fun x => if x.Name == b1.Name then b1 else x) } := by
  unfold backendGet at hget
  cases hf : c.backends.find? (fun b => b.Name == b1.Name) with
  | none => simp [hf] at hget
  | some x =>
    have hany : c.backends.any (fun x => x.Name == b1.Name) = true := by
      rw [List.any_eq_true]
      exact ⟨x, List.mem_of_find?_eq_some hf, by simpa using find_name_eq _ _ _ hf⟩
    refine ⟨_, by simp [backendEdit, hany], ?_, rfl⟩
    have hrep := find_map_replace c.backends b1 x hf
    unfold backendGet
    simp only [hrep]

/-- C9: when `handleSSLPassthrough` is triggered (the status of the directive or
of the path is not unchanged) and the value of the directive parses as the
boolean `enabled`, then after the call `IsSSLPassthrough` of the path is
`enabled`, the status of the path is MODIFIED, and the target backend, if it
exists, is stored with the mode "tcp" when `enabled` is true and "http"
otherwise, its other fields being as before. -/
theorem handleSSLPassthrough_sets (c : HAProxyController) (annSSLPassthrough : StringW)
    (path : IngressPath) (backendName : String) (enabled : Bool)
    (htrigger : annSSLPassthrough.Status ≠ Status.EMPTY ∨ path.Status ≠ Status.EMPTY)
    (hparse : strconvParseBool annSSLPassthrough.Value = .ok enabled) :
    (handleSSLPassthrough c annSSLPassthrough path backendName).1 =
        { path with IsSSLPassthrough := enabled, Status := Status.MODIFIED } ∧
      ∀ b0, backendGet c backendName = .ok b0 →
        backendGet (handleSSLPassthrough c annSSLPassthrough path backendName).2 backendName =
          .ok { b0 with Mode := if enabled then "tcp" else "http" } := by
  constructor
  · unfold handleSSLPassthrough
    simp only [htrigger, if_true, hparse]
    cases enabled <;> simp
  · intro b0 hb0
    have hname := backendGet_name c backendName b0 hb0
    have hedit : ∀ m : String, ∃ c1, backendEdit c { b0 with Mode := m } = .ok c1 ∧
        backendGet c1 backendName = .ok { b0 with Mode := m } := by
      intro m
      have hget : backendGet c ({ b0 with Mode := m } : backend).Name = .ok b0 := by
        simpa [hname] using hb0
      obtain ⟨c1, h1, h2, _⟩ := backendGet_backendEdit c b0 { b0 with Mode := m } hget
      exact ⟨c1, h1, by simpa [hname] using h2⟩
    unfold handleSSLPassthrough
    simp only [htrigger, if_true, hparse, hb0]
    cases enabled with
    | true =>
      obtain ⟨c1, h1, h2⟩ := hedit "tcp"
      simp [h1, h2]
    | false =>
      obtain ⟨c1, h1, h2⟩ := hedit "http"
      simp [h1, h2]

/-- Witness of `handleSSLPassthrough_sets`: the directive "true" (ADDED) on the
path /foo whose backend "web" is in HTTP mode. -/
theorem handleSSLPassthrough_sets_witness :
    (handleSSLPassthrough
        { emptyController with backends := [{ namedBackend "web" with Mode := "http" }] }
        ⟨"true", "", Status.ADDED⟩ ⟨"/foo", false, Status.EMPTY⟩ "web").1 =
        { Path := "/foo", IsSSLPassthrough := true, Status := Status.MODIFIED } ∧
      (handleSSLPassthrough
        { emptyController with backends := [{ namedBackend "web" with Mode := "http" }] }
        ⟨"true", "", Status.ADDED⟩ ⟨"/foo", false, Status.EMPTY⟩ "web").2.backends =
        [{ namedBackend "web" with Mode := "tcp" }] ∧
      backendGet (handleSSLPassthrough
        { emptyController with backends := [{ namedBackend "web" with Mode := "http" }] }
        ⟨"true", "", Status.ADDED⟩ ⟨"/foo", false, Status.EMPTY⟩ "web").2 "web" =
        .ok { namedBackend "web" with Mode := "tcp" } :=
  have h := handleSSLPassthrough_sets
    { emptyController with backends := [{ namedBackend "web" with Mode := "http" }] }
    ⟨"true", "", Status.ADDED⟩ ⟨"/foo", false, Status.EMPTY⟩ "web" true
    (Or.inl (by decide)) rfl
  ⟨h.1, by decide, h.2 { namedBackend "web" with Mode := "http" } rfl⟩

/-! ## Backend annotations -/

theorem updateAbortOnClose_ok (b : backend) (data : StringW) :
    ∃ x, updateAbortOnClose b data = .ok { b with Abortonclose := x } := by
  unfold updateAbortOnClose
  split
  · exact ⟨_, rfl⟩
  · exact ⟨_, rfl⟩

theorem updateHttpchk_ok (ext : Externals) (b b1 : backend) (data : StringW)
    (h : updateHttpchk ext b data = .ok b1) : ∃ x, b1 = { b with Httpchk := x } := by
  unfold updateHttpchk at h
  simp only at h
  split at h
  · cases h
  · split at h
    · cases h
    · cases h
      exact ⟨_, rfl⟩

theorem updateForwardfor_ok (b b1 : backend) (data : StringW)
    (h : updateForwardfor b data = .ok b1) : ∃ x, b1 = { b with Forwardfor := x } := by
  unfold updateForwardfor at h
  split at h
  · cases h
    exact ⟨_, rfl⟩
  · split at h
    · cases h
    · split at h
      · cases h
        exact ⟨_, rfl⟩
      · cases h
        exact ⟨_, rfl⟩

theorem updateBalance_ok (ext : Externals) (b b1 : backend) (data : StringW)
    (h : updateBalance ext b data = .ok b1) : ∃ x, b1 = { b with Balance := x } := by
  unfold updateBalance at h
  simp only at h
  split at h
  · cases h
  · cases h
    exact ⟨_, rfl⟩

theorem updateCheckTimeout_ok (ext : Externals) (b b1 : backend) (data : StringW)
    (h : updateCheckTimeout ext b data = .ok b1) : ∃ x, b1 = { b with CheckTimeout := x } := by
  unfold updateCheckTimeout at h
  split at h
  · cases h
  · cases h
    exact ⟨_, rfl⟩

/-- What an iteration of the loop of `handleBackendAnnotations` keeps: the name of
the backend, `needReload` once it is set, the health check unless the key is
"check-http", the check timeout unless the key is "timeout-check". -/
theorem backendAnnotationStep_frame (ext : Externals) (newBackend : Bool) (st : backend × Bool)
    (kv : String × Option StringW) :
    (backendAnnotationStep ext newBackend st kv).1.Name = st.1.Name ∧
      (st.2 = true → (backendAnnotationStep ext newBackend st kv).2 = true) ∧
      (kv.1 ≠ "check-http" →
        (backendAnnotationStep ext newBackend st kv).1.Httpchk = st.1.Httpchk) ∧
      (kv.1 ≠ "timeout-check" →
        (backendAnnotationStep ext newBackend st kv).1.CheckTimeout = st.1.CheckTimeout) := by
  obtain ⟨k, v⟩ := kv
  obtain ⟨b, r⟩ := st
  unfold backendAnnotationStep
  cases v with
  | none => simp
  | some v =>
    simp only
    split
    · split
      · obtain ⟨x, hx⟩ := updateAbortOnClose_ok b v
        simp [hx]
      · split
        · split
          · simp_all
          · cases h : updateHttpchk ext b v with
            | error e => simp
            | ok b1 =>
              obtain ⟨x, hx⟩ := updateHttpchk_ok ext b b1 v h
              simp_all
        · split
          · cases h : updateForwardfor b v with
            | error e => simp
            | ok b1 =>
              obtain ⟨x, hx⟩ := updateForwardfor_ok b b1 v h
              simp_all
          · split
            · cases h : updateBalance ext b v with
              | error e => simp
              | ok b1 =>
                obtain ⟨x, hx⟩ := updateBalance_ok ext b b1 v h
                simp_all
            · split
              · split
                · simp_all
                · cases h : updateCheckTimeout ext b v with
                  | error e => simp
                  | ok b1 =>
                    obtain ⟨x, hx⟩ := updateCheckTimeout_ok ext b b1 v h
                    simp_all
              · simp
    · simp

/-- The loop of `handleBackendAnnotations` on an existing backend, when the
directive of `key` is DELETED: the field is unset and `needReload` is set. -/
theorem applyBackendAnnotations_deleted (ext : Externals) (getValue : String → Option StringW)
    (order : List String) (b : backend) :
    (applyBackendAnnotations ext getValue order false b).1.Name = b.Name ∧
      (∀ v, "check-http" ∈ order → getValue "check-http" = some v → v.Status = Status.DELETED →
        (applyBackendAnnotations ext getValue order false b).1.Httpchk = none ∧
          (applyBackendAnnotations ext getValue order false b).2 = true) ∧
      (∀ v, "timeout-check" ∈ order → getValue "timeout-check" = some v →
        v.Status = Status.DELETED →
        (applyBackendAnnotations ext getValue order false b).1.CheckTimeout = none ∧
          (applyBackendAnnotations ext getValue order false b).2 = true) := by
  unfold applyBackendAnnotations
  have hname : ∀ (l : List String) (st : backend × Bool),
      ((l.map (fun k => (k, getValue k))).foldl (backendAnnotationStep ext false) st).1.Name =
        st.1.Name := by
    intro l
    induction l with
    | nil => intro st; rfl
    | cons k l ih =>
      intro st
      rw [List.map_cons, List.foldl_cons, ih]
      exact (backendAnnotationStep_frame ext false st (k, getValue k)).1
  refine ⟨hname order (b, false), ?_, ?_⟩
  · intro v hmem hget hdel
    have hstep : ∀ st : backend × Bool,
        (backendAnnotationStep ext false st ("check-http", getValue "check-http")).1.Httpchk =
            none ∧
          (backendAnnotationStep ext false st ("check-http", getValue "check-http")).2 = true := by
      intro st
      simp [backendAnnotationStep, hget, hdel]
    have hkeep : ∀ (l : List String) (st : backend × Bool),
        (st.1.Httpchk = none ∧ st.2 = true) →
        ((l.map (fun k => (k, getValue k))).foldl (backendAnnotationStep ext false) st).1.Httpchk =
            none ∧
          ((l.map (fun k => (k, getValue k))).foldl (backendAnnotationStep ext false) st).2 =
            true := by
      intro l
      induction l with
      | nil => intro st h; exact h
      | cons k l ih =>
        intro st h
        rw [List.map_cons, List.foldl_cons]
        apply ih
        by_cases hk : k = "check-http"
        · subst hk
          exact hstep st
        · obtain ⟨_, h2, h3, _⟩ := backendAnnotationStep_frame ext false st (k, getValue k)
          exact ⟨(h3 hk).trans h.1, h2 h.2⟩
    have hreach : ∀ (l : List String) (st : backend × Bool), "check-http" ∈ l →
        ((l.map (fun k => (k, getValue k))).foldl (backendAnnotationStep ext false) st).1.Httpchk =
            none ∧
          ((l.map (fun k => (k, getValue k))).foldl (backendAnnotationStep ext false) st).2 =
            true := by
      intro l
      induction l with
      | nil => intro st h; cases h
      | cons k l ih =>
        intro st h
        rw [List.map_cons, List.foldl_cons]
        by_cases hk : k = "check-http"
        · subst hk
          exact hkeep l _ (hstep st)
        · rcases List.mem_cons.1 h with h | h
          · exact absurd h.symm hk
          · exact ih _ h
    exact hreach order (b, false) hmem
  · intro v hmem hget hdel
    have hstep : ∀ st : backend × Bool,
        (backendAnnotationStep ext false st
            ("timeout-check", getValue "timeout-check")).1.CheckTimeout = none ∧
          (backendAnnotationStep ext false st
            ("timeout-check", getValue "timeout-check")).2 = true := by
      intro st
      simp [backendAnnotationStep, hget, hdel]
    have hkeep : ∀ (l : List String) (st : backend × Bool),
        (st.1.CheckTimeout = none ∧ st.2 = true) →
        ((l.map (fun k => (k, getValue k))).foldl
            (backendAnnotationStep ext false) st).1.CheckTimeout = none ∧
          ((l.map (fun k => (k, getValue k))).foldl (backendAnnotationStep ext false) st).2 =
            true := by
      intro l
      induction l with
      | nil => intro st h; exact h
      | cons k l ih =>
        intro st h
        rw [List.map_cons, List.foldl_cons]
        apply ih
        by_cases hk : k = "timeout-check"
        · subst hk
          exact hstep st
        · obtain ⟨_, h2, _, h4⟩ := backendAnnotationStep_frame ext false st (k, getValue k)
          exact ⟨(h4 hk).trans h.1, h2 h.2⟩
    have hreach : ∀ (l : List String) (st : backend × Bool), "timeout-check" ∈ l →
        ((l.map (fun k => (k, getValue k))).foldl
            (backendAnnotationStep ext false) st).1.CheckTimeout = none ∧
          ((l.map (fun k => (k, getValue k))).foldl (backendAnnotationStep ext false) st).2 =
            true := by
      intro l
      induction l with
      | nil => intro st h; cases h
      | cons k l ih =>
        intro st h
        rw [List.map_cons, List.foldl_cons]
        by_cases hk : k = "timeout-check"
        · subst hk
          exact hkeep l _ (hstep st)
        · rcases List.mem_cons.1 h with h | h
          · exact absurd h.symm hk
          · exact ih _ h
    exact hreach order (b, false) hmem

/-- C10, as stated, fails: for a new backend the directives `check-http` =
"/health" and `timeout-check` = "5s", both DELETED, are applied; the health check
of the backend "web" becomes the URI "/health" and its check timeout 5000, values
parsed from the directives. -/
theorem backendAnnotations_deleted_counterexample :
    (deletedChecks "check-http").map (fun v => v.Status) = some Status.DELETED ∧
      (deletedChecks "timeout-check").map (fun v => v.Status) = some Status.DELETED ∧
      (handleBackendAnnotations permissiveExternals deletedChecks backendAnnotationNames
        webController "web" true).1 = (true, none) ∧
      (handleBackendAnnotations permissiveExternals deletedChecks backendAnnotationNames
        webController "web" true).2.backends =
        [{ Name := "web", Mode := "http", Balance := some { Algorithm := "roundrobin" },
           Forwardfor := none,
           Httpchk := some { Method := "", URI := "/health", Version := "" },
           Abortonclose := "", CheckTimeout := some 5000 }] := by
  decide

/-- C10, amended: for a backend that already exists (`newBackend` is false) and
every visiting order of the keys, a `check-http` directive whose status is DELETED
leaves the health check of the stored backend unset, and a `timeout-check`
directive whose status is DELETED leaves its check timeout unset; `needReload` is
true and no error is returned. -/
theorem handleBackendAnnotations_deleted (ext : Externals)
    (getValue : String → Option StringW) (order : List String) (c : HAProxyController)
    (backendName : String) (b0 : backend)
    (horder : order.Perm backendAnnotationNames)
    (hget : backendGet c backendName = .ok b0) :
    (∀ v, getValue "check-http" = some v → v.Status = Status.DELETED →
        (handleBackendAnnotations ext getValue order c backendName false).1 = (true, none) ∧
        ∃ b1, backendGet (handleBackendAnnotations ext getValue order c backendName false).2
            backendName = .ok b1 ∧ b1.Httpchk = none) ∧
      (∀ v, getValue "timeout-check" = some v → v.Status = Status.DELETED →
        (handleBackendAnnotations ext getValue order c backendName false).1 = (true, none) ∧
        ∃ b1, backendGet (handleBackendAnnotations ext getValue order c backendName false).2
            backendName = .ok b1 ∧ b1.CheckTimeout = none) := by
  obtain ⟨hname, hhttp, htime⟩ := applyBackendAnnotations_deleted ext getValue order b0
  have hb0 := backendGet_name c backendName b0 hget
  have hedit : ∃ c1,
      backendEdit c (applyBackendAnnotations ext getValue order false b0).1 = .ok c1 ∧
      backendGet c1 backendName = .ok (applyBackendAnnotations ext getValue order false b0).1 := by
    have hget1 : backendGet c (applyBackendAnnotations ext getValue order false b0).1.Name =
        .ok b0 := by
      rw [hname, hb0]
      exact hget
    obtain ⟨c1, h1, h2, _⟩ := backendGet_backendEdit c b0 _ hget1
    rw [hname, hb0] at h2
    exact ⟨c1, h1, h2⟩
  obtain ⟨c1, hc1, hg1⟩ := hedit
  have hm1 : "check-http" ∈ order := horder.mem_iff.2 (by decide)
  have hm2 : "timeout-check" ∈ order := horder.mem_iff.2 (by decide)
  constructor
  · intro v hv hdel
    obtain ⟨hfield, hflag⟩ := hhttp v hm1 hv hdel
    unfold handleBackendAnnotations
    simp only [hget, hflag, if_true, hc1]
    exact ⟨trivial, _, hg1, hfield⟩
  · intro v hv hdel
    obtain ⟨hfield, hflag⟩ := htime v hm2 hv hdel
    unfold handleBackendAnnotations
    simp only [hget, hflag, if_true, hc1]
    exact ⟨trivial, _, hg1, hfield⟩

/-- Witness of `handleBackendAnnotations_deleted`: the backend "web", whose health
check and check timeout are set, and the two directives DELETED. -/
theorem handleBackendAnnotations_deleted_witness :
    ((handleBackendAnnotations permissiveExternals deletedChecks backendAnnotationNames
        webController "web" false).1 = (true, none) ∧
      ∃ b1, backendGet (handleBackendAnnotations permissiveExternals deletedChecks
          backendAnnotationNames webController "web" false).2 "web" = .ok b1 ∧
        b1.Httpchk = none) ∧
      ((handleBackendAnnotations permissiveExternals deletedChecks backendAnnotationNames
        webController "web" false).1 = (true, none) ∧
      ∃ b1, backendGet (handleBackendAnnotations permissiveExternals deletedChecks
          backendAnnotationNames webController "web" false).2 "web" = .ok b1 ∧
        b1.CheckTimeout = none) ∧
      (handleBackendAnnotations permissiveExternals deletedChecks backendAnnotationNames
        webController "web" false).2.backends =
        [{ Name := "web", Mode := "http", Balance := none, Forwardfor := none, Httpchk := none,
           Abortonclose := "", CheckTimeout := none }] :=
  have h := handleBackendAnnotations_deleted permissiveExternals deletedChecks
    backendAnnotationNames webController "web"
    { Name := "web", Mode := "http", Balance := none, Forwardfor := none,
      Httpchk := some { Method := "GET", URI := "/old", Version := "" },
      Abortonclose := "", CheckTimeout := some 1000 }
    (List.Perm.refl _) rfl
  ⟨h.1 ⟨"/health", "", Status.DELETED⟩ rfl rfl, h.2 ⟨"5s", "", Status.DELETED⟩ rfl rfl,
   by decide⟩

/-! ## Idempotence of the handlers -/

theorem backendAnnotationStep_unchanged (ext : Externals) (st : backend × Bool)
    (kv : String × Option StringW)
    (h : ∀ v, kv.2 = some v → v.Status = Status.EMPTY) :
    backendAnnotationStep ext false st kv = st := by
  unfold backendAnnotationStep
  cases hv : kv.2 with
  | none => rfl
  | some v => simp [h v hv]

theorem serverAnnotationStep_unchanged (upd : ServerUpdaters) (st : server × Bool)
    (kv : String × Option StringW)
    (h : ∀ v, kv.2 = some v → v.Status = Status.EMPTY) :
    serverAnnotationStep upd st kv = st := by
  unfold serverAnnotationStep
  cases hv : kv.2 with
  | none => rfl
  | some v => simp [h v hv]

theorem foldl_fixed {σ κ : Type} (f : σ → κ → σ) (l : List κ) (st : σ)
    (h : ∀ x ∈ l, ∀ s, f s x = s) : l.foldl f st = st := by
  induction l generalizing st with
  | nil => rfl
  | cons x xs ih =>
    rw [List.foldl_cons, h x (List.mem_cons_self _ _)]
    exact ih st (fun y hy => h y (List.mem_cons_of_mem _ hy))

theorem handleDefaultTimeout_unchanged (getValue : String → Option StringW)
    (c : HAProxyController) (timeout : String) (hasDefault : Bool)
    (h : ∀ v, getValue ("timeout-" ++ timeout) = some v → v.Status = Status.EMPTY) :
    handleDefaultTimeout getValue c timeout hasDefault = (false, c) := by
  unfold handleDefaultTimeout
  cases hv : getValue ("timeout-" ++ timeout) with
  | none => rfl
  | some v => simp [h v hv]

/-- C11: when every directive that the handlers resolve has the status unchanged
and the backend is not new, `handleBackendAnnotations` returns `needReload` false
and no error, its loop leaves the backend as it found it, and the controller is
as before (no `backendEdit`); `handleServerAnnotations` returns false, its loop
leaves the local copy of the server as it found it, and the server is as before;
`handleDefaultTimeouts` returns false and leaves the controller, and with it the
defaults section, as before. -/
theorem handlers_unchanged (ext : Externals) (upd : ServerUpdaters)
    (getValue : String → Option StringW) (order serverOrder : List String)
    (c : HAProxyController) (backendName : String) (model : server)
    (hunchanged : ∀ name v, getValue name = some v → v.Status = Status.EMPTY) :
    handleBackendAnnotations ext getValue order c backendName false = ((false, none), c) ∧
      (∀ b, applyBackendAnnotations ext getValue order false b = (b, false)) ∧
      handleServerAnnotations upd getValue serverOrder model = (false, model) ∧
      applyServerAnnotations upd getValue serverOrder model = (model, false) ∧
      handleDefaultTimeouts getValue c = (false, c) := by
  have hb : ∀ b, applyBackendAnnotations ext getValue order false b = (b, false) := by
    intro b
    unfold applyBackendAnnotations
    apply foldl_fixed
    intro kv hkv st
    obtain ⟨k, _, rfl⟩ := List.mem_map.1 hkv
    exact backendAnnotationStep_unchanged ext st _ (fun v hv => hunchanged k v hv)
  have hs : applyServerAnnotations upd getValue serverOrder model = (model, false) := by
    unfold applyServerAnnotations
    apply foldl_fixed
    intro kv hkv st
    obtain ⟨k, _, rfl⟩ := List.mem_map.1 hkv
    exact serverAnnotationStep_unchanged upd st _ (fun v hv => hunchanged k v hv)
  refine ⟨?_, hb, ?_, hs, ?_⟩
  · unfold handleBackendAnnotations
    simp [hb]
  · unfold handleServerAnnotations
    rw [hs]
  · unfold handleDefaultTimeouts
    have hfold : ∀ (l : List String) (acc : Bool × HAProxyController),
        l.foldl (fun (acc : Bool × HAProxyController) timeout =>
          let r := handleDefaultTimeout getValue acc.2 timeout true
          (r.1 || acc.1, r.2)) acc = acc := by
      intro l acc
      apply foldl_fixed
      intro t _ s
      simp [handleDefaultTimeout_unchanged getValue s.2 t true
        (fun v hv => hunchanged _ v hv)]
    exact hfold _ _

/-- Witness of `handlers_unchanged`: the second pass over the backend "web" and
the server "SRV_1". -/
theorem handlers_unchanged_witness :
    handleBackendAnnotations permissiveExternals secondPass backendAnnotationNames
        webController "web" false = ((false, none), webController) ∧
      (∀ b, applyBackendAnnotations permissiveExternals secondPass backendAnnotationNames
        false b = (b, false)) ∧
      handleServerAnnotations sampleServerUpdaters secondPass serverAnnotationNames
        { Name := "SRV_1", Check := "enabled", Inter := some 2000, Maxconn := none } =
        (false, { Name := "SRV_1", Check := "enabled", Inter := some 2000, Maxconn := none }) ∧
      applyServerAnnotations sampleServerUpdaters secondPass serverAnnotationNames
        { Name := "SRV_1", Check := "enabled", Inter := some 2000, Maxconn := none } =
        ({ Name := "SRV_1", Check := "enabled", Inter := some 2000, Maxconn := none }, false) ∧
      handleDefaultTimeouts secondPass webController = (false, webController) :=
  handlers_unchanged permissiveExternals sampleServerUpdaters secondPass
    backendAnnotationNames serverAnnotationNames webController "web"
    { Name := "SRV_1", Check := "enabled", Inter := some 2000, Maxconn := none }
    (by
      intro name v h
      unfold secondPass at h
      repeat' split at h
      all_goals first
        | (cases h; rfl)
        | cases h)

/-! ## Rate limiting: triggers, empty whitelist and the dirty marker -/

theorem rateLimitStatus_of_whitelist (cfg : Configuration) (annWhitelist annWhitelistRL : StringW)
    (path : IngressPath) (h : annWhitelist.Status ≠ Status.EMPTY) :
    rateLimitStatus cfg annWhitelist annWhitelistRL path = annWhitelist.Status := by
  simp [rateLimitStatus, h]

/-- The status that drives the switch of `handleRateLimitingAnnotations` is either
the status of the whitelist directive or MODIFIED. -/
theorem rateLimitStatus_cases (cfg : Configuration) (annWhitelist annWhitelistRL : StringW)
    (path : IngressPath) :
    rateLimitStatus cfg annWhitelist annWhitelistRL path = annWhitelist.Status ∨
      (annWhitelist.Status = Status.EMPTY ∧
        rateLimitStatus cfg annWhitelist annWhitelistRL path = Status.MODIFIED) := by
  by_cases h : annWhitelist.Status = Status.EMPTY
  · unfold rateLimitStatus
    simp only [h, if_true]
    split
    · exact Or.inr ⟨trivial, rfl⟩
    · split
      · split
        · split
          · exact Or.inr ⟨trivial, rfl⟩
          · exact Or.inl rfl
        · exact Or.inl rfl
      · exact Or.inl rfl
  · exact Or.inl (rateLimitStatus_of_whitelist cfg annWhitelist annWhitelistRL path h)

/-- The three triggers of a recompute. -/
theorem rateLimitStatus_triggers (cfg : Configuration) (annWhitelist annWhitelistRL : StringW)
    (path : IngressPath) :
    rateLimitStatus cfg annWhitelist annWhitelistRL path ≠ Status.EMPTY ↔
      (annWhitelist.Status ≠ Status.EMPTY ∨
        (annWhitelistRL.Status ≠ Status.EMPTY ∧
          ∃ data, mapGet cfg.HTTPRequests ("WHT-" ++ path.Path) = some data ∧ data ≠ []) ∨
        (annWhitelistRL.Value ≠ "" ∧ path.Status = Status.ADDED)) := by
  by_cases h : annWhitelist.Status = Status.EMPTY
  · unfold rateLimitStatus whitelistKey
    simp only [h, if_true, ne_eq, not_true_eq_false, false_or]
    by_cases h3 : annWhitelistRL.Value ≠ "" ∧ path.Status = Status.ADDED
    · have hb : (annWhitelistRL.Value != "" && decide (path.Status = Status.ADDED)) = true := by
        simpa using h3
      simp [hb, h3]
    · have hb : ¬ (annWhitelistRL.Value != "" && decide (path.Status = Status.ADDED)) = true := by
        simpa using h3
      simp only [hb, if_false]
      by_cases h2 : annWhitelistRL.Status = Status.EMPTY
      · simp [h2, h3]
      · cases hd : mapGet cfg.HTTPRequests ("WHT-" ++ path.Path) with
        | none => simp [h2, h3]
        | some data =>
          cases data with
          | nil => simp [h2, h3]
          | cons r rs => simp [h2, h3]
  · rw [rateLimitStatus_of_whitelist cfg annWhitelist annWhitelistRL path h]
    simp [h]

/-- When the status that drives the switch is ADDED or MODIFIED, the call leaves
`HTTPRequestsStatus` equal to MODIFIED. -/
theorem rateLimit_marks_dirty (cfg : Configuration) (annWhitelist annWhitelistRL : StringW)
    (path : IngressPath)
    (h : rateLimitStatus cfg annWhitelist annWhitelistRL path = Status.ADDED ∨
      rateLimitStatus cfg annWhitelist annWhitelistRL path = Status.MODIFIED) :
    (handleRateLimitingAnnotations cfg annWhitelist annWhitelistRL path).HTTPRequestsStatus =
      Status.MODIFIED := by
  rcases h with h | h <;> simp [handleRateLimitingAnnotations, h]

/-- C12, the code at the failing input: the whitelist directive of the path /foo is
DELETED; the call rewrites the rule list of the path, from two rules to none, and
`HTTPRequestsStatus` is still EMPTY after the call, not MODIFIED. -/
theorem rateLimit_deleted_not_marked :
    mapGet whitelistedConfiguration.HTTPRequests "WHT-/foo" =
        some [{ ID := 0, Type_ := "deny", Cond := "if", CondTest := "\x7b path_beg /foo \x7d" },
              { ID := 0, Type_ := "allow", Cond := "if",
                CondTest := "\x7b path_beg /foo \x7d \x7b src 10.0.0.0/8 \x7d" }] ∧
      mapGet (handleRateLimitingAnnotations whitelistedConfiguration
        ⟨"", "10.0.0.0/8", Status.DELETED⟩ ⟨"OFF", "OFF", Status.EMPTY⟩
        ⟨"/foo", false, Status.EMPTY⟩).HTTPRequests "WHT-/foo" = some [] ∧
      (handleRateLimitingAnnotations whitelistedConfiguration
        ⟨"", "10.0.0.0/8", Status.DELETED⟩ ⟨"OFF", "OFF", Status.EMPTY⟩
        ⟨"/foo", false, Status.EMPTY⟩).HTTPRequestsStatus = Status.EMPTY ∧
      (handleRateLimitingAnnotations whitelistedConfiguration
        ⟨"", "10.0.0.0/8", Status.DELETED⟩ ⟨"OFF", "OFF", Status.EMPTY⟩
        ⟨"/foo", false, Status.EMPTY⟩).HTTPRequestsStatus ≠ Status.MODIFIED := by
  decide

/-- A recompute with an empty whitelist value, or with a whitelist directive that
is DELETED, stores the empty list for the path. -/
theorem rateLimit_cleared (cfg : Configuration) (annWhitelist annWhitelistRL : StringW)
    (path : IngressPath)
    (hrecompute : rateLimitStatus cfg annWhitelist annWhitelistRL path ≠ Status.EMPTY)
    (hempty : annWhitelist.Value = "" ∨ annWhitelist.Status = Status.DELETED) :
    mapGet (handleRateLimitingAnnotations cfg annWhitelist annWhitelistRL path).HTTPRequests
      ("WHT-" ++ path.Path) = some [] := by
  have hvalue : rateLimitStatus cfg annWhitelist annWhitelistRL path ≠ Status.DELETED →
      annWhitelist.Value = "" := by
    intro hne
    rcases hempty with h | h
    · exact h
    · have := rateLimitStatus_of_whitelist cfg annWhitelist annWhitelistRL path (by simp [h])
      rw [h] at this
      exact absurd this hne
  unfold handleRateLimitingAnnotations whitelistKey
  cases hs : rateLimitStatus cfg annWhitelist annWhitelistRL path with
  | EMPTY => exact absurd hs hrecompute
  | ADDED =>
    have hv := hvalue (by simp [hs])
    simp [hv, mapGet_mapSet_self]
  | MODIFIED =>
    have hv := hvalue (by simp [hs])
    simp [hv, mapGet_mapSet_self]
  | DELETED => simp [mapGet_mapSet_self]

/-- C17: whenever `handleRateLimitingAnnotations` recomputes the rules of a path
(the status that drives its switch is not unchanged) and the whitelist value is
empty or the status of the whitelist directive is DELETED, the rule list stored
for the path is the empty list. -/
theorem rateLimit_empty_whitelist (cfg : Configuration) (annWhitelist annWhitelistRL : StringW)
    (path : IngressPath)
    (hrecompute : rateLimitStatus cfg annWhitelist annWhitelistRL path ≠ Status.EMPTY)
    (hempty : annWhitelist.Value = "" ∨ annWhitelist.Status = Status.DELETED) :
    mapGet (handleRateLimitingAnnotations cfg annWhitelist annWhitelistRL path).HTTPRequests
      ("WHT-" ++ path.Path) = some [] := by
  have hvalue : rateLimitStatus cfg annWhitelist annWhitelistRL path ≠ Status.DELETED →
      annWhitelist.Value = "" := by
    intro hne
    rcases hempty with h | h
    · exact h
    · have := rateLimitStatus_of_whitelist cfg annWhitelist annWhitelistRL path (by simp [h])
      rw [h] at this
      exact absurd this hne
  unfold handleRateLimitingAnnotations whitelistKey
  cases hs : rateLimitStatus cfg annWhitelist annWhitelistRL path with
  | EMPTY => exact absurd hs hrecompute
  | ADDED =>
    have hv := hvalue (by simp [hs])
    simp [hv, mapGet_mapSet_self]
  | MODIFIED =>
    have hv := hvalue (by simp [hs])
    simp [hv, mapGet_mapSet_self]
  | DELETED => simp [mapGet_mapSet_self]

/-- Witness of `rateLimit_empty_whitelist`: the whitelist of the path /foo, which
has two rules, becomes empty (MODIFIED); and it is DELETED. -/
theorem rateLimit_empty_whitelist_witness :
    mapGet (handleRateLimitingAnnotations whitelistedConfiguration
        ⟨"", "10.0.0.0/8", Status.MODIFIED⟩ ⟨"OFF", "OFF", Status.EMPTY⟩
        ⟨"/foo", false, Status.EMPTY⟩).HTTPRequests ("WHT-" ++ "/foo") = some [] ∧
      mapGet (handleRateLimitingAnnotations whitelistedConfiguration
        ⟨"10.0.0.0/8", "10.0.0.0/8", Status.DELETED⟩ ⟨"OFF", "OFF", Status.EMPTY⟩
        ⟨"/foo", false, Status.EMPTY⟩).HTTPRequests ("WHT-" ++ "/foo") = some [] :=
  ⟨rateLimit_empty_whitelist whitelistedConfiguration ⟨"", "10.0.0.0/8", Status.MODIFIED⟩
      ⟨"OFF", "OFF", Status.EMPTY⟩ ⟨"/foo", false, Status.EMPTY⟩ (by decide) (Or.inl rfl),
   rateLimit_empty_whitelist whitelistedConfiguration
      ⟨"10.0.0.0/8", "10.0.0.0/8", Status.DELETED⟩
      ⟨"OFF", "OFF", Status.EMPTY⟩ ⟨"/foo", false, Status.EMPTY⟩ (by decide) (Or.inr rfl)⟩

/-- C18: `handleRateLimitingAnnotations` rewrites the rule list of the path if and
only if one of the three triggers holds: the status of the whitelist directive
is not unchanged; the status of the bypass directive is not unchanged and the
path has a non-empty rule list; the bypass value is not empty and the path is
ADDED. With a trigger, the list stored for the path is the list that the call
computes. Without one, the configuration is as before: the rule lists of all
paths and `HTTPRequestsStatus` are unchanged. In both cases the lists of the
other paths are unchanged. -/
theorem rateLimit_rewrite_iff (cfg : Configuration) (annWhitelist annWhitelistRL : StringW)
    (path : IngressPath) :
    ((annWhitelist.Status ≠ Status.EMPTY ∨
        (annWhitelistRL.Status ≠ Status.EMPTY ∧
          ∃ data, mapGet cfg.HTTPRequests ("WHT-" ++ path.Path) = some data ∧ data ≠ []) ∨
        (annWhitelistRL.Value ≠ "" ∧ path.Status = Status.ADDED)) →
      mapGet (handleRateLimitingAnnotations cfg annWhitelist annWhitelistRL path).HTTPRequests
          ("WHT-" ++ path.Path) =
        some (if annWhitelist.Status = Status.DELETED ∨ annWhitelist.Value = "" then []
          else if allowRateLimiting annWhitelistRL then [httpRequest1 path annWhitelist]
          else [httpRequest2 path, httpRequest1 path annWhitelist])) ∧
      (¬ (annWhitelist.Status ≠ Status.EMPTY ∨
        (annWhitelistRL.Status ≠ Status.EMPTY ∧
          ∃ data, mapGet cfg.HTTPRequests ("WHT-" ++ path.Path) = some data ∧ data ≠ []) ∨
        (annWhitelistRL.Value ≠ "" ∧ path.Status = Status.ADDED)) →
      handleRateLimitingAnnotations cfg annWhitelist annWhitelistRL path = cfg) ∧
      (∀ key, key ≠ "WHT-" ++ path.Path →
        mapGet (handleRateLimitingAnnotations cfg annWhitelist annWhitelistRL path).HTTPRequests
          key = mapGet cfg.HTTPRequests key) := by
  refine ⟨?_, ?_, ?_⟩
  · intro htrig
    have hne := (rateLimitStatus_triggers cfg annWhitelist annWhitelistRL path).2 htrig
    by_cases hempty : annWhitelist.Status = Status.DELETED ∨ annWhitelist.Value = ""
    · rw [if_pos hempty]
      exact rateLimit_cleared cfg annWhitelist annWhitelistRL path hne
        (hempty.elim Or.inr Or.inl)
    · rw [if_neg hempty]
      have hnd : annWhitelist.Status ≠ Status.DELETED := fun h => hempty (Or.inl h)
      have hv : annWhitelist.Value ≠ "" := fun h => hempty (Or.inr h)
      unfold handleRateLimitingAnnotations whitelistKey
      cases hs : rateLimitStatus cfg annWhitelist annWhitelistRL path with
      | EMPTY => exact absurd hs hne
      | ADDED => simp [hv, mapGet_mapSet_self]
      | MODIFIED => simp [hv, mapGet_mapSet_self]
      | DELETED =>
        rcases rateLimitStatus_cases cfg annWhitelist annWhitelistRL path with h | ⟨_, h⟩
        · rw [hs] at h
          exact absurd h.symm hnd
        · rw [hs] at h
          cases h
  · intro hno
    have he : rateLimitStatus cfg annWhitelist annWhitelistRL path = Status.EMPTY := by
      by_contra hne
      exact hno ((rateLimitStatus_triggers cfg annWhitelist annWhitelistRL path).1 hne)
    simp [handleRateLimitingAnnotations, he]
  · intro key hkey
    unfold handleRateLimitingAnnotations whitelistKey
    cases rateLimitStatus cfg annWhitelist annWhitelistRL path <;>
      simp [mapGet_mapSet_ne _ _ _ _ hkey]

/-- Witness of `rateLimit_rewrite_iff`: the bypass directive changes to "5r/s" while
the path /foo has two rules, and the list becomes the single allow rule; nothing
changes when no directive changes; the list of /bar is untouched. -/
theorem rateLimit_rewrite_iff_witness :
    mapGet (handleRateLimitingAnnotations whitelistedConfiguration
        ⟨"10.0.0.0/8", "10.0.0.0/8", Status.EMPTY⟩ ⟨"5r/s", "OFF", Status.MODIFIED⟩
        ⟨"/foo", false, Status.EMPTY⟩).HTTPRequests ("WHT-" ++ "/foo") =
        some [{ ID := 0, Type_ := "allow", Cond := "if",
                CondTest := "\x7b path_beg /foo \x7d \x7b src 10.0.0.0/8 \x7d" }] ∧
      handleRateLimitingAnnotations whitelistedConfiguration
        ⟨"10.0.0.0/8", "10.0.0.0/8", Status.EMPTY⟩ ⟨"OFF", "OFF", Status.EMPTY⟩
        ⟨"/foo", false, Status.EMPTY⟩ = whitelistedConfiguration ∧
      mapGet (handleRateLimitingAnnotations whitelistedConfiguration
        ⟨"10.0.0.0/8", "10.0.0.0/8", Status.EMPTY⟩ ⟨"5r/s", "OFF", Status.MODIFIED⟩
        ⟨"/foo", false, Status.EMPTY⟩).HTTPRequests "WHT-/bar" =
        mapGet whitelistedConfiguration.HTTPRequests "WHT-/bar" :=
  ⟨(rateLimit_rewrite_iff whitelistedConfiguration
      ⟨"10.0.0.0/8", "10.0.0.0/8", Status.EMPTY⟩ ⟨"5r/s", "OFF", Status.MODIFIED⟩
      ⟨"/foo", false, Status.EMPTY⟩).1 (by decide),
   (rateLimit_rewrite_iff whitelistedConfiguration
      ⟨"10.0.0.0/8", "10.0.0.0/8", Status.EMPTY⟩ ⟨"OFF", "OFF", Status.EMPTY⟩
      ⟨"/foo", false, Status.EMPTY⟩).2.1 (by decide),
   (rateLimit_rewrite_iff whitelistedConfiguration
      ⟨"10.0.0.0/8", "10.0.0.0/8", Status.EMPTY⟩ ⟨"5r/s", "OFF", Status.MODIFIED⟩
      ⟨"/foo", false, Status.EMPTY⟩).2.2 "WHT-/bar" (by decide)⟩

/-! ## The backend updaters are single-field -/

/-- The results of the updaters, as their callers see them, are those of the
methods on their receiver. -/
theorem backend_update_results (ext : Externals) (b : backend) (data : StringW) :
    updateBalance ext b data = callResult (b.updateBalance ext data) ∧
      updateCheckTimeout ext b data = callResult (b.updateCheckTimeout ext data) ∧
      updateForwardfor b data = callResult (b.updateForwardfor data) ∧
      updateHttpchk ext b data = callResult (b.updateHttpchk ext data) ∧
      updateAbortOnClose b data = callResult (b.updateAbortOnClose data) := by
  refine ⟨?_, ?_, ?_, ?_, ?_⟩
  · unfold updateBalance backend.updateBalance callResult
    simp only
    cases ext.validateBalance { Algorithm := data.Value } <;> rfl
  · unfold updateCheckTimeout backend.updateCheckTimeout callResult
    cases ext.ParseTime data.Value <;> rfl
  · unfold updateForwardfor backend.updateForwardfor callResult
    by_cases hm : b.Mode = ModeTCP
    · simp only [hm, if_true]
    · simp only [hm, if_false]
      cases strconvParseBool data.Value with
      | error e => rfl
      | ok en => cases en <;> rfl
  · unfold updateHttpchk backend.updateHttpchk callResult
    simp only
    cases httpchkOfParams (stringsFields (stringsTrimSpace data.Value)) with
    | none => rfl
    | some val =>
      simp only
      cases ext.validateHttpchk val <;> rfl
  · unfold updateAbortOnClose backend.updateAbortOnClose callResult
    by_cases hv : data.Value = "enabled"
    · simp only [hv, if_true]
    · simp only [hv, if_false]

/-- C13: each backend updater is atomic and touches one field. When the method
returns an error, the receiver is after the call what it was before; when it
returns no error, every field of the receiver other than the one of the updater
(`Balance`, `CheckTimeout`, `Forwardfor`, `Httpchk`, `Abortonclose`) is what it
was before. -/
theorem updaters_single_field (ext : Externals) (b : backend) (data : StringW) :
    ((∀ e, (b.updateBalance ext data).2 = some e → (b.updateBalance ext data).1 = b) ∧
      ((b.updateBalance ext data).2 = none →
        (b.updateBalance ext data).1 =
          { b with Balance := (b.updateBalance ext data).1.Balance })) ∧
    ((∀ e, (b.updateCheckTimeout ext data).2 = some e →
        (b.updateCheckTimeout ext data).1 = b) ∧
      ((b.updateCheckTimeout ext data).2 = none →
        (b.updateCheckTimeout ext data).1 =
          { b with CheckTimeout := (b.updateCheckTimeout ext data).1.CheckTimeout })) ∧
    ((∀ e, (b.updateForwardfor data).2 = some e → (b.updateForwardfor data).1 = b) ∧
      ((b.updateForwardfor data).2 = none →
        (b.updateForwardfor data).1 =
          { b with Forwardfor := (b.updateForwardfor data).1.Forwardfor })) ∧
    ((∀ e, (b.updateHttpchk ext data).2 = some e → (b.updateHttpchk ext data).1 = b) ∧
      ((b.updateHttpchk ext data).2 = none →
        (b.updateHttpchk ext data).1 =
          { b with Httpchk := (b.updateHttpchk ext data).1.Httpchk })) ∧
    ((∀ e, (b.updateAbortOnClose data).2 = some e → (b.updateAbortOnClose data).1 = b) ∧
      ((b.updateAbortOnClose data).2 = none →
        (b.updateAbortOnClose data).1 =
          { b with Abortonclose := (b.updateAbortOnClose data).1.Abortonclose })) := by
  refine ⟨⟨?_, ?_⟩, ⟨?_, ?_⟩, ⟨?_, ?_⟩, ⟨?_, ?_⟩, ⟨?_, ?_⟩⟩
  · intro e
    unfold backend.updateBalance
    simp only
    cases ext.validateBalance { Algorithm := data.Value } with
    | error x => intro _; rfl
    | ok u => intro h; cases h
  · unfold backend.updateBalance
    simp only
    cases ext.validateBalance { Algorithm := data.Value } with
    | error x => intro h; cases h
    | ok u => intro _; rfl
  · intro e
    unfold backend.updateCheckTimeout
    cases ext.ParseTime data.Value with
    | error x => intro _; rfl
    | ok t => intro h; cases h
  · unfold backend.updateCheckTimeout
    cases ext.ParseTime data.Value with
    | error x => intro h; cases h
    | ok t => intro _; rfl
  · intro e
    unfold backend.updateForwardfor
    by_cases hm : b.Mode = ModeTCP
    · simp only [hm, if_true]
      intro h
      cases h
    · simp only [hm, if_false]
      cases strconvParseBool data.Value with
      | error x => intro _; rfl
      | ok en => intro h; cases h
  · unfold backend.updateForwardfor
    by_cases hm : b.Mode = ModeTCP
    · simp only [hm, if_true]
      intro _
      trivial
    · simp only [hm, if_false]
      cases strconvParseBool data.Value with
      | error x => intro h; cases h
      | ok en =>
        intro _
        cases en <;> rfl
  · intro e
    unfold backend.updateHttpchk
    simp only
    cases httpchkOfParams (stringsFields (stringsTrimSpace data.Value)) with
    | none => intro _; rfl
    | some val =>
      simp only
      cases ext.validateHttpchk val with
      | error x => intro _; rfl
      | ok u => intro h; cases h
  · unfold backend.updateHttpchk
    simp only
    cases httpchkOfParams (stringsFields (stringsTrimSpace data.Value)) with
    | none => intro h; cases h
    | some val =>
      simp only
      cases ext.validateHttpchk val with
      | error x => intro h; cases h
      | ok u => intro _; rfl
  · intro e h
    unfold backend.updateAbortOnClose at h
    cases h
  · intro _
    unfold backend.updateAbortOnClose
    by_cases hv : data.Value = "enabled"
    · simp only [hv, if_true]
    · simp only [hv, if_false]

/-- Witness of `updaters_single_field` on a backend with every option set: the
values "bogus" and "maybe" are rejected with an error and leave the backend as
it is; the values "roundrobin", "5s", "false", "HEAD /live" and "disabled" are
accepted and change one field each. -/
theorem updaters_single_field_witness :
    (fullBackend.updateBalance strictExternals ⟨"bogus", "", Status.MODIFIED⟩).2 =
        some "balance algorithm: algorithm in body should be one of" ∧
      (fullBackend.updateBalance strictExternals ⟨"bogus", "", Status.MODIFIED⟩).1 =
        fullBackend ∧
      (fullBackend.updateCheckTimeout strictExternals ⟨"bogus", "", Status.MODIFIED⟩).1 =
        fullBackend ∧
      (fullBackend.updateForwardfor ⟨"maybe", "", Status.MODIFIED⟩).1 = fullBackend ∧
      (fullBackend.updateHttpchk strictExternals ⟨"bogus", "", Status.MODIFIED⟩).1 =
        fullBackend ∧
      (fullBackend.updateHttpchk strictExternals ⟨"  ", "", Status.MODIFIED⟩).1 =
        fullBackend ∧
      (fullBackend.updateBalance strictExternals ⟨"roundrobin", "", Status.MODIFIED⟩).1 =
        { fullBackend with
          Balance := (fullBackend.updateBalance strictExternals
            ⟨"roundrobin", "", Status.MODIFIED⟩).1.Balance } ∧
      (fullBackend.updateBalance strictExternals ⟨"roundrobin", "", Status.MODIFIED⟩).1 =
        { fullBackend with Balance := some { Algorithm := "roundrobin" } } ∧
      (fullBackend.updateCheckTimeout strictExternals ⟨"5s", "", Status.MODIFIED⟩).1 =
        { fullBackend with CheckTimeout := some 5000 } ∧
      (fullBackend.updateForwardfor ⟨"false", "", Status.MODIFIED⟩).1 =
        { fullBackend with Forwardfor := none } ∧
      (fullBackend.updateHttpchk strictExternals ⟨"HEAD /live", "", Status.MODIFIED⟩).1 =
        { fullBackend with
          Httpchk := some { Method := "HEAD", URI := "/live", Version := "" } } ∧
      (fullBackend.updateAbortOnClose ⟨"disabled", "", Status.MODIFIED⟩).1 =
        { fullBackend with Abortonclose := "" } :=
  have h := fun data => updaters_single_field strictExternals fullBackend data
  ⟨by decide,
   (h ⟨"bogus", "", Status.MODIFIED⟩).1.1
     "balance algorithm: algorithm in body should be one of" (by decide),
   (h ⟨"bogus", "", Status.MODIFIED⟩).2.1.1 "timeout check: invalid time bogus" (by decide),
   (h ⟨"maybe", "", Status.MODIFIED⟩).2.2.1.1
     "strconv.ParseBool: parsing maybe: invalid syntax" (by decide),
   (h ⟨"bogus", "", Status.MODIFIED⟩).2.2.2.1.1
     "httpchk option: uri in body should match" (by decide),
   (h ⟨"  ", "", Status.MODIFIED⟩).2.2.2.1.1
     "httpchk option: incorrect number of params" (by decide),
   (h ⟨"roundrobin", "", Status.MODIFIED⟩).1.2 (by decide),
   by decide,
   (h ⟨"5s", "", Status.MODIFIED⟩).2.1.2 (by decide),
   (h ⟨"false", "", Status.MODIFIED⟩).2.2.1.2 (by decide),
   (h ⟨"HEAD /live", "", Status.MODIFIED⟩).2.2.2.1.2 (by decide),
   (h ⟨"disabled", "", Status.MODIFIED⟩).2.2.2.2.2 (by decide)⟩

/-! ## Backend switching: dirty and clean frontends -/

/-- The three ways in which `refreshBackendSwitching` returns: at once, after a
pass that recompiled a frontend, or through `clearBackends`. -/
theorem refreshBackendSwitching_cases (c : HAProxyController) :
    ((c.cfg.BackendSwitchingStatus = [] ∨ c.frontendsGetFails = true) ∧
        refreshBackendSwitching c = (false, c)) ∨
      (c.cfg.BackendSwitchingStatus ≠ [] ∧ c.frontendsGetFails = false ∧
        ((refreshBackendSwitching c = (true, (c.frontends.foldl refreshFrontend
            { c := c, activeBackends := [("RateLimit", ())], needsReload := false }).c)) ∨
          (refreshBackendSwitching c =
            clearBackends (c.frontends.foldl refreshFrontend
                { c := c, activeBackends := [("RateLimit", ())], needsReload := false }).c
              (c.frontends.foldl refreshFrontend
                { c := c, activeBackends := [("RateLimit", ())],
                  needsReload := false }).activeBackends))) := by
  unfold refreshBackendSwitching frontendsGet
  by_cases hlen : c.cfg.BackendSwitchingStatus.length = 0
  · exact Or.inl ⟨Or.inl (List.length_eq_zero.1 hlen), by simp [hlen]⟩
  · have hne : c.cfg.BackendSwitchingStatus ≠ [] := fun h => hlen (by simp [h])
    by_cases hfail : c.frontendsGetFails = true
    · exact Or.inl ⟨Or.inr hfail, by simp [hlen, hfail]⟩
    · have hf : c.frontendsGetFails = false := by simpa using hfail
      right
      refine ⟨hne, hf, ?_⟩
      simp only [hlen, hf, if_false, Bool.false_eq_true]
      split
      · exact Or.inl rfl
      · exact Or.inr rfl

theorem clearBackends_frame (c : HAProxyController) (active : List (String × Unit)) :
    (clearBackends c active).2.cfg = c.cfg ∧
      (clearBackends c active).2.backends.Sublist c.backends := by
  unfold clearBackends
  cases backendsGet c with
  | error e => exact ⟨rfl, List.Sublist.refl _⟩
  | ok l =>
    simp only
    have : ∀ (l : List backend) (acc : Bool × HAProxyController),
        (l.foldl (fun (acc : Bool × HAProxyController) b =>
          match mapGet active b.Name with
          | none => (true, backendDelete acc.2 b.Name)
          | some _ => acc) acc).2.cfg = acc.2.cfg ∧
        (l.foldl (fun (acc : Bool × HAProxyController) b =>
          match mapGet active b.Name with
          | none => (true, backendDelete acc.2 b.Name)
          | some _ => acc) acc).2.backends.Sublist acc.2.backends := by
      intro l
      induction l with
      | nil => intro acc; exact ⟨rfl, List.Sublist.refl _⟩
      | cons b l ih =>
        intro acc
        rw [List.foldl_cons]
        cases hb : mapGet active b.Name with
        | none =>
          obtain ⟨h1, h2⟩ := ih (true, backendDelete acc.2 b.Name)
          exact ⟨h1, h2.trans (by simp [backendDelete])⟩
        | some u => exact ih acc
    exact this l (false, c)

/-- The backends that `clearBackends` keeps contain every declared backend whose
name is in the active set. -/
theorem clearBackends_keeps (c : HAProxyController) (active : List (String × Unit))
    (b : backend) (hb : b ∈ c.backends) (hactive : mapGet active b.Name = some ()) :
    b ∈ (clearBackends c active).2.backends := by
  by_cases hfail : c.backendsGetFails = true
  · simp [clearBackends, backendsGet, hfail, hb]
  · rw [clearBackends_backends c active (by simpa using hfail)]
    exact List.mem_filter.2 ⟨hb, by simp [hactive]⟩

/-- The dirty mark of a name after an iteration of the loop. -/
theorem refreshFrontend_status (st : RefreshState) (f : Frontend) (n : String) :
    (f.Name = n → mapGet st.c.cfg.BackendSwitchingRules f.Name ≠ none →
        mapGet (refreshFrontend st f).c.cfg.BackendSwitchingStatus n = none) ∧
      (¬ (f.Name = n ∧ mapGet st.c.cfg.BackendSwitchingRules f.Name ≠ none) →
        mapGet (refreshFrontend st f).c.cfg.BackendSwitchingStatus n =
          mapGet st.c.cfg.BackendSwitchingStatus n) := by
  constructor
  · intro hn hmap
    subst hn
    unfold refreshFrontend
    cases hr : mapGet st.c.cfg.BackendSwitchingRules f.Name with
    | none => exact absurd hr hmap
    | some rules =>
      cases hs : mapGet st.c.cfg.BackendSwitchingStatus f.Name with
      | none => simpa using hs
      | some u =>
        have h2 := (createFold_frame f.Name (compileRules f.Mode rules)
          (backendSwitchingRuleDeleteAll st.c f.Name)).1
        simp only at h2
        simp only [h2]
        simp [backendSwitchingRuleDeleteAll, mapGet_mapDelete_self]
  · intro hno
    by_cases hn : f.Name = n
    · have hmap : mapGet st.c.cfg.BackendSwitchingRules f.Name = none := by
        by_contra h
        exact hno ⟨hn, h⟩
      have := (refreshLoop_idle [f] st (by
        intro g hg
        rw [List.mem_singleton.1 hg]
        exact Or.inl hmap)).1
      simp only [List.foldl_cons, List.foldl_nil] at this
      rw [this]
    · exact (refreshFrontend_other st f n (fun h => hn h.symm)).2

/-- The dirty mark of a name after the loop over the frontends. -/
theorem refreshLoop_status (frontends : List Frontend) (st : RefreshState) (n : String) :
    ((∃ f ∈ frontends, f.Name = n ∧ mapGet st.c.cfg.BackendSwitchingRules f.Name ≠ none) →
        mapGet (frontends.foldl refreshFrontend st).c.cfg.BackendSwitchingStatus n = none) ∧
      ((¬ ∃ f ∈ frontends, f.Name = n ∧ mapGet st.c.cfg.BackendSwitchingRules f.Name ≠ none) →
        mapGet (frontends.foldl refreshFrontend st).c.cfg.BackendSwitchingStatus n =
          mapGet st.c.cfg.BackendSwitchingStatus n) := by
  induction frontends generalizing st with
  | nil =>
    constructor
    · rintro ⟨f, hf, _⟩
      cases hf
    · intro _
      rfl
  | cons g gs ih =>
    have hrules := (refreshFrontend_frame st g).1
    obtain ⟨ih1, ih2⟩ := ih (refreshFrontend st g)
    rw [hrules] at ih1 ih2
    obtain ⟨hs1, hs2⟩ := refreshFrontend_status st g n
    rw [List.foldl_cons]
    constructor
    · rintro ⟨f, hf, hfn, hmap⟩
      by_cases htail : ∃ f ∈ gs, f.Name = n ∧ mapGet st.c.cfg.BackendSwitchingRules f.Name ≠ none
      · exact ih1 htail
      · rw [ih2 htail]
        rcases List.mem_cons.1 hf with rfl | hf
        · exact hs1 hfn hmap
        · exact absurd ⟨f, hf, hfn, hmap⟩ htail
    · intro hno
      have htail : ¬ ∃ f ∈ gs, f.Name = n ∧
          mapGet st.c.cfg.BackendSwitchingRules f.Name ≠ none := by
        rintro ⟨f, hf, h⟩
        exact hno ⟨f, List.mem_cons_of_mem _ hf, h⟩
      rw [ih2 htail]
      exact hs2 (fun h => hno ⟨g, List.mem_cons_self _ _, h⟩)

/-- C14, as stated, fails: after `deleteUseBackendRule` has marked the listed
frontends "http" and "https" dirty, `refreshBackendSwitching` returns true with
the frontends listed, and the frontend "https", which has no rule map, is not
recompiled and is still dirty: `BackendSwitchingStatus` is not empty. -/
theorem refreshBackendSwitching_dirty_counterexample :
    ruleDeletedController.cfg.BackendSwitchingStatus = [("https", ()), ("http", ())] ∧
      ruleDeletedController.frontends.map (fun f => f.Name) = ["http", "https"] ∧
      ruleDeletedController.frontendsGetFails = false ∧
      (refreshBackendSwitching ruleDeletedController).1 = true ∧
      (refreshBackendSwitching ruleDeletedController).2.cfg.BackendSwitchingStatus =
        [("https", ())] ∧
      (refreshBackendSwitching ruleDeletedController).2.cfg.BackendSwitchingStatus ≠ [] := by
  decide

/-- C14, amended: after `refreshBackendSwitching` has returned with the frontends
listed, every listed frontend that has a rule map is no longer dirty; a name
that is not the name of a listed frontend with a rule map is dirty after the
call exactly when it was dirty before. -/
theorem refreshBackendSwitching_dirty_after (c : HAProxyController) (n : String)
    (hlist : c.frontendsGetFails = false) :
    ((∃ f ∈ c.frontends, f.Name = n ∧ mapGet c.cfg.BackendSwitchingRules f.Name ≠ none) →
        mapGet (refreshBackendSwitching c).2.cfg.BackendSwitchingStatus n = none) ∧
      ((¬ ∃ f ∈ c.frontends, f.Name = n ∧ mapGet c.cfg.BackendSwitchingRules f.Name ≠ none) →
        mapGet (refreshBackendSwitching c).2.cfg.BackendSwitchingStatus n =
          mapGet c.cfg.BackendSwitchingStatus n) := by
  obtain ⟨h1, h2⟩ := refreshLoop_status c.frontends
    { c := c, activeBackends := [("RateLimit", ())], needsReload := false } n
  simp only at h1 h2
  rcases refreshBackendSwitching_cases c with ⟨hwhy, hres⟩ | ⟨_, _, hres | hres⟩
  · rw [hres]
    rcases hwhy with hempty | hfail
    · simp [hempty, mapGet]
    · rw [hlist] at hfail
      cases hfail
  · rw [hres]
    exact ⟨h1, h2⟩
  · rw [hres, (clearBackends_frame _ _).1]
    exact ⟨h1, h2⟩

/-- Witness of `refreshBackendSwitching_dirty_after`: after the pass, "http" is
clean and "https" is as dirty as before. -/
theorem refreshBackendSwitching_dirty_after_witness :
    mapGet (refreshBackendSwitching ruleDeletedController).2.cfg.BackendSwitchingStatus
        "http" = none ∧
      mapGet (refreshBackendSwitching ruleDeletedController).2.cfg.BackendSwitchingStatus
        "https" = mapGet ruleDeletedController.cfg.BackendSwitchingStatus "https" :=
  ⟨(refreshBackendSwitching_dirty_after ruleDeletedController "http" rfl).1 (by decide),
   (refreshBackendSwitching_dirty_after ruleDeletedController "https" rfl).2 (by decide)⟩

/-- An iteration of the loop leaves the compiled rules of a name that is not
dirty as they are, and the name is not dirty afterwards. -/
theorem refreshFrontend_clean (st : RefreshState) (g : Frontend) (n : String)
    (hclean : mapGet st.c.cfg.BackendSwitchingStatus n = none) :
    mapGet (refreshFrontend st g).c.switchingRules n = mapGet st.c.switchingRules n ∧
      mapGet (refreshFrontend st g).c.cfg.BackendSwitchingStatus n = none := by
  by_cases hn : g.Name = n
  · have hstep := (refreshLoop_idle [g] st (by
      intro f hf
      rw [List.mem_singleton.1 hf, hn]
      exact Or.inr hclean)).1
    simp only [List.foldl_cons, List.foldl_nil] at hstep
    rw [hstep]
    exact ⟨rfl, hclean⟩
  · obtain ⟨h1, h2⟩ := refreshFrontend_other st g n (fun h => hn h.symm)
    exact ⟨h1, h2.trans hclean⟩

theorem refreshLoop_clean (frontends : List Frontend) (st : RefreshState) (n : String)
    (hclean : mapGet st.c.cfg.BackendSwitchingStatus n = none) :
    mapGet (frontends.foldl refreshFrontend st).c.switchingRules n =
      mapGet st.c.switchingRules n := by
  induction frontends generalizing st with
  | nil => rfl
  | cons g gs ih =>
    obtain ⟨h1, h2⟩ := refreshFrontend_clean st g n hclean
    rw [List.foldl_cons, ih _ h2, h1]

/-- C19: a listed frontend that is not marked dirty is not recompiled by
`refreshBackendSwitching`: the rules compiled for it are after the call what
they were before, none deleted and none created. Its default backend and the
targets of its rules are in the active set that the loop computes, and a
declared backend with such a name is still declared after the call. -/
theorem refreshBackendSwitching_clean_frontend (c : HAProxyController) (f : Frontend)
    (hf : f ∈ c.frontends)
    (hclean : mapGet c.cfg.BackendSwitchingStatus f.Name = none) :
    mapGet (refreshBackendSwitching c).2.switchingRules f.Name =
        mapGet c.switchingRules f.Name ∧
      (∀ n, (f.DefaultBackend = n ∨
          ∃ rules, mapGet c.cfg.BackendSwitchingRules f.Name = some rules ∧
            ∃ kr ∈ rules, kr.2.Backend = n) →
        mapGet (c.frontends.foldl refreshFrontend
          { c := c, activeBackends := [("RateLimit", ())],
            needsReload := false }).activeBackends n = some ()) ∧
      (∀ b ∈ c.backends, (f.DefaultBackend = b.Name ∨
          ∃ rules, mapGet c.cfg.BackendSwitchingRules f.Name = some rules ∧
            ∃ kr ∈ rules, kr.2.Backend = b.Name) →
        b ∈ (refreshBackendSwitching c).2.backends) := by
  have hloop := refreshLoop_clean c.frontends
    { c := c, activeBackends := [("RateLimit", ())], needsReload := false } f.Name hclean
  simp only at hloop
  have hactive : ∀ n, (f.DefaultBackend = n ∨
      ∃ rules, mapGet c.cfg.BackendSwitchingRules f.Name = some rules ∧
        ∃ kr ∈ rules, kr.2.Backend = n) →
      mapGet (c.frontends.foldl refreshFrontend
        { c := c, activeBackends := [("RateLimit", ())],
          needsReload := false }).activeBackends n = some () := by
    intro n hn
    rw [refreshLoop_active]
    exact Or.inr ⟨f, hf, hn⟩
  obtain ⟨_, hbk, hfl⟩ := refreshLoop_frame c.frontends
    { c := c, activeBackends := [("RateLimit", ())], needsReload := false }
  simp only at hbk hfl
  refine ⟨?_, hactive, ?_⟩
  · rcases refreshBackendSwitching_cases c with ⟨_, hres⟩ | ⟨_, _, hres | hres⟩
    · rw [hres]
    · rw [hres]
      exact hloop
    · rw [hres, clearBackends_switchingRules]
      exact hloop
  · intro b hb href
    rcases refreshBackendSwitching_cases c with ⟨_, hres⟩ | ⟨_, _, hres | hres⟩
    · rw [hres]
      exact hb
    · rw [hres, hbk]
      exact hb
    · rw [hres]
      exact clearBackends_keeps _ _ b (by rw [hbk]; exact hb) (hactive b.Name href)

/-- Witness of `refreshBackendSwitching_clean_frontend`: the frontend "https" is
clean. When "http" is dirty, the rules of "https" are kept while those of "http"
are recompiled. When only the name "ghost" is dirty, the backends "default-ssl"
and "secure" survive the collection, which deletes "orphan". -/
theorem refreshBackendSwitching_clean_frontend_witness :
    mapGet (refreshBackendSwitching (twoFrontendController [("http", ())])).2.switchingRules
        "https" = mapGet (twoFrontendController [("http", ())]).switchingRules "https" ∧
      mapGet (refreshBackendSwitching (twoFrontendController [("http", ())])).2.switchingRules
        "http" = some [{ Cond := "if", CondTest := "\x7b req.hdr(host) -i a.com \x7d \x7b path_beg / \x7d",
                         Name := "web", ID := 0 }] ∧
      namedBackend "default-ssl" ∈
        (refreshBackendSwitching (twoFrontendController [("ghost", ())])).2.backends ∧
      namedBackend "secure" ∈
        (refreshBackendSwitching (twoFrontendController [("ghost", ())])).2.backends ∧
      (refreshBackendSwitching (twoFrontendController [("ghost", ())])).2.backends =
        [namedBackend "default", namedBackend "default-ssl", namedBackend "web",
         namedBackend "secure"] :=
  ⟨(refreshBackendSwitching_clean_frontend (twoFrontendController [("http", ())])
      { Name := "https", Mode := "tcp", DefaultBackend := "default-ssl" }
      (by decide) (by decide)).1,
   by decide,
   (refreshBackendSwitching_clean_frontend (twoFrontendController [("ghost", ())])
      { Name := "https", Mode := "tcp", DefaultBackend := "default-ssl" }
      (by decide) (by decide)).2.2 (namedBackend "default-ssl") (by decide) (Or.inl rfl),
   (refreshBackendSwitching_clean_frontend (twoFrontendController [("ghost", ())])
      { Name := "https", Mode := "tcp", DefaultBackend := "default-ssl" }
      (by decide) (by decide)).2.2 (namedBackend "secure") (by decide)
      (Or.inr ⟨_, rfl, _, List.mem_cons_self _ _, rfl⟩),
   by decide⟩

/-! ## Backend switching: the condition of a compiled rule -/

theorem string_append_ne_empty_left (a b : String) (h : a ≠ "") : a ++ b ≠ "" := by
  intro hab
  apply h
  have hd : (a ++ b).data = [] := by rw [hab]
  rw [String.data_append] at hd
  exact String.ext (List.append_eq_nil.1 hd).1

theorem string_append_ne_empty_right (a b : String) (h : b ≠ "") : a ++ b ≠ "" := by
  intro hab
  apply h
  have hd : (a ++ b).data = [] := by rw [hab]
  rw [String.data_append] at hd
  exact String.ext (List.append_eq_nil.1 hd).2

theorem string_empty_append (a : String) : "" ++ a = a := by
  apply String.ext
  rw [String.data_append]
  rfl

/-- The condition that `refreshBackendSwitching` builds for a rule, by the mode of
the frontend. -/
theorem switchingCondTest_cases (rule : UseBackendRule) :
    (switchingCondTest "http" rule =
        if rule.Host = "" ∧ rule.Path = "" then none
        else some ((if rule.Host = "" then "" else "\x7b req.hdr(host) -i " ++ rule.Host ++ " \x7d ") ++
          (if rule.Path = "" then "" else "\x7b path_beg " ++ rule.Path ++ " \x7d"))) ∧
      (switchingCondTest "tcp" rule =
        if rule.Host = "" then none else some ("\x7b req_ssl_sni -i " ++ rule.Host ++ " \x7d ")) := by
  constructor
  · unfold switchingCondTest
    simp only [if_true]
    by_cases hh : rule.Host = ""
    · by_cases hp : rule.Path = ""
      · simp [hh, hp]
      · have hne : "" ++ "\x7b path_beg " ++ rule.Path ++ " \x7d" ≠ "" :=
          string_append_ne_empty_right _ _ (by decide)
        simp only [hh, hp, ne_eq, not_true_eq_false, not_false_eq_true, if_true, if_false,
          false_and, and_false, hne]
        apply congrArg some
        apply String.ext
        simp [String.data_append]
    · by_cases hp : rule.Path = ""
      · have hne : "\x7b req.hdr(host) -i " ++ rule.Host ++ " \x7d " ≠ "" :=
          string_append_ne_empty_right _ _ (by decide)
        simp only [hh, hp, ne_eq, not_true_eq_false, not_false_eq_true, if_true, if_false,
          false_and, and_false, hne]
        apply congrArg some
        apply String.ext
        simp [String.data_append]
      · have hne : "\x7b req.hdr(host) -i " ++ rule.Host ++ " \x7d " ++ "\x7b path_beg " ++ rule.Path ++
            " \x7d" ≠ "" := string_append_ne_empty_right _ _ (by decide)
        simp only [hh, hp, ne_eq, not_true_eq_false, not_false_eq_true, if_true, if_false,
          false_and, and_false, hne]
        apply congrArg some
        apply String.ext
        simp [String.data_append]
  · unfold switchingCondTest
    have h : ¬ ("tcp" = "http") := by decide
    simp only [h, if_false, if_true]

/-- The rules that `refreshBackendSwitching` leaves for a dirty frontend are the
compiled rules of its rule map. -/
theorem refreshBackendSwitching_rules (c : HAProxyController) (f : Frontend)
    (rules : UseBackendRules)
    (hlist : c.frontendsGetFails = false)
    (hnames : c.frontends.Pairwise (fun a b => a.Name ≠ b.Name)) (hf : f ∈ c.frontends)
    (hrules : mapGet c.cfg.BackendSwitchingRules f.Name = some rules)
    (hdirty : mapGet c.cfg.BackendSwitchingStatus f.Name = some ()) :
    (mapGet (refreshBackendSwitching c).2.switchingRules f.Name).getD [] =
      compileRules f.Mode rules := by
  have hloop := refreshLoop_rules c.frontends
    { c := c, activeBackends := [("RateLimit", ())], needsReload := false } f rules
    hnames hf hrules hdirty
  rcases refreshBackendSwitching_cases c with ⟨hwhy, _⟩ | ⟨_, _, hres | hres⟩
  · rcases hwhy with hempty | hfail
    · rw [hempty] at hdirty
      cases hdirty
    · rw [hlist] at hfail
      cases hfail
  · rw [hres]
    exact hloop
  · rw [hres, clearBackends_switchingRules]
    exact hloop

/-- C15: `refreshBackendSwitching` compiles a rule of a dirty frontend by the mode
of the frontend. In HTTP mode the rule is skipped if and only if its host and
its path are both empty; otherwise its condition is the host match (when the
host is not empty) followed by the path match (when the path is not empty). In
TCP mode the rule is skipped if and only if its host is empty; otherwise its
condition is the SNI match of the host, whatever the path. A compiled rule has
the backend of the rule as target, the keyword "if" and the ID 0. The rules
created for a dirty frontend are these compiled rules, in the order of the
sorted keys. -/
theorem compileRule_by_mode (useBackendRules : UseBackendRules) (key : String)
    (rule : UseBackendRule) (hrule : mapGet useBackendRules key = some rule) :
    (compileRule "http" useBackendRules key = none ↔ rule.Host = "" ∧ rule.Path = "") ∧
      (¬ (rule.Host = "" ∧ rule.Path = "") →
        compileRule "http" useBackendRules key =
          some { Cond := "if",
                 CondTest :=
                   (if rule.Host = "" then "" else "\x7b req.hdr(host) -i " ++ rule.Host ++ " \x7d ") ++
                   (if rule.Path = "" then "" else "\x7b path_beg " ++ rule.Path ++ " \x7d"),
                 Name := rule.Backend, ID := 0 }) ∧
      (compileRule "tcp" useBackendRules key = none ↔ rule.Host = "") ∧
      (rule.Host ≠ "" →
        compileRule "tcp" useBackendRules key =
          some { Cond := "if", CondTest := "\x7b req_ssl_sni -i " ++ rule.Host ++ " \x7d ",
                 Name := rule.Backend, ID := 0 }) ∧
      (∀ (c : HAProxyController) (f : Frontend), c.frontendsGetFails = false →
        c.frontends.Pairwise (fun a b => a.Name ≠ b.Name) → f ∈ c.frontends →
        mapGet c.cfg.BackendSwitchingRules f.Name = some useBackendRules →
        mapGet c.cfg.BackendSwitchingStatus f.Name = some () →
        (mapGet (refreshBackendSwitching c).2.switchingRules f.Name).getD [] =
          (sortReverse (useBackendRules.map Prod.fst)).filterMap
            (compileRule f.Mode useBackendRules)) := by
  obtain ⟨hhttp, htcp⟩ := switchingCondTest_cases rule
  refine ⟨?_, ?_, ?_, ?_, ?_⟩
  · unfold compileRule
    simp only [hrule, Option.getD_some, hhttp]
    by_cases h : rule.Host = "" ∧ rule.Path = ""
    · simp [h]
    · simp [h]
  · intro h
    unfold compileRule
    simp only [hrule, Option.getD_some, hhttp, h, if_false]
  · unfold compileRule
    simp only [hrule, Option.getD_some, htcp]
    by_cases h : rule.Host = ""
    · simp [h]
    · simp [h]
  · intro h
    unfold compileRule
    simp only [hrule, Option.getD_some, htcp, h, if_false]
  · intro c f hlist hnames hf hrules hdirty
    exact refreshBackendSwitching_rules c f useBackendRules hlist hnames hf hrules hdirty

/-- Witness of `compileRule_by_mode`: the rule of the key "a.com/" of the frontend
"http", with host and path, and the rule of the key "b.com" of the TCP frontend
"https", with a host only; both frontends dirty. -/
theorem compileRule_by_mode_witness :
    compileRule "http"
        [("a.com/", { Host := "a.com", Path := "/", Backend := "web", Namespace := "default" })]
        "a.com/" =
        some { Cond := "if", CondTest := "\x7b req.hdr(host) -i a.com \x7d \x7b path_beg / \x7d",
               Name := "web", ID := 0 } ∧
      compileRule "tcp"
        [("b.com", { Host := "b.com", Path := "", Backend := "secure", Namespace := "default" })]
        "b.com" =
        some { Cond := "if", CondTest := "\x7b req_ssl_sni -i b.com \x7d ", Name := "secure",
               ID := 0 } ∧
      (compileRule "tcp"
        [("/x", { Host := "", Path := "/x", Backend := "web", Namespace := "default" })]
        "/x" = none) ∧
      (mapGet (refreshBackendSwitching
          (twoFrontendController [("http", ()), ("https", ())])).2.switchingRules
          "https").getD [] =
        [{ Cond := "if", CondTest := "\x7b req_ssl_sni -i b.com \x7d ", Name := "secure", ID := 0 }] :=
  ⟨(compileRule_by_mode
      [("a.com/", { Host := "a.com", Path := "/", Backend := "web", Namespace := "default" })]
      "a.com/" { Host := "a.com", Path := "/", Backend := "web", Namespace := "default" }
      rfl).2.1 (by decide),
   (compileRule_by_mode
      [("b.com", { Host := "b.com", Path := "", Backend := "secure", Namespace := "default" })]
      "b.com" { Host := "b.com", Path := "", Backend := "secure", Namespace := "default" }
      rfl).2.2.2.1 (by decide),
   (compileRule_by_mode
      [("/x", { Host := "", Path := "/x", Backend := "web", Namespace := "default" })]
      "/x" { Host := "", Path := "/x", Backend := "web", Namespace := "default" }
      rfl).2.2.1.2 rfl,
   (compileRule_by_mode
      [("b.com", { Host := "b.com", Path := "", Backend := "secure", Namespace := "default" })]
      "b.com" { Host := "b.com", Path := "", Backend := "secure", Namespace := "default" }
      rfl).2.2.2.2 (twoFrontendController [("http", ()), ("https", ())])
      { Name := "https", Mode := "tcp", DefaultBackend := "default-ssl" }
      rfl (by decide) (by decide) rfl rfl⟩

/-! ## SSL passthrough: a value that is no boolean -/

/-- C16: when the value of the ssl-passthrough directive does not parse as a
boolean, `handleSSLPassthrough` changes nothing: the path, with
`IsSSLPassthrough` and `Status`, and the controller, with the mode of every
backend, are as before the call. -/
theorem handleSSLPassthrough_parse_error (c : HAProxyController) (annSSLPassthrough : StringW)
    (path : IngressPath) (backendName : String) (e : String)
    (hparse : strconvParseBool annSSLPassthrough.Value = .error e) :
    handleSSLPassthrough c annSSLPassthrough path backendName = (path, c) := by
  unfold handleSSLPassthrough
  split
  · simp [hparse]
  · rfl

/-- Witness of `handleSSLPassthrough_parse_error`: the value "enabled", which
`strconv.ParseBool` rejects, on the path /foo of the backend "web". -/
theorem handleSSLPassthrough_parse_error_witness :
    handleSSLPassthrough webController ⟨"enabled", "", Status.ADDED⟩
        ⟨"/foo", false, Status.ADDED⟩ "web" =
      (⟨"/foo", false, Status.ADDED⟩, webController) :=
  handleSSLPassthrough_parse_error webController ⟨"enabled", "", Status.ADDED⟩
    ⟨"/foo", false, Status.ADDED⟩ "web" _ rfl

/-! ## Backend annotations: the order of the keys -/

/-- The description `stepEdit` is the effect of `backendAnnotationStep`. -/
theorem backendAnnotationStep_edit (ext : Externals) (newBackend : Bool) (st : backend × Bool)
    (kv : String × Option StringW) :
    backendAnnotationStep ext newBackend st kv =
      match stepEdit ext newBackend st.1.Mode kv with
      | none => st
      | some e => (e.run st.1, true) := by
  obtain ⟨k, v⟩ := kv
  obtain ⟨b, r⟩ := st
  unfold backendAnnotationStep stepEdit
  cases v with
  | none => rfl
  | some v =>
    simp only
    by_cases h0 : v.Status ≠ Status.EMPTY ∨ newBackend = true
    · simp only [h0, if_true]
      by_cases h1 : k = "abortonclose"
      · simp only [h1, if_true]
        by_cases hv : v.Value = "enabled" <;> simp [updateAbortOnClose, hv, FieldEdit.run]
      · simp only [h1, if_false]
        by_cases h2 : k = "check-http"
        · simp only [h2, if_true]
          by_cases hd : v.Status = Status.DELETED ∧ newBackend = false
          · simp only [hd, and_self, if_true, FieldEdit.run]
          · simp only [hd, if_false, updateHttpchk]
            cases httpchkOfParams (stringsFields (stringsTrimSpace v.Value)) with
            | none => rfl
            | some val =>
              simp only
              cases ext.validateHttpchk val <;> rfl
        · simp only [h2, if_false]
          by_cases h3 : k = "forwarded-for"
          · simp only [h3, if_true, updateForwardfor]
            by_cases hm : b.Mode = ModeTCP
            · simp only [hm, if_true, FieldEdit.run]
            · simp only [hm, if_false]
              cases strconvParseBool v.Value with
              | error e => rfl
              | ok en => cases en <;> rfl
          · simp only [h3, if_false]
            by_cases h4 : k = "load-balance"
            · simp only [h4, if_true, updateBalance]
              cases ext.validateBalance { Algorithm := v.Value } <;> rfl
            · simp only [h4, if_false]
              by_cases h5 : k = "timeout-check"
              · simp only [h5, if_true]
                by_cases hd : v.Status = Status.DELETED ∧ newBackend = false
                · simp only [hd, and_self, if_true, FieldEdit.run]
                · simp only [hd, if_false, updateCheckTimeout]
                  cases ext.ParseTime v.Value <;> rfl
              · simp only [h5, if_false]
    · simp only [h0, if_false]

theorem FieldEdit.run_mode (e : FieldEdit) (b : backend) : (e.run b).Mode = b.Mode := by
  cases e <;> rfl

theorem FieldEdit.run_comm (e1 e2 : FieldEdit) (b : backend) (h : e1.key ≠ e2.key) :
    e2.run (e1.run b) = e1.run (e2.run b) := by
  cases e1 <;> cases e2 <;> first
    | rfl
    | exact absurd rfl h

theorem stepEdit_key (ext : Externals) (newBackend : Bool) (mode : String)
    (kv : String × Option StringW) (e : FieldEdit)
    (h : stepEdit ext newBackend mode kv = some e) : e.key = kv.1 := by
  obtain ⟨k, v⟩ := kv
  unfold stepEdit at h
  cases v with
  | none => cases h
  | some v =>
    simp only at h
    by_cases h0 : v.Status ≠ Status.EMPTY ∨ newBackend = true
    · simp only [h0, if_true] at h
      by_cases h1 : k = "abortonclose"
      · simp only [h1, if_true, Option.some.injEq] at h
        subst h
        exact h1.symm
      · simp only [h1, if_false] at h
        by_cases h2 : k = "check-http"
        · simp only [h2, if_true] at h
          by_cases hd : v.Status = Status.DELETED ∧ newBackend = false
          · simp only [hd, and_self, if_true, Option.some.injEq] at h
            subst h
            exact h2.symm
          · simp only [hd, if_false] at h
            cases hp : httpchkOfParams (stringsFields (stringsTrimSpace v.Value)) with
            | none => simp [hp] at h
            | some val =>
              simp only [hp] at h
              cases hv : ext.validateHttpchk val with
              | error x => simp [hv] at h
              | ok u =>
                simp only [hv, Option.some.injEq] at h
                subst h
                exact h2.symm
        · simp only [h2, if_false] at h
          by_cases h3 : k = "forwarded-for"
          · simp only [h3, if_true] at h
            by_cases hm : mode = ModeTCP
            · simp only [hm, if_true, Option.some.injEq] at h
              subst h
              exact h3.symm
            · simp only [hm, if_false] at h
              cases hb : strconvParseBool v.Value with
              | error x => simp [hb] at h
              | ok en =>
                simp only [hb, Option.some.injEq] at h
                subst h
                exact h3.symm
          · simp only [h3, if_false] at h
            by_cases h4 : k = "load-balance"
            · simp only [h4, if_true] at h
              cases hb : ext.validateBalance { Algorithm := v.Value } with
              | error x => simp [hb] at h
              | ok u =>
                simp only [hb, Option.some.injEq] at h
                subst h
                exact h4.symm
            · simp only [h4, if_false] at h
              by_cases h5 : k = "timeout-check"
              · simp only [h5, if_true] at h
                by_cases hd : v.Status = Status.DELETED ∧ newBackend = false
                · simp only [hd, and_self, if_true, Option.some.injEq] at h
                  subst h
                  exact h5.symm
                · simp only [hd, if_false] at h
                  cases hb : ext.ParseTime v.Value with
                  | error x => simp [hb] at h
                  | ok t =>
                    simp only [hb, Option.some.injEq] at h
                    subst h
                    exact h5.symm
              · simp [h5] at h
    · simp [h0] at h

/-- An iteration of the loop keeps the mode of the backend. -/
theorem backendAnnotationStep_mode (ext : Externals) (newBackend : Bool) (st : backend × Bool)
    (kv : String × Option StringW) :
    (backendAnnotationStep ext newBackend st kv).1.Mode = st.1.Mode := by
  rw [backendAnnotationStep_edit]
  cases stepEdit ext newBackend st.1.Mode kv with
  | none => rfl
  | some e => exact e.run_mode st.1

/-- Two iterations of the loop on entries of the same map commute. -/
theorem backendAnnotationStep_comm (ext : Externals) (newBackend : Bool)
    (getValue : String → Option StringW) (k1 k2 : String) (st : backend × Bool) :
    backendAnnotationStep ext newBackend
        (backendAnnotationStep ext newBackend st (k1, getValue k1)) (k2, getValue k2) =
      backendAnnotationStep ext newBackend
        (backendAnnotationStep ext newBackend st (k2, getValue k2)) (k1, getValue k1) := by
  by_cases hk : k1 = k2
  · subst hk
    rfl
  · have h12 : backendAnnotationStep ext newBackend
        (backendAnnotationStep ext newBackend st (k1, getValue k1)) (k2, getValue k2) =
        match stepEdit ext newBackend st.1.Mode (k2, getValue k2) with
        | none => backendAnnotationStep ext newBackend st (k1, getValue k1)
        | some e => (e.run (backendAnnotationStep ext newBackend st (k1, getValue k1)).1, true) := by
      rw [backendAnnotationStep_edit ext newBackend
        (backendAnnotationStep ext newBackend st (k1, getValue k1)) (k2, getValue k2),
        backendAnnotationStep_mode]
    have h21 : backendAnnotationStep ext newBackend
        (backendAnnotationStep ext newBackend st (k2, getValue k2)) (k1, getValue k1) =
        match stepEdit ext newBackend st.1.Mode (k1, getValue k1) with
        | none => backendAnnotationStep ext newBackend st (k2, getValue k2)
        | some e => (e.run (backendAnnotationStep ext newBackend st (k2, getValue k2)).1, true) := by
      rw [backendAnnotationStep_edit ext newBackend
        (backendAnnotationStep ext newBackend st (k2, getValue k2)) (k1, getValue k1),
        backendAnnotationStep_mode]
    rw [h12, h21, backendAnnotationStep_edit ext newBackend st (k1, getValue k1),
      backendAnnotationStep_edit ext newBackend st (k2, getValue k2)]
    cases h1 : stepEdit ext newBackend st.1.Mode (k1, getValue k1) with
    | none =>
      cases h2 : stepEdit ext newBackend st.1.Mode (k2, getValue k2) with
      | none => rfl
      | some e2 => rfl
    | some e1 =>
      cases h2 : stepEdit ext newBackend st.1.Mode (k2, getValue k2) with
      | none => rfl
      | some e2 =>
        have hkey : e1.key ≠ e2.key := by
          rw [stepEdit_key _ _ _ _ _ h1, stepEdit_key _ _ _ _ _ h2]
          exact hk
        simp only [FieldEdit.run_comm e1 e2 st.1 hkey]

/-- The loop of `handleBackendAnnotations` gives the same backend and the same
`needReload` for two visiting orders of the same keys. -/
theorem applyBackendAnnotations_perm (ext : Externals) (getValue : String → Option StringW)
    (order1 order2 : List String) (newBackend : Bool) (b : backend)
    (hperm : order1.Perm order2) :
    applyBackendAnnotations ext getValue order1 newBackend b =
      applyBackendAnnotations ext getValue order2 newBackend b := by
  unfold applyBackendAnnotations
  apply List.Perm.foldl_eq' (hperm.map _)
  intro x hx y hy z
  obtain ⟨k1, _, rfl⟩ := List.mem_map.1 hx
  obtain ⟨k2, _, rfl⟩ := List.mem_map.1 hy
  exact backendAnnotationStep_comm ext newBackend getValue k1 k2 z

/-- When the iteration for the key `k` changes nothing on the backends of the mode
of `b`, the loop gives the same result with and without the key. -/
theorem applyBackendAnnotations_skip (ext : Externals) (getValue : String → Option StringW)
    (order : List String) (newBackend : Bool) (b : backend) (k : String)
    (hskip : stepEdit ext newBackend b.Mode (k, getValue k) = none) :
    applyBackendAnnotations ext getValue order newBackend b =
      applyBackendAnnotations ext getValue (order.filter (fun x => x != k)) newBackend b := by
  unfold applyBackendAnnotations
  have hgen : ∀ (l : List String) (st : backend × Bool), st.1.Mode = b.Mode →
      (l.map (fun k => (k, getValue k))).foldl (backendAnnotationStep ext newBackend) st =
        ((l.filter (fun x => x != k)).map (fun k => (k, getValue k))).foldl
          (backendAnnotationStep ext newBackend) st := by
    intro l
    induction l with
    | nil => intro st _; rfl
    | cons x xs ih =>
      intro st hst
      by_cases hx : x = k
      · subst hx
        have hid : backendAnnotationStep ext newBackend st (x, getValue x) = st := by
          rw [backendAnnotationStep_edit, hst, hskip]
        simp only [List.map_cons, List.foldl_cons, hid, bne_self_eq_false, Bool.false_eq_true,
          not_false_eq_true, List.filter_cons_of_neg]
        exact ih st hst
      · have hfilter : (x :: xs).filter (fun x => x != k) = x :: xs.filter (fun x => x != k) := by
          simp [List.filter_cons, hx]
        rw [hfilter]
        simp only [List.map_cons, List.foldl_cons]
        exact ih _ ((backendAnnotationStep_mode ext newBackend st _).trans hst)
  exact hgen order (b, false) rfl

/-- An iteration whose updater returns an error leaves the backend and
`needReload` as they are. -/
theorem backendAnnotationStep_of_error (ext : Externals) (newBackend : Bool)
    (st : backend × Bool) (v : StringW) (e : String) :
    (updateHttpchk ext st.1 v = .error e → ¬ (v.Status = Status.DELETED ∧ newBackend = false) →
        backendAnnotationStep ext newBackend st ("check-http", some v) = st) ∧
      (updateForwardfor st.1 v = .error e →
        backendAnnotationStep ext newBackend st ("forwarded-for", some v) = st) ∧
      (updateBalance ext st.1 v = .error e →
        backendAnnotationStep ext newBackend st ("load-balance", some v) = st) ∧
      (updateCheckTimeout ext st.1 v = .error e →
        ¬ (v.Status = Status.DELETED ∧ newBackend = false) →
        backendAnnotationStep ext newBackend st ("timeout-check", some v) = st) := by
  refine ⟨?_, ?_, ?_, ?_⟩
  · intro h hd
    unfold backendAnnotationStep
    simp only [h, hd, if_false]
    split <;> simp
  · intro h
    unfold backendAnnotationStep
    simp only [h]
    split <;> simp
  · intro h
    unfold backendAnnotationStep
    simp only [h]
    split <;> simp
  · intro h hd
    unfold backendAnnotationStep
    simp only [h, hd, if_false]
    split <;> simp

/-- C20: the result of `handleBackendAnnotations`, the stored backend with
`needReload` and the error, does not depend on the order in which the keys of
`backendAnnotations` are visited: two visiting orders of the same keys give
equal results. A key whose iteration applies nothing to the backend, as when its
updater fails, changes nothing in what the other keys apply: the loop gives the
same backend and `needReload` as the loop over the other keys. -/
theorem handleBackendAnnotations_order (ext : Externals) (getValue : String → Option StringW)
    (order1 order2 : List String) (c : HAProxyController) (backendName : String)
    (newBackend : Bool) (hperm : order1.Perm order2) :
    handleBackendAnnotations ext getValue order1 c backendName newBackend =
        handleBackendAnnotations ext getValue order2 c backendName newBackend ∧
      (∀ b, applyBackendAnnotations ext getValue order1 newBackend b =
        applyBackendAnnotations ext getValue order2 newBackend b) ∧
      (∀ b k, backendAnnotationStep ext newBackend (b, false) (k, getValue k) = (b, false) →
        applyBackendAnnotations ext getValue order1 newBackend b =
          applyBackendAnnotations ext getValue (order2.filter (fun x => x != k)) newBackend b) := by
  have hloop := fun b => applyBackendAnnotations_perm ext getValue order1 order2 newBackend b hperm
  refine ⟨?_, hloop, ?_⟩
  · unfold handleBackendAnnotations
    simp only [hloop]
  · intro b k hk
    rw [hloop b]
    apply applyBackendAnnotations_skip
    rw [backendAnnotationStep_edit] at hk
    cases he : stepEdit ext newBackend b.Mode (k, getValue k) with
    | none => rfl
    | some e =>
      simp only [he] at hk
      have := congrArg Prod.snd hk
      simp at this

/-- Witness of `handleBackendAnnotations_order`: the five keys in their order and
in the reverse order on the backend "web"; the updater of `load-balance` fails
on "bogus" and the four other keys apply their values. -/
theorem handleBackendAnnotations_order_witness :
    handleBackendAnnotations strictExternals changedAnnotations backendAnnotationNames
        webController "web" false =
      handleBackendAnnotations strictExternals changedAnnotations
        backendAnnotationNames.reverse webController "web" false ∧
      applyBackendAnnotations strictExternals changedAnnotations backendAnnotationNames false
        fullBackend =
      applyBackendAnnotations strictExternals changedAnnotations
        (backendAnnotationNames.reverse.filter (fun x => x != "load-balance")) false
        fullBackend ∧
      applyBackendAnnotations strictExternals changedAnnotations backendAnnotationNames false
        fullBackend =
      ({ Name := "web", Mode := "http", Balance := some { Algorithm := "leastconn" },
         Forwardfor := some { Enabled := "enabled" },
         Httpchk := some { Method := "HEAD", URI := "/live", Version := "" },
         Abortonclose := "enabled", CheckTimeout := some 5000 }, true) :=
  have h := handleBackendAnnotations_order strictExternals changedAnnotations
    backendAnnotationNames backendAnnotationNames.reverse webController "web" false
    (List.reverse_perm _).symm
  ⟨h.1, h.2.2 fullBackend "load-balance" (by decide), by decide⟩

end KubernetesIngress
